import Mathlib

/-!
# ControlsWindowGTK: cross-thread marshalling core

A shallow embedding of the base classes of `ControlsWindowGTK.hpp`
(`EventData`, `EventQueue`, `TimerData`, `BackgroundApp`, `BackgroundAppRunner`,
`WindowBase` with its concrete subclass `ControlsWindow`).

Conventions of the embedding:

* a C++ pointer is a natural number, `0` is `nullptr`;
* objects reached through pointers live in the maps of `World`;
* a method that changes the state is a function on `World`; a method of an object takes the
  address of the object (`this`), or the object itself when it only reads or changes that object;
* `new` returns the address `World.heap_top` and increments it;
* a blocking wait of the worker is the place where the other threads change the state (see
  `WindowBase.show_window`); one run of `on_idle` on the GUI thread is one step;
* calls that leave the program (user callbacks, application handlers, toolkit calls) are recorded,
  in order, in `World.trace`;
* dereferencing a pointer to an object that is not alive is recorded as `Call.invalid_access`.
-/

namespace shl.gtk.base

/-- A C++ object address; `0` is `nullptr`. -/
abbrev Ptr := Nat

/-- The null pointer. -/
abbrev nullptr : Ptr := 0

/-- A function pointer of type `void (*)(EventData *)`: null, the static member
`TimerData::process_timer_event`, or a handler supplied by the application. -/
inductive Handler where
  | null
  | process_timer_event
  | func (id : Nat)
  deriving DecidableEq, Repr

/-- The class `EventData`: the source of the event and the handler to run for it. The queues hold
pointers to event objects, and the derived classes add data to them; `addr` is the address of the
event object, which tells two events with the same source and handler apart. -/
structure EventData where
  addr : Ptr
  m_source : Ptr
  m_handler : Handler
  deriving DecidableEq, Repr

/-- The class `EventQueue`: the list `m_event_data_queue` (front of the queue first) and the number
of `notify_all` calls made on `m_new_event_cond`. -/
structure EventQueue where
  m_event_data_queue : List EventData
  notified : Nat
  deriving DecidableEq, Repr

/-- The class `TimerData`. `mTimerConnection` is the identifier of the timeout registration the
`sigc::connection` refers to, if it was ever assigned. -/
structure TimerData where
  m_interval_ms : Nat
  m_timer_event_func : Ptr
  m_user_data : Ptr
  m_user_event_queue : Ptr
  mTimerConnection : Option Nat
  m_is_running : Bool
  deriving DecidableEq, Repr

/-- The class `BackgroundApp`: the pending-work queues (front first), the list of bound
controllers, the quit flag, the number of `notify_all` calls on `m_window_cond` and the number of
one-shot `on_idle` handlers connected to `Glib::signal_idle()` that have not run yet. -/
structure BackgroundApp where
  m_create_win_queue : List Ptr
  m_win_title_queue : List (Option String)
  m_delete_win_queue : List Ptr
  m_update_win_queue : List Ptr
  m_connect_timer_queue : List Ptr
  m_disconnect_timer_queue : List Ptr
  m_window_list : List Ptr
  m_quit : Bool
  window_cond_notified : Nat
  idle_connected : Nat
  deriving DecidableEq, Repr

/-- The class `BackgroundAppRunner`: the executor, if it was constructed, and whether the
dedicated thread exists (`m_thread != nullptr`). -/
structure BackgroundAppRunner where
  m_app : Option BackgroundApp
  m_thread : Bool
  deriving DecidableEq, Repr

/-- The class `MainWindow`, reduced to the title it was constructed with and the controller whose
widgets it shows. -/
structure MainWindow where
  m_title : String
  m_controls_data : Ptr
  deriving DecidableEq, Repr

/-- The class `ControlsWindow` with the members of its base class `WindowBase`. The two counters
are the numbers of `notify_all` calls on `m_new_window_cond` and `m_delete_window_cond`. -/
structure ControlsWindow where
  m_background_queue : EventQueue
  m_user_event_queue : Ptr
  m_close_notify_list : List Ptr
  m_timer_list : List Ptr
  m_window : Ptr
  new_window_notified : Nat
  delete_window_notified : Nat
  deriving DecidableEq, Repr

/-- A call that leaves the embedded program, or an instrumentation point. -/
inductive Call where
  /-- An application handler `m_handler(this)` run for an event. -/
  | handler (id : Nat) (event : EventData)
  /-- The user callback of a timer, `m_timer_event_func(m_user_data)`. -/
  | timer_event_func (func : Ptr) (user_data : Ptr)
  /-- A use of an object that is not alive, or a call through a null function pointer. -/
  | invalid_access (p : Ptr)
  /-- Instrumentation: `back_app_update_window` was entered on a controller. -/
  | back_app_update_window (controller : Ptr)
  /-- Toolkit: `Gtk::Application::hold`. -/
  | hold
  /-- Toolkit: `Gtk::Application::add_window`. -/
  | add_window (window : Ptr)
  /-- Toolkit: connection of the delete-event and hide signals of a window. -/
  | connect_signals (window : Ptr)
  /-- Toolkit: `Gtk::Window::present`. -/
  | present (window : Ptr)
  /-- Toolkit: `Gtk::Window::close`. -/
  | close (window : Ptr)
  /-- Toolkit: `Gtk::Application::remove_window`. -/
  | remove_window (window : Ptr)
  /-- Toolkit: `Gtk::Application::quit`. -/
  | quit
  /-- The construction of the dedicated thread, `new std::thread(thread_func, this)`. -/
  | start_thread
  deriving DecidableEq, Repr

/-- The whole program state. -/
structure World where
  /-- The function-local static `s_runner` of `BackgroundAppRunner::get_runner`. -/
  runner : BackgroundAppRunner
  /-- The live controllers. -/
  controllers : Ptr → Option ControlsWindow
  /-- The live timers. -/
  timers : Ptr → Option TimerData
  /-- The live window objects. -/
  main_windows : Ptr → Option MainWindow
  /-- The event queues that are reached through a pointer (user queues, the global queue). -/
  queues : Ptr → EventQueue
  /-- The timeout registrations of the main loop: connection identifier and timer. -/
  timeouts : List (Nat × Ptr)
  /-- The identifier the next timeout registration gets. -/
  next_connection : Nat
  /-- The function-local static `window_num` of `back_app_create_window`. -/
  window_num : Nat
  /-- The address the next `new` returns. -/
  heap_top : Ptr
  /-- The calls made so far, oldest first. -/
  trace : List Call

/-- Appends a call to the trace. -/
def World.call (w : World) (c : Call) : World :=
  { w with trace := w.trace ++ [c] }

/-- Replaces the object stored at one address of a map. -/
def store {α : Type} (m : Ptr → α) (p : Ptr) (a : α) : Ptr → α :=
  fun q => if q = p then a else m q

/-! ## EventData -/

/-- The method `EventData::get_source`. -/
def EventData.get_source (this : EventData) : Ptr :=
  this.m_source

/-- The method `EventData::is_same_source`. -/
def EventData.is_same_source (this in_event_data : EventData) : Bool :=
  if this.m_source = in_event_data.m_source ∧ this.m_handler = in_event_data.m_handler then
    true
  else
    false

/-- The static method `TimerData::process_timer_event`. -/
def TimerData.process_timer_event (in_event : EventData) (w : World) : World :=
  let timer := in_event.get_source
  match w.timers timer with
  | none => w.call (Call.invalid_access timer)
  | some t =>
    if t.m_timer_event_func = nullptr then
      w.call (Call.invalid_access nullptr)
    else
      w.call (Call.timer_event_func t.m_timer_event_func t.m_user_data)

/-- The method `EventData::invoke_handler`. -/
def EventData.invoke_handler (this : EventData) (w : World) : World :=
  match this.m_handler with
  | Handler.null => w
  | Handler.process_timer_event => TimerData.process_timer_event this w
  | Handler.func id => w.call (Call.handler id this)

/-! ## EventQueue -/

/-- The method `EventQueue::push(EventData *)`. -/
def EventQueue.push (this : EventQueue) (in_event : EventData) : EventQueue :=
  { m_event_data_queue := this.m_event_data_queue ++ [in_event]
    notified := this.notified + 1 }

/-- The method `EventQueue::notify`. -/
def EventQueue.notify (this : EventQueue) : EventQueue :=
  { this with notified := this.notified + 1 }

/-- The loop of `EventQueue::process_events` on the content of the queue. The lock is held for the
whole loop, so the handlers do not see the queue. Returns what is left in the queue. -/
def EventQueue.process_events_loop (in_last_only : Bool) :
    List EventData → World → List EventData × World
  | [], w => ([], w)
  | event_data :: rest, w =>
    let skip := in_last_only && rest.any (fun it => event_data.is_same_source it)
    let w1 := if skip = false then event_data.invoke_handler w else w
    EventQueue.process_events_loop in_last_only rest w1

/-- The method `EventQueue::process_events`. -/
def EventQueue.process_events (this : EventQueue) (in_last_only : Bool) (w : World) :
    EventQueue × World :=
  let r := EventQueue.process_events_loop in_last_only this.m_event_data_queue w
  ({ this with m_event_data_queue := r.1 }, r.2)

/-- The method `EventQueue::push(EventData *)` on the queue at address `q`. -/
def World.push_event (w : World) (q : Ptr) (in_event : EventData) : World :=
  { w with queues := store w.queues q ((w.queues q).push in_event) }

/-- The method `EventQueue::push(void *, void (*)(EventData *))` on the queue at address `q`: a new
event object is allocated and pushed. -/
def World.push (w : World) (q : Ptr) (in_source : Ptr) (in_handler : Handler) : World :=
  let event : EventData :=
    { addr := w.heap_top, m_source := in_source, m_handler := in_handler }
  { w with heap_top := w.heap_top + 1 }.push_event q event

/-- The method `EventQueue::notify` on the queue at address `q`. -/
def World.notify_queue (w : World) (q : Ptr) : World :=
  { w with queues := store w.queues q (w.queues q).notify }

/-- The method `EventQueue::process_events` on the queue at address `q`. -/
def World.process_events (w : World) (q : Ptr) (in_last_only : Bool) : World :=
  let r := (w.queues q).process_events in_last_only w
  { r.2 with queues := store r.2.queues q r.1 }

/-! ## TimerData -/

/-- The constructor `TimerData::TimerData`. -/
def TimerData.new (in_interval_ms : Nat) (in_user_event_queue : Ptr)
    (in_timer_event_func : Ptr) (in_user_data : Ptr) : TimerData :=
  { m_interval_ms := in_interval_ms
    m_user_event_queue := in_user_event_queue
    m_timer_event_func := in_timer_event_func
    m_user_data := in_user_data
    mTimerConnection := none
    m_is_running := false }

/-- The method `TimerData::connect`, on the timer at address `this`. -/
def TimerData.connect (this : Ptr) (w : World) : World :=
  match w.timers this with
  | none => w.call (Call.invalid_access this)
  | some t =>
    { w with
      timeouts := w.timeouts ++ [(w.next_connection, this)]
      next_connection := w.next_connection + 1
      timers := store w.timers this
        (some { t with mTimerConnection := some w.next_connection, m_is_running := true }) }

/-- The call `mTimerConnection.disconnect()`: the registration the connection refers to, if it is
still there, is removed from the main loop. -/
def disconnect_connection (c : Option Nat) (timeouts : List (Nat × Ptr)) : List (Nat × Ptr) :=
  match c with
  | none => timeouts
  | some id => timeouts.filter (fun r => r.1 ≠ id)

/-- The method `TimerData::disconnect`, on the timer at address `this`. -/
def TimerData.disconnect (this : Ptr) (w : World) : World :=
  match w.timers this with
  | none => w.call (Call.invalid_access this)
  | some t =>
    if t.m_is_running = false then
      w
    else
      { w with
        timeouts := disconnect_connection t.mTimerConnection w.timeouts
        timers := store w.timers this (some { t with m_is_running := false }) }

/-- The method `TimerData::queue_timer_event`, on the timer at address `this`: the call-in of the
timeout registration. The result is what it returns (false disconnects the registration). -/
def TimerData.queue_timer_event (this : Ptr) (w : World) : Bool × World :=
  match w.timers this with
  | none => (false, w.call (Call.invalid_access this))
  | some t =>
    if t.m_user_event_queue = nullptr ∨ t.m_timer_event_func = nullptr then
      (false, w)
    else
      (true, w.push t.m_user_event_queue this Handler.process_timer_event)

/-! ## BackgroundApp: the posting side -/

/-- The constructor `BackgroundApp::BackgroundApp`. -/
def BackgroundApp.new : BackgroundApp :=
  { m_create_win_queue := []
    m_win_title_queue := []
    m_delete_win_queue := []
    m_update_win_queue := []
    m_connect_timer_queue := []
    m_disconnect_timer_queue := []
    m_window_list := []
    m_quit := false
    window_cond_notified := 0
    idle_connected := 0 }

/-- The method `BackgroundApp::post_create_window`. -/
def BackgroundApp.post_create_window (this : BackgroundApp) (in_interface : Ptr)
    (in_title : Option String) : BackgroundApp :=
  { this with
    m_create_win_queue := this.m_create_win_queue ++ [in_interface]
    m_win_title_queue := this.m_win_title_queue ++ [in_title]
    idle_connected := this.idle_connected + 1 }

/-- The method `BackgroundApp::post_delete_window`. -/
def BackgroundApp.post_delete_window (this : BackgroundApp) (in_interface : Ptr) :
    BackgroundApp :=
  { this with
    m_delete_win_queue := this.m_delete_win_queue ++ [in_interface]
    idle_connected := this.idle_connected + 1 }

/-- The method `BackgroundApp::post_update_window`. -/
def BackgroundApp.post_update_window (this : BackgroundApp) (in_interface : Ptr) :
    BackgroundApp :=
  { this with
    m_update_win_queue := this.m_update_win_queue ++ [in_interface]
    idle_connected := this.idle_connected + 1 }

/-- The method `BackgroundApp::post_connect_timer`. -/
def BackgroundApp.post_connect_timer (this : BackgroundApp) (inTimerData : Ptr) :
    BackgroundApp :=
  { this with
    m_connect_timer_queue := this.m_connect_timer_queue ++ [inTimerData]
    idle_connected := this.idle_connected + 1 }

/-- The method `BackgroundApp::post_disconnect_timer`. -/
def BackgroundApp.post_disconnect_timer (this : BackgroundApp) (inTimerData : Ptr) :
    BackgroundApp :=
  { this with
    m_disconnect_timer_queue := this.m_disconnect_timer_queue ++ [inTimerData]
    idle_connected := this.idle_connected + 1 }

/-- The method `BackgroundApp::post_quit_app`. -/
def BackgroundApp.post_quit_app (this : BackgroundApp) : BackgroundApp :=
  { this with
    m_quit := true
    idle_connected := this.idle_connected + 1 }

/-- The method `BackgroundApp::get_window_num`. -/
def BackgroundApp.get_window_num (this : BackgroundApp) : Nat :=
  this.m_window_list.length

/-! ## BackgroundAppRunner -/

/-- The constructor `BackgroundAppRunner::BackgroundAppRunner`. -/
def BackgroundAppRunner.new : BackgroundAppRunner :=
  { m_app := none, m_thread := false }

/-- Replaces the executor of the runner. -/
def World.set_app (w : World) (app : BackgroundApp) : World :=
  { w with runner := { w.runner with m_app := some app } }

/-- The method `BackgroundAppRunner::get_window_num`. -/
def BackgroundAppRunner.get_window_num (w : World) : Nat :=
  match w.runner.m_app with
  | none => 0
  | some app => app.get_window_num

/-- The method `BackgroundAppRunner::is_window_close_all`. -/
def BackgroundAppRunner.is_window_close_all (w : World) : Bool :=
  if BackgroundAppRunner.get_window_num w = 0 then true else false

/-- The method `BackgroundAppRunner::create_window`. -/
def BackgroundAppRunner.create_window (in_interface : Ptr) (in_title : Option String)
    (w : World) : World :=
  let r : BackgroundApp × World :=
    match w.runner.m_app with
    | none => (BackgroundApp.new, w.call Call.hold)
    | some app => (app, w)
  let w1 := r.2.set_app (r.1.post_create_window in_interface in_title)
  if w1.runner.m_thread ≠ false then
    w1
  else
    let w2 := w1.call Call.start_thread
    { w2 with runner := { w2.runner with m_thread := true } }

/-- The method `BackgroundAppRunner::delete_window`. -/
def BackgroundAppRunner.delete_window (in_interface : Ptr) (w : World) : World :=
  match w.runner.m_app with
  | none => w
  | some app => w.set_app (app.post_delete_window in_interface)

/-- The method `BackgroundAppRunner::update_window`. -/
def BackgroundAppRunner.update_window (in_interface : Ptr) (w : World) : World :=
  match w.runner.m_app with
  | none => w
  | some app => w.set_app (app.post_update_window in_interface)

/-- The method `BackgroundAppRunner::connect_timer`. -/
def BackgroundAppRunner.connect_timer (inTimerData : Ptr) (w : World) : World :=
  match w.runner.m_app with
  | none => w
  | some app => w.set_app (app.post_connect_timer inTimerData)

/-- The method `BackgroundAppRunner::disconnect_timer`. -/
def BackgroundAppRunner.disconnect_timer (inTimerData : Ptr) (w : World) : World :=
  match w.runner.m_app with
  | none => w
  | some app => w.set_app (app.post_disconnect_timer inTimerData)

/-! ## WindowBase and ControlsWindow: the methods the executor calls (GUI thread) -/

/-- The address of the function-local static `s_user_global_queue` of
`WindowBase::get_user_global_queue`. -/
def WindowBase.get_user_global_queue : Ptr := 1

/-- The method `ControlsWindow::get_default_window_title`. -/
def ControlsWindow.get_default_window_title : String := "ControlsWindow"

/-- The method `ControlsWindow::get_window_object`. -/
def ControlsWindow.get_window_object (this : ControlsWindow) : Ptr :=
  this.m_window

/-- The method `WindowBase::back_app_get_window`. -/
def ControlsWindow.back_app_get_window (this : ControlsWindow) : Ptr :=
  this.get_window_object

/-- The method `ControlsWindow::is_window_object_null`. -/
def ControlsWindow.is_window_object_null (this : ControlsWindow) : Bool :=
  if this.m_window = nullptr then true else false

/-- The method `WindowBase::back_app_is_window_deleted`. -/
def ControlsWindow.back_app_is_window_deleted (this : ControlsWindow) : Bool :=
  this.is_window_object_null

/-- The method `WindowBase::back_app_delete_request`. -/
def ControlsWindow.back_app_delete_request (_this : ControlsWindow) : Bool :=
  false

/-- The title `back_app_create_window` passes to `create_window_object`: the given title, or for
a null or empty title the default title, suffixed with `window_num` unless that is zero. -/
def WindowBase.resolve_title (in_title : Option String) (window_num : Nat) : String :=
  let in_title : Option String :=
    match in_title with
    | none => none
    | some t => if t = "" then none else some t
  match in_title with
  | none =>
    let title := ControlsWindow.get_default_window_title
    if window_num = 0 then title else title ++ "_" ++ toString window_num
  | some t => t

/-- The method `WindowBase::back_app_create_window`, with `ControlsWindow::create_window_object`
inlined, on the controller at address `this`. Returns the address of the new window object. -/
def WindowBase.back_app_create_window (this : Ptr) (in_title : Option String) (w : World) :
    Ptr × World :=
  match w.controllers this with
  | none => (nullptr, w.call (Call.invalid_access this))
  | some c =>
    let title := WindowBase.resolve_title in_title w.window_num
    let window := w.heap_top
    (window,
      { w with
        heap_top := w.heap_top + 1
        main_windows := store w.main_windows window
          (some { m_title := title, m_controls_data := this })
        controllers := store w.controllers this
          (some { c with m_window := window, new_window_notified := c.new_window_notified + 1 })
        window_num := w.window_num + 1 })

/-- The C++ expression `delete p` for a window object. -/
def delete_main_window (p : Ptr) (w : World) : World :=
  if p = nullptr then
    w
  else
    match w.main_windows p with
    | none => w.call (Call.invalid_access p)
    | some _ => { w with main_windows := store w.main_windows p none }

/-- The method `WindowBase::back_app_delete_window`, with `ControlsWindow::delete_window_object`
inlined, on the controller at address `this`. -/
def WindowBase.back_app_delete_window (this : Ptr) (w : World) : World :=
  match w.controllers this with
  | none => w.call (Call.invalid_access this)
  | some c =>
    let w1 := c.m_timer_list.foldl (fun w it => TimerData.disconnect it w) w
    let w2 := delete_main_window c.m_window w1
    let w3 := { w2 with
      controllers := store w2.controllers this
        (some { c with
          m_window := nullptr
          delete_window_notified := c.delete_window_notified + 1 }) }
    c.m_close_notify_list.foldl (fun w it => w.notify_queue it) w3

/-- The method `WindowBase::process_update_events` on the controller at address `this`. -/
def WindowBase.process_update_events (this : Ptr) (in_last_only : Bool) (w : World) : World :=
  match w.controllers this with
  | none => w.call (Call.invalid_access this)
  | some c =>
    let r := c.m_background_queue.process_events in_last_only w
    match r.2.controllers this with
    | none => r.2
    | some c1 =>
      { r.2 with
        controllers := store r.2.controllers this (some { c1 with m_background_queue := r.1 }) }

/-- The method `WindowData::update_widgets`. -/
def WindowData.update_widgets (this : Ptr) (w : World) : World :=
  WindowBase.process_update_events this false w

/-- The method `ControlsWindow::update_window`; the call chain `MainWindow::update`,
`WindowView::update`, `WindowData::update_widgets` is inlined. -/
def ControlsWindow.update_window (this : Ptr) (w : World) : World :=
  match w.controllers this with
  | none => w.call (Call.invalid_access this)
  | some c =>
    if c.m_window = nullptr then
      w
    else
      match w.main_windows c.m_window with
      | none => w.call (Call.invalid_access c.m_window)
      | some win => WindowData.update_widgets win.m_controls_data w

/-- The method `WindowBase::back_app_update_window`. -/
def WindowBase.back_app_update_window (this : Ptr) (w : World) : World :=
  ControlsWindow.update_window this (w.call (Call.back_app_update_window this))

/-! ## BackgroundApp: the draining side (GUI thread)

Each method takes the executor object and the rest of the state and returns both. One call of
`on_idle` is taken as one step: requests posted while it runs are seen by the next call. -/

/-- The loop of `BackgroundApp::process_create_windows` over the two create queues; the third
argument is `m_window_list`, which is returned with the state. -/
def BackgroundApp.process_create_windows_loop :
    List Ptr → List (Option String) → List Ptr → World → List Ptr × World
  | [], _, window_list, w => (window_list, w)
  | interface :: create_queue, title_queue, window_list, w =>
    let front : Option String × World :=
      match title_queue with
      | [] => (none, w.call (Call.invalid_access nullptr))
      | title :: _ => (title, w)
    if interface ∈ window_list then
      BackgroundApp.process_create_windows_loop create_queue title_queue.tail window_list front.2
    else
      let r := WindowBase.back_app_create_window interface front.1 front.2
      let win := r.1
      let w1 := r.2.call (Call.add_window win)
      let w2 := w1.call (Call.connect_signals win)
      let w3 := w2.call (Call.present win)
      BackgroundApp.process_create_windows_loop create_queue title_queue.tail
        (window_list ++ [interface]) w3

/-- The method `BackgroundApp::process_create_windows`. -/
def BackgroundApp.process_create_windows (this : BackgroundApp) (w : World) :
    BackgroundApp × World :=
  let r := BackgroundApp.process_create_windows_loop this.m_create_win_queue
    this.m_win_title_queue this.m_window_list w
  ({ this with
      m_create_win_queue := []
      m_win_title_queue := this.m_win_title_queue.drop this.m_create_win_queue.length
      m_window_list := r.1 }, r.2)

/-- The window object of the controller at address `interface`, as the executor reads it through
`back_app_get_window`. -/
def World.get_window (w : World) (interface : Ptr) : Ptr × World :=
  match w.controllers interface with
  | none => (nullptr, w.call (Call.invalid_access interface))
  | some c => (c.back_app_get_window, w)

/-- The loop of `BackgroundApp::process_delete_windows` over the delete queue; the second
argument is `m_window_list`. -/
def BackgroundApp.process_delete_windows_loop : List Ptr → List Ptr → World → List Ptr × World
  | [], window_list, w => (window_list, w)
  | interface :: delete_queue, window_list, w =>
    if interface ∈ window_list then
      let r := w.get_window interface
      let win := r.1
      let w1 := r.2.call (Call.close win)
      let w2 := w1.call (Call.remove_window win)
      let w3 := WindowBase.back_app_delete_window interface w2
      BackgroundApp.process_delete_windows_loop delete_queue (window_list.erase interface) w3
    else
      BackgroundApp.process_delete_windows_loop delete_queue window_list w

/-- The method `BackgroundApp::process_delete_windows`. -/
def BackgroundApp.process_delete_windows (this : BackgroundApp) (w : World) :
    BackgroundApp × World :=
  let r := BackgroundApp.process_delete_windows_loop this.m_delete_win_queue this.m_window_list w
  ({ this with m_delete_win_queue := [], m_window_list := r.1 }, r.2)

/-- The loop of `BackgroundApp::process_update_windows` over the update queue; the second
argument is `m_window_list`. -/
def BackgroundApp.process_update_windows_loop : List Ptr → List Ptr → World → World
  | [], _, w => w
  | interface :: update_queue, window_list, w =>
    if interface ∈ window_list then
      BackgroundApp.process_update_windows_loop update_queue window_list
        (WindowBase.back_app_update_window interface w)
    else
      BackgroundApp.process_update_windows_loop update_queue window_list w

/-- The method `BackgroundApp::process_update_windows`. -/
def BackgroundApp.process_update_windows (this : BackgroundApp) (w : World) :
    BackgroundApp × World :=
  ({ this with m_update_win_queue := [] },
    BackgroundApp.process_update_windows_loop this.m_update_win_queue this.m_window_list w)

/-- The loop of `BackgroundApp::process_connect_timers` over the queue. -/
def BackgroundApp.process_connect_timers_loop : List Ptr → World → World
  | [], w => w
  | timer :: queue, w => BackgroundApp.process_connect_timers_loop queue (TimerData.connect timer w)

/-- The method `BackgroundApp::process_connect_timers`. -/
def BackgroundApp.process_connect_timers (this : BackgroundApp) (w : World) :
    BackgroundApp × World :=
  ({ this with m_connect_timer_queue := [] },
    BackgroundApp.process_connect_timers_loop this.m_connect_timer_queue w)

/-- The loop of `BackgroundApp::process_disconnect_timers` over the queue. -/
def BackgroundApp.process_disconnect_timers_loop : List Ptr → World → World
  | [], w => w
  | timer :: queue, w =>
    BackgroundApp.process_disconnect_timers_loop queue (TimerData.disconnect timer w)

/-- The method `BackgroundApp::process_disconnect_timers`. -/
def BackgroundApp.process_disconnect_timers (this : BackgroundApp) (w : World) :
    BackgroundApp × World :=
  ({ this with m_disconnect_timer_queue := [] },
    BackgroundApp.process_disconnect_timers_loop this.m_disconnect_timer_queue w)

/-- The method `BackgroundApp::on_idle`. It returns false, which disconnects the idle handler
that ran it; that is left to the main loop. -/
def BackgroundApp.on_idle (this : BackgroundApp) (w : World) : BackgroundApp × World :=
  let r1 := this.process_create_windows w
  let r2 := r1.1.process_update_windows r1.2
  let r3 := r2.1.process_delete_windows r2.2
  let r4 := r3.1.process_connect_timers r3.2
  let r5 := r4.1.process_disconnect_timers r4.2
  if r5.1.m_quit then (r5.1, r5.2.call Call.quit) else r5

/-- One run of `on_idle` on the executor of the runner, on the GUI thread. -/
def World.on_idle (w : World) : World :=
  match w.runner.m_app with
  | none => w
  | some app =>
    let r := app.on_idle w
    r.2.set_app r.1

/-! ## WindowBase: the methods the worker calls -/

/-- The constructor `ControlsWindow::ControlsWindow` with the constructors of its base classes:
the object built for a given user event queue (null for none). -/
def ControlsWindow.new (in_user_event_queue : Ptr) : ControlsWindow :=
  { m_background_queue := { m_event_data_queue := [], notified := 0 }
    m_user_event_queue := in_user_event_queue
    m_close_notify_list :=
      [if in_user_event_queue ≠ nullptr then in_user_event_queue
        else WindowBase.get_user_global_queue]
    m_timer_list := []
    m_window := nullptr
    new_window_notified := 0
    delete_window_notified := 0 }

/-- The method `WindowBase::get_user_event_queue`. -/
def ControlsWindow.get_user_event_queue (this : ControlsWindow) : Ptr :=
  if this.m_user_event_queue ≠ nullptr then
    this.m_user_event_queue
  else
    WindowBase.get_user_global_queue

/-- The method `WindowBase::push_update_event(EventData *)` on the controller at address
`this`. -/
def WindowBase.push_update_event (this : Ptr) (in_update : EventData) (w : World) : World :=
  match w.controllers this with
  | none => w.call (Call.invalid_access this)
  | some c =>
    { w with
      controllers := store w.controllers this
        (some { c with m_background_queue := c.m_background_queue.push in_update }) }

/-- The method `WindowBase::start_all_timers` on the controller at address `this`. -/
def WindowBase.start_all_timers (this : Ptr) (w : World) : World :=
  match w.controllers this with
  | none => w.call (Call.invalid_access this)
  | some c => c.m_timer_list.foldl (fun w it => BackgroundAppRunner.connect_timer it w) w

/-- The method `WindowBase::show_window` on the controller at address `this`. The call
`back_app_wait_new_window` blocks the caller on `m_new_window_cond`; `during_wait` is what the
other threads do to the state until the caller runs again. -/
def WindowBase.show_window (this : Ptr) (in_title : Option String)
    (during_wait : World → World) (w : World) : World :=
  match w.controllers this with
  | none => w.call (Call.invalid_access this)
  | some c =>
    if c.back_app_get_window ≠ nullptr then
      w
    else
      let w1 := BackgroundAppRunner.create_window this in_title w
      let w2 := during_wait w1
      WindowBase.start_all_timers this w2

/-- The method `WindowBase::update` on the controller at address `this`. -/
def WindowBase.update (this : Ptr) (w : World) : World :=
  match w.controllers this with
  | none => w.call (Call.invalid_access this)
  | some c =>
    if c.back_app_get_window = nullptr then
      w
    else
      BackgroundAppRunner.update_window this w

/-- The method `WindowBase::add_timer` on the controller at address `this`. Returns the address of
the new timer. -/
def WindowBase.add_timer (this : Ptr) (in_interval_ms : Nat) (in_timer_event_func : Ptr)
    (in_user_data : Ptr) (in_user_event_queue : Ptr) (w : World) : Ptr × World :=
  match w.controllers this with
  | none => (nullptr, w.call (Call.invalid_access this))
  | some c =>
    let in_user_event_queue :=
      if in_user_event_queue = nullptr then c.get_user_event_queue else in_user_event_queue
    let timer := w.heap_top
    (timer,
      { w with
        heap_top := w.heap_top + 1
        timers := store w.timers timer
          (some (TimerData.new in_interval_ms in_user_event_queue in_timer_event_func
            in_user_data))
        controllers := store w.controllers this
          (some { c with m_timer_list := c.m_timer_list ++ [timer] }) })

/-- The C++ expression `delete p` for a timer. -/
def delete_timer (p : Ptr) (w : World) : World :=
  if p = nullptr then
    w
  else
    match w.timers p with
    | none => w.call (Call.invalid_access p)
    | some _ => { w with timers := store w.timers p none }

/-- The for loop of `WindowBase::kill_timer` over `m_timer_list`. Returns the list as the loop
leaves it. -/
def WindowBase.kill_timer_loop (inTimerData : Ptr) : List Ptr → World → List Ptr × World
  | [], w => ([], w)
  | it :: rest, w =>
    if it = inTimerData ∨ inTimerData = nullptr then
      let w1 := BackgroundAppRunner.disconnect_timer it w
      let w2 := delete_timer it w1
      if inTimerData ≠ nullptr then
        (rest, w2)
      else
        let r := WindowBase.kill_timer_loop inTimerData rest w2
        (it :: r.1, r.2)
    else
      let r := WindowBase.kill_timer_loop inTimerData rest w
      (it :: r.1, r.2)

/-- The method `WindowBase::kill_timer` on the controller at address `this`. -/
def WindowBase.kill_timer (this : Ptr) (inTimerData : Ptr) (w : World) : World :=
  match w.controllers this with
  | none => w.call (Call.invalid_access this)
  | some c =>
    if inTimerData = nullptr then
      w
    else
      let r := WindowBase.kill_timer_loop inTimerData c.m_timer_list w
      let timer_list := if inTimerData = nullptr then [] else r.1
      { r.2 with
        controllers := store r.2.controllers this (some { c with m_timer_list := timer_list }) }

/-- The destructor `WindowBase::~WindowBase` on the controller at address `this`, followed by the
release of the object. -/
def WindowBase.destroy (this : Ptr) (w : World) : World :=
  let w1 := WindowBase.kill_timer this nullptr w
  let w2 := BackgroundAppRunner.delete_window this w1
  { w2 with controllers := store w2.controllers this none }

/-! ## Initial state -/

/-- The state at program start: the runner has no executor and no thread, no object is alive, all
queues are empty and nothing has been called. Addresses from 2 on are free (1 is the global
queue). -/
def World.init : World :=
  { runner := BackgroundAppRunner.new
    controllers := fun _ => none
    timers := fun _ => none
    main_windows := fun _ => none
    queues := fun _ => { m_event_data_queue := [], notified := 0 }
    timeouts := []
    next_connection := 0
    window_num := 0
    heap_top := 2
    trace := [] }

/-- The construction of a `ControlsWindow` object by `new`. Returns the address of the object. -/
def World.new_controls_window (in_user_event_queue : Ptr) (w : World) : Ptr × World :=
  (w.heap_top,
    { w with
      heap_top := w.heap_top + 1
      controllers := store w.controllers w.heap_top
        (some (ControlsWindow.new in_user_event_queue)) })

/-! ## The close hooks and the timer call-in (GUI thread) -/

/-- The loop of `BackgroundApp::on_hide_window` over `m_window_list`. Returns the list as the loop
leaves it. -/
def BackgroundApp.on_hide_window_loop (in_window : Ptr) : List Ptr → World → List Ptr × World
  | [], w => ([], w)
  | it :: rest, w =>
    let r := w.get_window it
    if in_window = r.1 then
      (rest, WindowBase.back_app_delete_window it r.2)
    else
      let r1 := BackgroundApp.on_hide_window_loop in_window rest r.2
      (it :: r1.1, r1.2)

/-- The method `BackgroundApp::on_hide_window`. -/
def BackgroundApp.on_hide_window (this : BackgroundApp) (in_window : Ptr) (w : World) :
    BackgroundApp × World :=
  let r := BackgroundApp.on_hide_window_loop in_window this.m_window_list w
  let app : BackgroundApp := { this with m_window_list := r.1 }
  if app.m_window_list.isEmpty then
    ({ app with window_cond_notified := app.window_cond_notified + 1 }, r.2)
  else
    (app, r.2)

/-- The hide signal of a window, delivered to the executor of the runner. -/
def World.on_hide_window (in_window : Ptr) (w : World) : World :=
  match w.runner.m_app with
  | none => w
  | some app =>
    let r := app.on_hide_window in_window w
    r.2.set_app r.1

/-- One call-in of a timeout registration of the main loop: `queue_timer_event` runs on the timer,
and the registration is removed if it returns false. -/
def World.fire (id : Nat) (timer : Ptr) (w : World) : World :=
  let r := TimerData.queue_timer_event timer w
  if r.1 then r.2 else { r.2 with timeouts := r.2.timeouts.filter (fun x => x.1 ≠ id) }

/-- The expression `win->get_window()->gobj()` of `on_delete_event`: the native window of a window
object. A native window is identified with the window object it belongs to. -/
def World.gdk_window (w : World) (win : Ptr) : Ptr × World :=
  if win = nullptr then
    (nullptr, w.call (Call.invalid_access nullptr))
  else
    match w.main_windows win with
    | none => (nullptr, w.call (Call.invalid_access win))
    | some _ => (win, w)

/-- The loop of `BackgroundApp::on_delete_event` over `m_window_list`; `event_window` is
`in_event->window`. Returns what the method returns: true cancels the close. -/
def BackgroundApp.on_delete_event_loop (event_window : Ptr) : List Ptr → World → Bool × World
  | [], w => (false, w)
  | it :: rest, w =>
    let r := w.get_window it
    let g := r.2.gdk_window r.1
    if g.1 ≠ nullptr ∧ event_window = g.1 then
      match g.2.controllers it with
      | none => (false, g.2.call (Call.invalid_access it))
      | some c => (c.back_app_delete_request, g.2)
    else
      BackgroundApp.on_delete_event_loop event_window rest g.2

/-- The method `BackgroundApp::on_delete_event`. -/
def BackgroundApp.on_delete_event (this : BackgroundApp) (event_window : Ptr) (w : World) :
    Bool × World :=
  BackgroundApp.on_delete_event_loop event_window this.m_window_list w

/-- What a call of a waiting method does: it returns at once, or it blocks the caller on a
condition variable until the next `notify_all` on it. -/
inductive Wait where
  | returned
  | blocked
  deriving DecidableEq, Repr

/-- The method `BackgroundApp::wait_window_all_closed`; the condition variable is
`m_window_cond`. -/
def BackgroundApp.wait_window_all_closed (this : BackgroundApp) : Wait :=
  if this.get_window_num = 0 then Wait.returned else Wait.blocked

/-- The method `BackgroundAppRunner::wait_window_all_closed`. -/
def BackgroundAppRunner.wait_window_all_closed (w : World) : Wait :=
  match w.runner.m_app with
  | none => Wait.returned
  | some app => app.wait_window_all_closed

/-- The method `WindowBase::is_window_closed`. -/
def ControlsWindow.is_window_closed (this : ControlsWindow) : Bool :=
  this.back_app_is_window_deleted

/-! ## Reachable states -/

/-- One step of the program: a call of the worker on a live controller, or a call-in of the
toolkit on the GUI thread. The blocking `show_window` on an unbound controller is two steps, the
posting of the create request and, after the wait, the start of the timers. -/
inductive Step : World → World → Prop where
  | new_controls_window (w : World) (queue : Ptr) :
    Step w (World.new_controls_window queue w).2
  | add_timer (w : World) (this interval func data queue : Ptr) :
    Step w (WindowBase.add_timer this interval func data queue w).2
  | kill_timer (w : World) (this timer : Ptr) :
    Step w (WindowBase.kill_timer this timer w)
  | show_window_post (w : World) (this : Ptr) (title : Option String) (c : ControlsWindow) :
    w.controllers this = some c → c.m_window = nullptr →
    Step w (BackgroundAppRunner.create_window this title w)
  | show_window_resume (w : World) (this : Ptr) :
    Step w (WindowBase.start_all_timers this w)
  | update (w : World) (this : Ptr) :
    Step w (WindowBase.update this w)
  | push_update_event (w : World) (this : Ptr) (event : EventData) :
    Step w (WindowBase.push_update_event this event w)
  | process_events (w : World) (queue : Ptr) (in_last_only : Bool) :
    Step w (w.process_events queue in_last_only)
  | destroy (w : World) (this : Ptr) :
    Step w (WindowBase.destroy this w)
  | on_idle (w : World) :
    Step w w.on_idle
  | on_hide_window (w : World) (window : Ptr) :
    Step w (w.on_hide_window window)
  | fire (w : World) (id : Nat) (timer : Ptr) :
    (id, timer) ∈ w.timeouts → Step w (w.fire id timer)

/-- The states the program reaches from its initial state. -/
inductive Reachable : World → Prop where
  | init : Reachable World.init
  | step (w w1 : World) : Reachable w → Step w w1 → Reachable w1

/-- An example state reached from the initial state: a controller is constructed at address 2 with
no user event queue of its own, and a timer with interval 100, callback 7 and user data 8 is
added to it; the timer is at address 3 and its target queue is the global queue. -/
def exampleTimerWorld : World :=
  let r := World.new_controls_window nullptr World.init
  (WindowBase.add_timer r.1 100 7 8 nullptr r.2).2

/-- An example state: in `exampleTimerWorld` the controller is shown with the title "Main" (the
GUI thread runs `on_idle` once while `show_window` waits), and the GUI thread then runs `on_idle`
once more, which connects the timer. The controller at 2 is bound to the window at 4 and its
timer at 3 is running. -/
def exampleShownWorld : World :=
  (WindowBase.show_window 2 (some "Main") World.on_idle exampleTimerWorld).on_idle

/-- The scenario of two windows, from a fresh process: a controller A is constructed (address 2)
and shown with the title "Main" (its window is at 3), then a controller B is constructed
(address 4) and shown with an empty title while the window of A is open (its window is at 5).
The GUI thread runs `on_idle` once during each `show_window`. -/
def scenarioOpened : World :=
  let a := World.new_controls_window nullptr World.init
  let w1 := WindowBase.show_window a.1 (some "Main") World.on_idle a.2
  let b := World.new_controls_window nullptr w1
  WindowBase.show_window b.1 (some "") World.on_idle b.2

/-- The scenario, continued: the user closes the window of A (the toolkit delivers the hide signal
of the window at 3). -/
def scenarioAClosed : World :=
  scenarioOpened.on_hide_window 3

/-- The scenario, continued: the user then closes the window of B (the window at 5). -/
def scenarioBClosed : World :=
  scenarioAClosed.on_hide_window 5

/-! ## Derived observations and specification-level definitions -/

/-- The window object of every live controller, as `back_app_get_window` returns it. -/
def World.window_of (w : World) (this : Ptr) : Option Ptr :=
  (w.controllers this).map (fun c => c.back_app_get_window)

/-- Specification: a controller is bound when it is alive and its window object is not null. -/
def World.Bound (w : World) (this : Ptr) : Prop :=
  ∃ c, w.controllers this = some c ∧ c.m_window ≠ nullptr

/-- The calls `EventData::invoke_handler` appends to the trace for an event, given the live
timers (see `EventData.invoke_handler_eq`). -/
def EventData.handler_calls (this : EventData) (timers : Ptr → Option TimerData) : List Call :=
  match this.m_handler with
  | Handler.null => []
  | Handler.process_timer_event =>
    match timers this.m_source with
    | none => [Call.invalid_access this.m_source]
    | some t =>
      if t.m_timer_event_func = nullptr then [Call.invalid_access nullptr]
      else [Call.timer_event_func t.m_timer_event_func t.m_user_data]
  | Handler.func id => [Call.handler id this]

/-- The events of a queue content on which the loop of `EventQueue::process_events` calls
`invoke_handler`, in the order of the calls (see `EventQueue.process_events_loop_eq`). -/
def EventQueue.invoked (in_last_only : Bool) : List EventData → List EventData
  | [] => []
  | event_data :: rest =>
    if (in_last_only && rest.any (fun it => event_data.is_same_source it)) = false then
      event_data :: EventQueue.invoked in_last_only rest
    else
      EventQueue.invoked in_last_only rest

/-- Specification: two commands are from the same source iff both the source identity and the
handler are equal. -/
def SameSource (a b : EventData) : Prop :=
  a.m_source = b.m_source ∧ a.m_handler = b.m_handler

instance (a b : EventData) : Decidable (SameSource a b) := by
  unfold SameSource
  infer_instance

/-- Specification: the commands of a queue content that have no later command in the queue from
the same source, in queue order. Position `i` is kept iff no command after position `i` is from
the same source as the command at position `i`. -/
def lastPerSource (q : List EventData) : List EventData :=
  (List.range q.length).filterMap fun i =>
    match q.drop i with
    | [] => none
    | e :: later => if ∀ x ∈ later, ¬ SameSource e x then some e else none

/-- The number of times `back_app_update_window` has been entered on the controller at address
`this`, read off the trace. -/
def World.refreshes (w : World) (this : Ptr) : Nat :=
  w.trace.count (Call.back_app_update_window this)

/-- One iteration of the loop of `BackgroundApp::process_create_windows`: the state of the loop
is the title queue, `m_window_list` and the rest of the state (see
`BackgroundApp.process_create_windows_loop_eq_foldl`). -/
def BackgroundApp.create_request (s : List (Option String) × List Ptr × World)
    (interface : Ptr) : List (Option String) × List Ptr × World :=
  let front : Option String × World :=
    match s.1 with
    | [] => (none, s.2.2.call (Call.invalid_access nullptr))
    | title :: _ => (title, s.2.2)
  if interface ∈ s.2.1 then
    (s.1.tail, s.2.1, front.2)
  else
    let r := WindowBase.back_app_create_window interface front.1 front.2
    (s.1.tail, s.2.1 ++ [interface],
      ((r.2.call (Call.add_window r.1)).call (Call.connect_signals r.1)).call (Call.present r.1))

/-- One iteration of the loop of `BackgroundApp::process_update_windows`, for a given
`m_window_list`. -/
def BackgroundApp.update_request (window_list : List Ptr) (w : World) (interface : Ptr) : World :=
  if interface ∈ window_list then WindowBase.back_app_update_window interface w else w

/-- One iteration of the loop of `BackgroundApp::process_delete_windows`: the state of the loop
is `m_window_list` and the rest of the state. -/
def BackgroundApp.delete_request (s : List Ptr × World) (interface : Ptr) : List Ptr × World :=
  if interface ∈ s.1 then
    let r := s.2.get_window interface
    (s.1.erase interface,
      WindowBase.back_app_delete_window interface
        ((r.2.call (Call.close r.1)).call (Call.remove_window r.1)))
  else
    s

/-- The loop of `BackgroundApp::process_create_windows` for an arbitrary implementation `create`
of the interface method `BackgroundAppWindowInterface::back_app_create_window`. The executor only
knows the interface and does not test the pointer the method returns: `add_window(*win)`, the
connection of the two signals and `win->present()` use it at once. For a null pointer each of
the three is a dereference of null, recorded as `Call.invalid_access nullptr`; as everywhere in
this embedding the method goes on after an invalid access, and what it does then says nothing
about the program. -/
def BackgroundApp.process_create_windows_loop_with
    (create : Ptr → Option String → World → Ptr × World) :
    List Ptr → List (Option String) → List Ptr → World → List Ptr × World
  | [], _, window_list, w => (window_list, w)
  | interface :: create_queue, title_queue, window_list, w =>
    let front : Option String × World :=
      match title_queue with
      | [] => (none, w.call (Call.invalid_access nullptr))
      | title :: _ => (title, w)
    if interface ∈ window_list then
      BackgroundApp.process_create_windows_loop_with create create_queue title_queue.tail
        window_list front.2
    else
      let r := create interface front.1 front.2
      let win := r.1
      let w3 :=
        if win = nullptr then
          let w1 := r.2.call (Call.invalid_access nullptr)
          let w2 := w1.call (Call.invalid_access nullptr)
          w2.call (Call.invalid_access nullptr)
        else
          let w1 := r.2.call (Call.add_window win)
          let w2 := w1.call (Call.connect_signals win)
          w2.call (Call.present win)
      BackgroundApp.process_create_windows_loop_with create create_queue title_queue.tail
        (window_list ++ [interface]) w3

/-- An implementation of `back_app_create_window` whose window creation fails: it returns null
and changes nothing. -/
def failing_create_window (_interface : Ptr) (_title : Option String) (w : World) :
    Ptr × World :=
  (nullptr, w)

/-- The bound list `m_window_list` of the executor, empty while the executor does not exist. -/
def World.window_list (w : World) : List Ptr :=
  (w.runner.m_app.getD BackgroundApp.new).m_window_list

/-- The pending create requests `m_create_win_queue` of the executor, none while the executor
does not exist. -/
def World.create_queue (w : World) : List Ptr :=
  (w.runner.m_app.getD BackgroundApp.new).m_create_win_queue

/-- The invariant of the bound list, on a bound list `wl`, pending create requests `cq`, the
next free address `top` and the window objects `f` of the live controllers: `top` is not null, no
controller lives at or above `top`, `wl` has no duplicates, a controller is in `wl` iff its
window object is not null, and the create requests are for live controllers. -/
def WellBound (wl cq : List Ptr) (top : Ptr) (f : Ptr → Option Ptr) : Prop :=
  top ≠ nullptr ∧ (∀ x, top ≤ x → f x = none) ∧ wl.Nodup ∧
    (∀ x, x ∈ wl ↔ ∃ p, f x = some p ∧ p ≠ nullptr) ∧ (∀ x ∈ cq, (f x).isSome)

/-- A step that keeps the window objects of the controllers, the bound list and the pending create
requests, and does not lower the next free address. -/
def SameView (w w1 : World) : Prop :=
  w1.window_of = w.window_of ∧ w.heap_top ≤ w1.heap_top ∧
    w1.window_list = w.window_list ∧ w1.create_queue = w.create_queue

/-- The invariant of the bound list in a state (see `WellBound`). -/
def World.BoundListInvariant (w : World) : Prop :=
  WellBound w.window_list w.create_queue w.heap_top w.window_of

/-- The number of calls of `Gtk::Application::quit` made so far, read off the trace. -/
def World.quits (w : World) : Nat :=
  w.trace.count Call.quit

/-- The method `WindowBase::back_app_delete_request` on the controller at address `this`: the
implementation of the interface method `BackgroundAppWindowInterface::back_app_delete_request`
that the controllers of this program have. -/
def WindowBase.back_app_delete_request (this : Ptr) (w : World) : Bool × World :=
  match w.controllers this with
  | none => (false, w.call (Call.invalid_access this))
  | some c => (c.back_app_delete_request, w)

/-- The loop of `BackgroundApp::on_delete_event` for an arbitrary implementation
`delete_request` of the virtual method `BackgroundAppWindowInterface::back_app_delete_request`,
which a class derived from `WindowBase` can override: the executor calls it through the
interface on the controller whose native window is the reported one. With
`WindowBase.back_app_delete_request` this is `BackgroundApp.on_delete_event_loop` (see
`BackgroundApp.on_delete_event_loop_eq_with`). -/
def BackgroundApp.on_delete_event_loop_with (delete_request : Ptr → World → Bool × World)
    (event_window : Ptr) : List Ptr → World → Bool × World
  | [], w => (false, w)
  | it :: rest, w =>
    let r := w.get_window it
    let g := r.2.gdk_window r.1
    if g.1 ≠ nullptr ∧ event_window = g.1 then
      delete_request it g.2
    else
      BackgroundApp.on_delete_event_loop_with delete_request event_window rest g.2

/-- The method `BackgroundApp::on_delete_event` for an arbitrary implementation of the virtual
method `back_app_delete_request`. -/
def BackgroundApp.on_delete_event_with (this : BackgroundApp)
    (delete_request : Ptr → World → Bool × World) (event_window : Ptr) (w : World) :
    Bool × World :=
  BackgroundApp.on_delete_event_loop_with delete_request event_window this.m_window_list w

/-- An implementation of `back_app_delete_request` in which the controller at address 4 cancels
the close of its window and every other controller allows it. -/
def veto_by_controller_4 (this : Ptr) (w : World) : Bool × World :=
  (decide (this = 4), w)

/-- An example state: in `exampleShownWorld`, where the controller 2 is bound to the window 4 and
its timer 3 is running, the controller is destroyed (`delete` on the object, which runs
`~WindowBase`). -/
def exampleDestroyedShown : World :=
  WindowBase.destroy 2 exampleShownWorld

/-! ## Widgets (namespace `shl::gtk::controls`)

The widget classes keep a copy of the value of the native widget for the worker to read
(`get_value`), hold the settings made before the native widget exists in an update object
`m_initial`, and turn the signals of the native widget into events for the user event queue.
A pointer to a variable of the caller is an `Option`: `none` is a null pointer, `some v` a pointer
to a variable that holds `v`. A method returns the object as it leaves it together with what it
hands to the rest of the program. -/

/-- A C++ `double`. The methods embedded here only store and copy such values; the one conversion
is from `bool`, which gives 1 or 0. -/
abbrev Double := ℚ

/-- The conversion of a `bool` to `double`. -/
def Double.ofBool (b : Bool) : Double :=
  if b then 1 else 0

/-- The static handlers of the widget classes that the events and updates of an entry or a spin
button carry as `m_handler`. -/
inductive WidgetHandler where
  | null
  | process_update
  | process_changed
  | process_done
  deriving DecidableEq, Repr

/-- The class `EntryEvent`: the text of the entry when the event was queued, and the handler of
the base class `EventData` (the source is the entry that queued it). -/
structure EntryEvent where
  m_text : String
  m_handler : WidgetHandler
  deriving DecidableEq, Repr

/-- The class `EntryData`. `m_entry` is the native entry with the text of its buffer, `none`
before `create`; `m_initial` is reduced to its text; `m_user_text` is the text variable of the
caller; the callbacks are function pointers, null for none. -/
structure EntryData where
  m_entry : Option String
  m_initial : String
  m_max_length : Int
  m_text : String
  m_user_text : Option String
  m_user_data : Ptr
  m_changed_func : Ptr
  m_done_func : Ptr
  deriving DecidableEq, Repr

/-- What the handlers of an entry do outside the entry object. -/
inductive EntryCall where
  /-- A call `func(user_data, text)` of a callback of the application. -/
  | user_func (func : Ptr) (user_data : Ptr) (text : String)
  /-- A call through a null function pointer. -/
  | null_function_call (user_data : Ptr) (text : String)
  /-- A use of the native entry before it exists. -/
  | null_entry
  deriving DecidableEq, Repr

/-- The constructor `EntryData::EntryData`. -/
def EntryData.new (in_user_text : Option String) (in_max_length : Int) (in_user_data : Ptr)
    (in_changed_func in_done_func : Ptr) : EntryData :=
  { m_entry := none
    m_initial :=
      match in_user_text with
      | none => ""
      | some t => t
    m_max_length := in_max_length
    m_text := ""
    m_user_text := in_user_text
    m_user_data := in_user_data
    m_changed_func := in_changed_func
    m_done_func := in_done_func }

/-- The method `EntryData::create`: the native entry is made with the initial text. -/
def EntryData.create (this : EntryData) : EntryData :=
  { this with m_text := this.m_initial, m_entry := some this.m_initial }

/-- The method `EntryData::get_value`. Returns the result and the variable `io_text` points to. -/
def EntryData.get_value (this : EntryData) (io_text : Option String) (in_compare : Bool) :
    Bool × Option String :=
  match io_text with
  | none => (false, none)
  | some text =>
    if in_compare ∧ text = this.m_text then
      (false, some text)
    else
      (true, some this.m_text)

/-- The method `EntryData::queue_event`. Returns the entry, the event it pushes to the user event
queue, if any, and the invalid uses it makes. -/
def EntryData.queue_event (this : EntryData) (in_func : WidgetHandler) (in_user_func : Ptr) :
    EntryData × Option EntryEvent × List EntryCall :=
  match this.m_entry with
  | none => (this, none, [EntryCall.null_entry])
  | some buffer =>
    let this1 := { this with m_text := buffer }
    if in_user_func = nullptr ∧ this1.m_user_text = none then
      (this1, none, [])
    else
      (this1, some { m_text := this1.m_text, m_handler := in_func }, [])

/-- The method `EntryData::queue_changed`, the handler of the signal `changed`. -/
def EntryData.queue_changed (this : EntryData) : EntryData × Option EntryEvent × List EntryCall :=
  this.queue_event WidgetHandler.process_changed this.m_changed_func

/-- The method `EntryData::queue_done`, the handler of the signal `editing_done`. -/
def EntryData.queue_done (this : EntryData) : EntryData × Option EntryEvent × List EntryCall :=
  this.queue_event WidgetHandler.process_done this.m_done_func

/-- The call of a callback of an entry through its function pointer. -/
def EntryCall.of (func : Ptr) (user_data : Ptr) (text : String) : EntryCall :=
  if func = nullptr then EntryCall.null_function_call user_data text
  else EntryCall.user_func func user_data text

/-- The static method `EntryData::process_changed`; `entry` is the source of the event. Returns
the entry, with the text variable of the caller, and the calls made. -/
def EntryData.process_changed (in_event : EntryEvent) (entry : EntryData) :
    EntryData × List EntryCall :=
  let entry1 :=
    if entry.m_user_text ≠ none then { entry with m_user_text := some in_event.m_text } else entry
  if entry1.m_changed_func ≠ nullptr then
    (entry1, [EntryCall.of entry1.m_changed_func entry1.m_user_data in_event.m_text])
  else
    (entry1, [])

/-- The static method `EntryData::process_done`; `entry` is the source of the event. Returns the
entry, with the text variable of the caller, and the calls made. -/
def EntryData.process_done (in_event : EntryEvent) (entry : EntryData) :
    EntryData × List EntryCall :=
  let entry1 :=
    if entry.m_user_text ≠ none then { entry with m_user_text := some in_event.m_text } else entry
  if entry1.m_changed_func ≠ nullptr then
    (entry1, [EntryCall.of entry1.m_done_func entry1.m_user_data in_event.m_text])
  else
    (entry1, [])

/-- The class `SwitchData`. `m_switch` is the native switch with its state, `none` before
`create`; `m_initial` is reduced to its value. -/
structure SwitchData where
  m_switch : Option Bool
  m_initial : Bool
  m_value : Bool
  m_user_variable : Option Bool
  m_user_data : Ptr
  m_toggled_func : Ptr
  deriving DecidableEq, Repr

/-- The method `SwitchData::get_value`. Returns the result and the variable `io_value` points
to. -/
def SwitchData.get_value (this : SwitchData) (io_value : Option Bool) (in_compare : Bool) :
    Bool × Option Bool :=
  match io_value with
  | none => (false, none)
  | some value =>
    if in_compare ∧ value = this.m_value then
      (false, some value)
    else
      (true, some this.m_value)

/-- The class `ComboBoxData`. `m_combo_box` is the native combo box with its active row, `none`
before `create`; `m_initial` is reduced to its value. -/
structure ComboBoxData where
  m_combo_box : Option Int
  m_initial : Int
  m_value : Int
  m_items : List String
  m_user_variable : Option Int
  m_user_data : Ptr
  m_changed_func : Ptr
  deriving DecidableEq, Repr

/-- The method `ComboBoxData::get_value`. Returns the result and the variable `io_value` points
to. -/
def ComboBoxData.get_value (this : ComboBoxData) (io_value : Option Int) (in_compare : Bool) :
    Bool × Option Int :=
  match io_value with
  | none => (false, none)
  | some value =>
    if in_compare ∧ value = this.m_value then
      (false, some value)
    else
      (true, some this.m_value)

/-- The class `SpinButtonUpdate`, with the handler of its base class `EventData`. -/
structure SpinButtonUpdate where
  m_value_updated : Bool
  m_range_updated : Bool
  m_increments_updated : Bool
  m_wrap_updated : Bool
  m_numeric_updated : Bool
  m_digits_updated : Bool
  m_adjustment_called : Bool
  m_configure_called : Bool
  m_value : Double
  m_lower : Double
  m_upper : Double
  m_step_increment : Double
  m_page_increment : Double
  m_page_size : Double
  m_climb_rate : Double
  m_wrap : Bool
  m_numeric : Bool
  m_digits : Nat
  m_handler : WidgetHandler
  deriving DecidableEq, Repr

/-- The constructor `SpinButtonUpdate::SpinButtonUpdate` with the ten settings, used for
`m_initial`. -/
def SpinButtonUpdate.initial (in_value in_lower in_upper in_step_increment in_page_increment
    in_page_size in_climb_rate : Double) (in_digits : Nat) (in_wrap in_numeric : Bool) :
    SpinButtonUpdate :=
  { m_value := in_value
    m_lower := in_lower
    m_upper := in_upper
    m_step_increment := in_step_increment
    m_page_increment := in_page_increment
    m_page_size := in_page_size
    m_climb_rate := in_climb_rate
    m_digits := in_digits
    m_wrap := in_wrap
    m_numeric := in_numeric
    m_value_updated := true
    m_range_updated := true
    m_increments_updated := true
    m_digits_updated := true
    m_wrap_updated := true
    m_numeric_updated := true
    m_adjustment_called := true
    m_configure_called := true
    m_handler := WidgetHandler.null }

/-- The constructor `SpinButtonUpdate::SpinButtonUpdate` with a source widget and a handler, used
for the updates of a spin button that exists. -/
def SpinButtonUpdate.new (in_handler : WidgetHandler) : SpinButtonUpdate :=
  { m_value := 0
    m_lower := 0
    m_upper := 0
    m_step_increment := 1
    m_page_increment := 10
    m_page_size := 0
    m_climb_rate := 0
    m_digits := 0
    m_wrap := false
    m_numeric := false
    m_value_updated := false
    m_range_updated := false
    m_increments_updated := false
    m_digits_updated := false
    m_wrap_updated := false
    m_numeric_updated := false
    m_adjustment_called := false
    m_configure_called := false
    m_handler := in_handler }

/-- The native widget `Gtk::SpinButton` with its adjustment, as far as `create` sets it. -/
structure GtkSpinButton where
  value : Double
  lower : Double
  upper : Double
  step_increment : Double
  page_increment : Double
  page_size : Double
  climb_rate : Double
  digits : Nat
  wrap : Bool
  numeric : Bool
  deriving DecidableEq, Repr

/-- The class `SpinButtonData`. `m_spin` is the native spin button, `none` before `create`. -/
structure SpinButtonData where
  m_spin : Option GtkSpinButton
  m_initial : SpinButtonUpdate
  m_value : Double
  m_user_variable : Option Double
  m_user_data : Ptr
  m_value_changed_func : Ptr
  deriving DecidableEq, Repr

/-- What a setter of a widget hands to its window: the update object it passes to `push_update`,
if any, and whether it calls `invoke_update`. -/
structure SpinButtonRequest where
  pushed : Option SpinButtonUpdate
  invoked : Bool
  deriving DecidableEq, Repr

/-- The constructor `SpinButtonData::SpinButtonData`. -/
def SpinButtonData.new (in_user_variable : Option Double) (in_lower in_upper
    in_step_increment in_page_increment in_page_size in_climb_rate : Double) (in_digits : Nat)
    (in_user_data in_value_changed_func : Ptr) (in_wrap in_numeric : Bool) : SpinButtonData :=
  let m_initial := SpinButtonUpdate.initial 0 in_lower in_upper in_step_increment
    in_page_increment in_page_size in_climb_rate in_digits in_wrap in_numeric
  { m_spin := none
    m_initial :=
      match in_user_variable with
      | none => m_initial
      | some v => { m_initial with m_value := v }
    m_value := 0
    m_user_variable := in_user_variable
    m_user_data := in_user_data
    m_value_changed_func := in_value_changed_func }

/-- The method `SpinButtonData::set_wrap`. -/
def SpinButtonData.set_wrap (this : SpinButtonData) (in_wrap : Bool) (in_invoke_update : Bool) :
    SpinButtonData × SpinButtonRequest :=
  if this.m_spin = none then
    ({ this with m_initial := { this.m_initial with m_value := Double.ofBool in_wrap } },
      { pushed := none, invoked := false })
  else
    let update := SpinButtonUpdate.new WidgetHandler.process_update
    let update := { update with m_wrap := in_wrap }
    let update := { update with m_wrap_updated := true }
    (this, { pushed := some update, invoked := in_invoke_update })

/-- The method `SpinButtonData::set_numeric`. -/
def SpinButtonData.set_numeric (this : SpinButtonData) (in_numeric : Bool)
    (in_invoke_update : Bool) : SpinButtonData × SpinButtonRequest :=
  if this.m_spin = none then
    ({ this with m_initial := { this.m_initial with m_numeric := in_numeric } },
      { pushed := none, invoked := false })
  else
    let update := SpinButtonUpdate.new WidgetHandler.process_update
    let update := { update with m_numeric := in_numeric }
    let update := { update with m_numeric_updated := true }
    (this, { pushed := some update, invoked := in_invoke_update })

/-- The method `SpinButtonData::create`: the native spin button is made from `m_initial`, and the
variable of the caller gets the initial value. -/
def SpinButtonData.create (this : SpinButtonData) : SpinButtonData :=
  let this1 :=
    if this.m_user_variable ≠ none then
      { this with m_user_variable := some this.m_initial.m_value }
    else this
  let this2 := { this1 with m_value := this1.m_initial.m_value }
  let spin : GtkSpinButton :=
    { value := this2.m_value
      lower := this2.m_initial.m_lower
      upper := this2.m_initial.m_upper
      step_increment := this2.m_initial.m_step_increment
      page_increment := this2.m_initial.m_page_increment
      page_size := this2.m_initial.m_page_size
      climb_rate := this2.m_initial.m_climb_rate
      digits := this2.m_initial.m_digits
      wrap := false
      numeric := false }
  let spin := { spin with wrap := this2.m_initial.m_wrap }
  let spin := { spin with numeric := this2.m_initial.m_numeric }
  { this2 with m_spin := some spin }

/-- An example spin button before `create`: range 0 to 10, the variable of the caller holds 5, no
wrap, not numeric. -/
def exampleSpinButton : SpinButtonData :=
  SpinButtonData.new (some 5) 0 10 1 10 0 0 0 nullptr nullptr false false

/-- An example entry after `create`, with a text variable of the caller, a done callback (at
address 7) and no changed callback, in which the user has typed "abc". -/
def exampleEntryDone : EntryData :=
  { (EntryData.new (some "") (-1) 9 nullptr 7).create with m_entry := some "abc" }

/-- An example entry after `create`, with a text variable of the caller, a changed callback (at
address 6) and no done callback, in which the user has typed "abc". -/
def exampleEntryChanged : EntryData :=
  { (EntryData.new (some "") (-1) 9 6 nullptr).create with m_entry := some "abc" }

/-- The work of one run of `on_idle` before the quit flag is looked at, as five left folds over
the pending lists (see `BackgroundApp.on_idle_eq`): the bound list and the state it leaves. -/
def BackgroundApp.drain (this : BackgroundApp) (w : World) : List Ptr × World :=
  let creates := this.m_create_win_queue.foldl BackgroundApp.create_request
    (this.m_win_title_queue, this.m_window_list, w)
  let updates := this.m_update_win_queue.foldl (BackgroundApp.update_request creates.2.1)
    creates.2.2
  let deletes := this.m_delete_win_queue.foldl BackgroundApp.delete_request
    (creates.2.1, updates)
  let starts := this.m_connect_timer_queue.foldl (fun w timer => TimerData.connect timer w)
    deletes.2
  let stops := this.m_disconnect_timer_queue.foldl (fun w timer => TimerData.disconnect timer w)
    starts
  (deletes.1, stops)

/-- An example state: in `exampleShownWorld`, where the controller 2 is bound, a create request
for the controller 2 and an update and a delete request for the controller 9, which is not bound,
are posted to the runner. -/
def exampleSkippedRequests : World :=
  BackgroundAppRunner.delete_window 9 (BackgroundAppRunner.update_window 9
    (BackgroundAppRunner.create_window 2 none exampleShownWorld))

/-- An example state: in `exampleShownWorld` the worker calls `update` twice on the bound
controller 2, so that two update requests are pending. -/
def exampleTwoUpdates : World :=
  WindowBase.update 2 (WindowBase.update 2 exampleShownWorld)

/-- An example state: in `exampleTimerWorld` the controller 2 is shown (the GUI thread runs
`on_idle` once while `show_window` waits, and `show_window` then posts the start request for the
timer 3), and the user closes the window, at 4, before the GUI thread runs `on_idle` again. The
controller is unbound, its timer is stopped, and the start request is pending. -/
def exampleClosedBeforeStart : World :=
  (WindowBase.show_window 2 (some "Main") World.on_idle exampleTimerWorld).on_hide_window 4

/-- An example state: in `exampleShownWorld`, where the timer 3 of the controller 2 is running,
the worker calls `kill_timer` on the timer. -/
def exampleKilledTimer : World :=
  WindowBase.kill_timer 2 3 exampleShownWorld

/-- An example state: in `exampleTimerWorld` the controller 2 is shown, so that the start request
for the timer 3 is pending, and the worker calls `kill_timer` on the timer before the GUI thread
runs `on_idle` again. -/
def exampleKilledBeforeStart : World :=
  WindowBase.kill_timer 2 3
    (WindowBase.show_window 2 (some "Main") World.on_idle exampleTimerWorld)

/-- The pending titles `m_win_title_queue` of the executor, none while the executor does not
exist. -/
def World.title_queue (w : World) : List (Option String) :=
  (w.runner.m_app.getD BackgroundApp.new).m_win_title_queue

/-- The number of `notify_all` calls made on `m_window_cond` of the executor, zero while the
executor does not exist. -/
def World.window_cond_notified (w : World) : Nat :=
  (w.runner.m_app.getD BackgroundApp.new).window_cond_notified

/-- A step that keeps the two create queues of the executor and makes no `notify_all` call on
`m_window_cond`. -/
def SameCreateQueues (w w1 : World) : Prop :=
  w1.create_queue = w.create_queue ∧ w1.title_queue = w.title_queue ∧
    w1.window_cond_notified = w.window_cond_notified

/-- A sequence of calls of `BackgroundAppRunner::create_window`, one for each request of the
list, in the order of the list. -/
def BackgroundAppRunner.create_windows (requests : List (Ptr × Option String)) (w : World) :
    World :=
  requests.foldl (fun w r => BackgroundAppRunner.create_window r.1 r.2 w) w

/-! ## Theorems -/

theorem World.call_eq (w : World) (c : Call) : w.call c = { w with trace := w.trace ++ [c] } :=
  rfl

/-- A handler only appends calls to the trace, and which calls depends on the live timers only. -/
theorem EventData.invoke_handler_eq (e : EventData) (w : World) :
    e.invoke_handler w = { w with trace := w.trace ++ e.handler_calls w.timers } := by
  unfold EventData.invoke_handler TimerData.process_timer_event EventData.handler_calls
    EventData.get_source
  cases e.m_handler <;> simp [World.call]
  split
  · rfl
  · split <;> rfl

/-- Running handlers one after the other appends their calls in that order. -/
theorem foldl_invoke_handler_eq (l : List EventData) (w : World) :
    l.foldl (fun w e => e.invoke_handler w) w
      = { w with trace := w.trace ++ l.flatMap (fun e => e.handler_calls w.timers) } := by
  induction l generalizing w with
  | nil => simp
  | cons e l ih =>
    rw [List.foldl_cons, ih, EventData.invoke_handler_eq]
    simp [List.append_assoc]

/-- The loop of `process_events` empties the queue and runs the handlers of the events listed by
`EventQueue.invoked`, in that order. -/
theorem EventQueue.process_events_loop_eq (b : Bool) (q : List EventData) (w : World) :
    EventQueue.process_events_loop b q w
      = ([], (EventQueue.invoked b q).foldl (fun w e => e.invoke_handler w) w) := by
  induction q generalizing w with
  | nil => rfl
  | cons e rest ih =>
    simp only [EventQueue.process_events_loop, EventQueue.invoked, ih]
    split <;> simp_all

theorem EventQueue.invoked_false (q : List EventData) : EventQueue.invoked false q = q := by
  induction q with
  | nil => rfl
  | cons e rest ih => simp [EventQueue.invoked, ih]

theorem foldl_push (es : List EventData) (this : EventQueue) :
    (es.foldl EventQueue.push this).m_event_data_queue = this.m_event_data_queue ++ es := by
  induction es generalizing this with
  | nil => simp
  | cons e es ih => simp [ih, EventQueue.push]

/-- C1. For every sequence `es` of commands pushed onto a queue, in the order in which the pushes
completed, one `process_events(false)` leaves the queue empty and runs the handler of every
queued command exactly once, in enqueue order: the final state is the one reached by calling
`invoke_handler` on the queued commands one after the other, front first, and the trace grows by
the calls of these handlers in that order. -/
theorem EventQueue.process_events_false_invokes_all (this : EventQueue) (es : List EventData)
    (w : World) :
    ((es.foldl EventQueue.push this).process_events false w).1.m_event_data_queue = [] ∧
    ((es.foldl EventQueue.push this).process_events false w).2
      = (this.m_event_data_queue ++ es).foldl (fun w e => e.invoke_handler w) w ∧
    ((es.foldl EventQueue.push this).process_events false w).2.trace
      = w.trace ++ (this.m_event_data_queue ++ es).flatMap (fun e => e.handler_calls w.timers) := by
  simp only [EventQueue.process_events, EventQueue.process_events_loop_eq,
    EventQueue.invoked_false, foldl_push, foldl_invoke_handler_eq]
  exact ⟨trivial, trivial, trivial⟩

theorem EventData.is_same_source_iff (a b : EventData) :
    a.is_same_source b = true ↔ SameSource a b := by
  unfold EventData.is_same_source SameSource
  split <;> simp_all

theorem any_is_same_source_eq_false (e : EventData) (rest : List EventData) :
    (rest.any (fun it => e.is_same_source it)) = false ↔ ∀ x ∈ rest, ¬ SameSource e x := by
  simp [← EventData.is_same_source_iff]

theorem lastPerSource_cons (e : EventData) (rest : List EventData) :
    lastPerSource (e :: rest)
      = if ∀ x ∈ rest, ¬ SameSource e x then e :: lastPerSource rest else lastPerSource rest := by
  unfold lastPerSource
  rw [List.length_cons, List.range_succ_eq_map, List.filterMap_cons, List.filterMap_map]
  have h : ((fun i => match List.drop i (e :: rest) with
      | [] => none
      | e :: later => if ∀ x ∈ later, ¬ SameSource e x then some e else none) ∘ Nat.succ)
      = (fun i => match List.drop i rest with
      | [] => none
      | e :: later => if ∀ x ∈ later, ¬ SameSource e x then some e else none) := by
    funext i
    simp
  rw [h]
  by_cases hk : ∀ x ∈ rest, ¬ SameSource e x
  · rw [if_pos hk]
    simp only [List.drop_zero, if_pos hk]
  · rw [if_neg hk]
    simp only [List.drop_zero, if_neg hk]

/-- With coalescing, the loop of `process_events` calls the handlers of exactly the commands that
have no later command from the same source. -/
theorem EventQueue.invoked_true (q : List EventData) :
    EventQueue.invoked true q = lastPerSource q := by
  induction q with
  | nil => rfl
  | cons e rest ih =>
    rw [lastPerSource_cons, EventQueue.invoked, ih, Bool.true_and]
    by_cases hk : ∀ x ∈ rest, ¬ SameSource e x
    · rw [if_pos hk, if_pos ((any_is_same_source_eq_false e rest).2 hk)]
    · rw [if_neg hk, if_neg (fun h => hk ((any_is_same_source_eq_false e rest).1 h))]

theorem lastPerSource_sublist (q : List EventData) : (lastPerSource q).Sublist q := by
  induction q with
  | nil => simp [lastPerSource]
  | cons e rest ih =>
    rw [lastPerSource_cons]
    split
    · exact ih.cons₂ e
    · exact ih.cons e

theorem lastPerSource_pairwise (q : List EventData) :
    (lastPerSource q).Pairwise (fun a b => ¬ SameSource a b) := by
  induction q with
  | nil => simp [lastPerSource]
  | cons e rest ih =>
    rw [lastPerSource_cons]
    split
    · rename_i hk
      exact List.Pairwise.cons (fun x hx => hk x ((lastPerSource_sublist rest).subset hx)) ih
    · exact ih

theorem SameSource.trans {a b c : EventData} (h1 : SameSource a b) (h2 : SameSource b c) :
    SameSource a c :=
  ⟨h1.1.trans h2.1, h1.2.trans h2.2⟩

theorem lastPerSource_covers (q : List EventData) :
    ∀ e ∈ q, ∃ x ∈ lastPerSource q, SameSource e x := by
  induction q with
  | nil => simp
  | cons a rest ih =>
    intro e he
    rw [lastPerSource_cons]
    rcases List.mem_cons.1 he with rfl | he
    · by_cases hk : ∀ x ∈ rest, ¬ SameSource e x
      · rw [if_pos hk]
        exact ⟨e, List.mem_cons_self _ _, rfl, rfl⟩
      · rw [if_neg hk]
        push_neg at hk
        obtain ⟨y, hy, hey⟩ := hk
        obtain ⟨x, hx, hyx⟩ := ih y hy
        exact ⟨x, hx, hey.trans hyx⟩
    · obtain ⟨x, hx, hex⟩ := ih e he
      split
      · exact ⟨x, List.mem_cons_of_mem _ hx, hex⟩
      · exact ⟨x, hx, hex⟩

/-- C2. For every queue content, `process_events(true)` leaves the queue empty and runs the
handlers of exactly the commands that have no later command in the queue from the same source
(`lastPerSource`), in enqueue order, where `is_same_source` holds iff both the source and the
handler are equal. Hence the commands that are run form a sublist of the queue, no two of them
are from the same source, and every queued command has a command of its source among them; the
other commands are removed without being run. -/
theorem EventQueue.process_events_true_invokes_last (this : EventQueue) (w : World) :
    (∀ a b : EventData,
      a.is_same_source b = true ↔ (a.m_source = b.m_source ∧ a.m_handler = b.m_handler)) ∧
    (this.process_events true w).1.m_event_data_queue = [] ∧
    (this.process_events true w).2
      = (lastPerSource this.m_event_data_queue).foldl (fun w e => e.invoke_handler w) w ∧
    (this.process_events true w).2.trace
      = w.trace ++ (lastPerSource this.m_event_data_queue).flatMap
          (fun e => e.handler_calls w.timers) ∧
    (lastPerSource this.m_event_data_queue).Sublist this.m_event_data_queue ∧
    (lastPerSource this.m_event_data_queue).Pairwise
      (fun a b => ¬ (a.m_source = b.m_source ∧ a.m_handler = b.m_handler)) ∧
    (∀ e ∈ this.m_event_data_queue, ∃ x ∈ lastPerSource this.m_event_data_queue,
      e.m_source = x.m_source ∧ e.m_handler = x.m_handler) := by
  refine ⟨EventData.is_same_source_iff, ?_, ?_, ?_, lastPerSource_sublist _,
    lastPerSource_pairwise _, lastPerSource_covers _⟩
  · simp [EventQueue.process_events, EventQueue.process_events_loop_eq]
  · simp [EventQueue.process_events, EventQueue.process_events_loop_eq, EventQueue.invoked_true]
  · simp [EventQueue.process_events, EventQueue.process_events_loop_eq, EventQueue.invoked_true,
      foldl_invoke_handler_eq]

/-! ### Timer fires -/

/-- Draining a queue appends the calls of the handlers that are run. -/
theorem World.process_events_trace (w : World) (q : Ptr) (b : Bool) :
    (w.process_events q b).trace
      = w.trace ++ (EventQueue.invoked b (w.queues q).m_event_data_queue).flatMap
          (fun e => e.handler_calls w.timers) := by
  simp [World.process_events, EventQueue.process_events, EventQueue.process_events_loop_eq,
    foldl_invoke_handler_eq]

theorem TimerData.queue_timer_event_eq (this : Ptr) (t : TimerData) (w : World)
    (ht : w.timers this = some t) (hq : t.m_user_event_queue ≠ nullptr)
    (hf : t.m_timer_event_func ≠ nullptr) :
    TimerData.queue_timer_event this w
      = (true, w.push t.m_user_event_queue this Handler.process_timer_event) := by
  unfold TimerData.queue_timer_event
  rw [ht]
  simp [hq, hf]

theorem World.push_timers (w : World) (q s : Ptr) (h : Handler) :
    (w.push q s h).timers = w.timers :=
  rfl

theorem World.push_trace (w : World) (q s : Ptr) (h : Handler) :
    (w.push q s h).trace = w.trace :=
  rfl

theorem World.push_queue (w : World) (q s : Ptr) (h : Handler) :
    ((w.push q s h).queues q).m_event_data_queue
      = (w.queues q).m_event_data_queue ++ [{ addr := w.heap_top, m_source := s, m_handler := h }] := by
  simp [World.push, World.push_event, store, EventQueue.push]

/-- After `n` fires the trace and the timers are as before and the target queue holds `n` more
commands, each with the timer as source and `process_timer_event` as handler. -/
theorem TimerData.fires (this : Ptr) (t : TimerData) (n : Nat) (w : World)
    (ht : w.timers this = some t) (hq : t.m_user_event_queue ≠ nullptr)
    (hf : t.m_timer_event_func ≠ nullptr) :
    ((fun w => (TimerData.queue_timer_event this w).2)^[n] w).trace = w.trace ∧
    ((fun w => (TimerData.queue_timer_event this w).2)^[n] w).timers = w.timers ∧
    ∃ l : List EventData, l.length = n ∧
      (∀ e ∈ l, e.m_source = this ∧ e.m_handler = Handler.process_timer_event) ∧
      (((fun w => (TimerData.queue_timer_event this w).2)^[n] w).queues
        t.m_user_event_queue).m_event_data_queue
        = (w.queues t.m_user_event_queue).m_event_data_queue ++ l := by
  induction n generalizing w with
  | zero => exact ⟨rfl, rfl, [], rfl, by simp, by simp⟩
  | succ n ih =>
    rw [Function.iterate_succ_apply, TimerData.queue_timer_event_eq this t w ht hq hf]
    obtain ⟨h1, h2, l, hl, hs, hqueue⟩ :=
      ih (w.push t.m_user_event_queue this Handler.process_timer_event) ht
    refine ⟨h1, h2, EventData.mk w.heap_top this Handler.process_timer_event :: l,
      by simp [hl], ?_, ?_⟩
    · intro e he
      rcases List.mem_cons.1 he with rfl | he
      · exact ⟨rfl, rfl⟩
      · exact hs e he
    · rw [hqueue, World.push_queue, List.append_assoc, List.singleton_append]

theorem flatMap_handler_calls_timer (this : Ptr) (t : TimerData) (timers : Ptr → Option TimerData)
    (ht : timers this = some t) (hf : t.m_timer_event_func ≠ nullptr) (l : List EventData)
    (hl : ∀ e ∈ l, e.m_source = this ∧ e.m_handler = Handler.process_timer_event) :
    l.flatMap (fun e => e.handler_calls timers)
      = List.replicate l.length (Call.timer_event_func t.m_timer_event_func t.m_user_data) := by
  induction l with
  | nil => rfl
  | cons e l ih =>
    have he := hl e (List.mem_cons_self _ _)
    rw [List.flatMap_cons, ih (fun x hx => hl x (List.mem_cons_of_mem _ hx))]
    simp [EventData.handler_calls, he.1, he.2, ht, hf, List.replicate_succ]

/-- C3. For a live timer with a non-null target queue and a non-null user callback, a fire
(`queue_timer_event`) returns true (the timer stays connected), appends exactly one command, with
the timer as its source and `process_timer_event` as its handler, to the target queue of the
timer, changes no other queue, and calls nothing (the trace, the timers and the timeout
registrations are unchanged). The user callback runs only when the queue is drained: after `n`
fires the trace is still unchanged, and draining the target queue without coalescing then makes,
after the calls for what the queue held before, exactly `n` calls of the user callback with the
user data of the timer. -/
theorem TimerData.queue_timer_event_defers_callback (this : Ptr) (t : TimerData) (w : World)
    (ht : w.timers this = some t) (hq : t.m_user_event_queue ≠ nullptr)
    (hf : t.m_timer_event_func ≠ nullptr) :
    (TimerData.queue_timer_event this w).1 = true ∧
    ((TimerData.queue_timer_event this w).2.queues t.m_user_event_queue).m_event_data_queue
      = (w.queues t.m_user_event_queue).m_event_data_queue
        ++ [{ addr := w.heap_top, m_source := this, m_handler := Handler.process_timer_event }] ∧
    (∀ q, q ≠ t.m_user_event_queue → (TimerData.queue_timer_event this w).2.queues q = w.queues q) ∧
    (TimerData.queue_timer_event this w).2.trace = w.trace ∧
    (TimerData.queue_timer_event this w).2.timers = w.timers ∧
    (TimerData.queue_timer_event this w).2.timeouts = w.timeouts ∧
    ∀ n : Nat,
      ((fun w => (TimerData.queue_timer_event this w).2)^[n] w).trace = w.trace ∧
      (((fun w => (TimerData.queue_timer_event this w).2)^[n] w).process_events
          t.m_user_event_queue false).trace
        = (w.process_events t.m_user_event_queue false).trace
          ++ List.replicate n (Call.timer_event_func t.m_timer_event_func t.m_user_data) := by
  rw [TimerData.queue_timer_event_eq this t w ht hq hf]
  refine ⟨rfl, World.push_queue _ _ _ _, ?_, rfl, rfl, rfl, ?_⟩
  · intro q hne
    simp [World.push, World.push_event, store, hne]
  · intro n
    obtain ⟨h1, h2, l, hl, hs, hqueue⟩ := TimerData.fires this t n w ht hq hf
    refine ⟨h1, ?_⟩
    rw [World.process_events_trace, World.process_events_trace, h1, h2, hqueue,
      EventQueue.invoked_false, EventQueue.invoked_false, List.flatMap_append,
      flatMap_handler_calls_timer this t w.timers ht hf l hs, hl, List.append_assoc]

/-- Witness for C3: the timer of `exampleTimerWorld` fires twice, then the global queue is
drained. -/
theorem TimerData.queue_timer_event_defers_callback_witness :
    exampleTimerWorld.timers 3 = some (TimerData.new 100 1 7 8) ∧
    (TimerData.queue_timer_event 3 exampleTimerWorld).1 = true ∧
    (((fun w => (TimerData.queue_timer_event 3 w).2)^[2] exampleTimerWorld).process_events
      1 false).trace = [Call.timer_event_func 7 8, Call.timer_event_func 7 8] := by
  have h := TimerData.queue_timer_event_defers_callback 3 (TimerData.new 100 1 7 8)
    exampleTimerWorld rfl (by decide) (by decide)
  exact ⟨rfl, h.1, (h.2.2.2.2.2.2 2).2⟩

/-! ### Timers of a controller -/

/-- C4. The code at the failing input: in `exampleShownWorld` the controller at 2 owns the running
timer at 3. `kill_timer(nullptr)` returns at once and changes nothing, and after the destructor
the stop queue of the executor is still empty, the timer is still alive and running, and its
timeout registration is still in the main loop. -/
theorem WindowBase.kill_timer_null_stops_nothing :
    (exampleShownWorld.controllers 2).map (fun c => c.m_timer_list) = some [3] ∧
    (exampleShownWorld.timers 3).map (fun t => t.m_is_running) = some true ∧
    WindowBase.kill_timer 2 nullptr exampleShownWorld = exampleShownWorld ∧
    (WindowBase.destroy 2 exampleShownWorld).runner.m_app.map
      (fun app => app.m_disconnect_timer_queue) = some [] ∧
    ((WindowBase.destroy 2 exampleShownWorld).timers 3).map (fun t => t.m_is_running)
      = some true ∧
    (WindowBase.destroy 2 exampleShownWorld).timeouts = [(0, 3)] := by
  refine ⟨by decide, by decide, rfl, by decide, by decide, by decide⟩

/-- The loop of `kill_timer` for a non-null handle: at the first occurrence of the handle one stop
request is made, the timer is freed and the occurrence is erased; without an occurrence nothing
happens. -/
theorem WindowBase.kill_timer_loop_eq (h : Ptr) (hh : h ≠ nullptr) (l : List Ptr) (w : World) :
    WindowBase.kill_timer_loop h l w
      = if h ∈ l then
          (l.erase h, delete_timer h (BackgroundAppRunner.disconnect_timer h w))
        else (l, w) := by
  induction l with
  | nil => rfl
  | cons it rest ih =>
    unfold WindowBase.kill_timer_loop
    by_cases hit : it = h
    · subst hit
      simp [hh]
    · have hne : ¬ (it = h ∨ h = nullptr) := by
        rintro (h1 | h1)
        · exact hit h1
        · exact hh h1
      have hne2 : (it == h) = false := by simpa using hit
      rw [if_neg hne, ih, List.erase_cons, hne2]
      by_cases hm : h ∈ rest
      · simp [hm]
      · simp [hm, Ne.symm hit]

theorem store_self {α : Type} (m : Ptr → α) (p : Ptr) (a : α) (h : m p = a) :
    store m p a = m := by
  funext q
  unfold store
  split
  · rename_i hq
    rw [hq, h]
  · rfl

theorem delete_timer_controllers (p : Ptr) (w : World) :
    (delete_timer p w).controllers = w.controllers := by
  unfold delete_timer
  split
  · rfl
  · split <;> rfl

theorem delete_timer_runner (p : Ptr) (w : World) : (delete_timer p w).runner = w.runner := by
  unfold delete_timer
  split
  · rfl
  · split <;> rfl

theorem delete_timer_timers (p : Ptr) (hp : p ≠ nullptr) (w : World) :
    (delete_timer p w).timers p = none ∧ ∀ q, q ≠ p → (delete_timer p w).timers q = w.timers q := by
  unfold delete_timer
  rw [if_neg hp]
  split
  · rename_i hn
    exact ⟨hn, fun _ _ => rfl⟩
  · exact ⟨by simp [store], fun q hq => by simp [store, hq]⟩

theorem BackgroundAppRunner.disconnect_timer_timers (p : Ptr) (w : World) :
    (BackgroundAppRunner.disconnect_timer p w).timers = w.timers := by
  unfold BackgroundAppRunner.disconnect_timer
  split <;> rfl

theorem BackgroundAppRunner.disconnect_timer_controllers (p : Ptr) (w : World) :
    (BackgroundAppRunner.disconnect_timer p w).controllers = w.controllers := by
  unfold BackgroundAppRunner.disconnect_timer
  split <;> rfl

/-- C5. For a live controller `this` and a timer handle `h`: if `h` is in the timer list (a
handle is the address of a timer, so it is not null), `kill_timer(h)` makes exactly one
`disconnect_timer(h)` call on the runner (which appends `h` once to the stop queue when the
executor exists), frees `h` and no other timer, and erases `h` from the timer list, the other
timers staying in their order; if `h` is not in the timer list, nothing changes at all. -/
theorem WindowBase.kill_timer_removes_handle (this h : Ptr) (c : ControlsWindow) (w : World)
    (hc : w.controllers this = some c) :
    (h ∈ c.m_timer_list → h ≠ nullptr →
      (WindowBase.kill_timer this h w).controllers this
        = some { c with m_timer_list := c.m_timer_list.erase h } ∧
      (∃ a b, c.m_timer_list = a ++ h :: b ∧ h ∉ a ∧ c.m_timer_list.erase h = a ++ b) ∧
      (WindowBase.kill_timer this h w).runner = (BackgroundAppRunner.disconnect_timer h w).runner ∧
      (∀ app, w.runner.m_app = some app →
        (WindowBase.kill_timer this h w).runner.m_app
          = some { app with
              m_disconnect_timer_queue := app.m_disconnect_timer_queue ++ [h]
              idle_connected := app.idle_connected + 1 }) ∧
      (w.runner.m_app = none → (WindowBase.kill_timer this h w).runner = w.runner) ∧
      (WindowBase.kill_timer this h w).timers h = none ∧
      (∀ p, p ≠ h → (WindowBase.kill_timer this h w).timers p = w.timers p)) ∧
    (h ∉ c.m_timer_list → WindowBase.kill_timer this h w = w) := by
  constructor
  · intro hmem hh
    have hk : WindowBase.kill_timer this h w
        = { delete_timer h (BackgroundAppRunner.disconnect_timer h w) with
            controllers := store (delete_timer h (BackgroundAppRunner.disconnect_timer h w)).controllers
              this (some { c with m_timer_list := c.m_timer_list.erase h }) } := by
      unfold WindowBase.kill_timer
      rw [hc]
      simp only [if_neg hh, WindowBase.kill_timer_loop_eq h hh, if_pos hmem]
    rw [hk]
    refine ⟨by simp [store], ?_, ?_, ?_, ?_, ?_, ?_⟩
    · obtain ⟨a, b, hnot, hab, her⟩ := List.exists_erase_eq hmem
      exact ⟨a, b, hab, hnot, her⟩
    · exact delete_timer_runner _ _
    · intro app happ
      show (delete_timer h (BackgroundAppRunner.disconnect_timer h w)).runner.m_app = _
      rw [delete_timer_runner]
      simp [BackgroundAppRunner.disconnect_timer, happ, World.set_app,
        BackgroundApp.post_disconnect_timer]
    · intro happ
      show (delete_timer h (BackgroundAppRunner.disconnect_timer h w)).runner = _
      rw [delete_timer_runner]
      simp [BackgroundAppRunner.disconnect_timer, happ]
    · exact (delete_timer_timers h hh _).1
    · intro p hp
      show (delete_timer h (BackgroundAppRunner.disconnect_timer h w)).timers p = _
      rw [(delete_timer_timers h hh _).2 p hp, BackgroundAppRunner.disconnect_timer_timers]
  · intro hmem
    unfold WindowBase.kill_timer
    rw [hc]
    by_cases hh : h = nullptr
    · simp [hh]
    · simp only [if_neg hh, WindowBase.kill_timer_loop_eq h hh, if_neg hmem]
      have : store w.controllers this (some { c with m_timer_list := c.m_timer_list })
          = w.controllers := store_self _ _ _ hc
      rw [this]

/-- Witness for C5: the timer at 3 of the controller at 2 in `exampleShownWorld`. -/
theorem WindowBase.kill_timer_removes_handle_witness :
    exampleShownWorld.controllers 2 = some
      { m_background_queue := { m_event_data_queue := [], notified := 0 }
        m_user_event_queue := 0
        m_close_notify_list := [1]
        m_timer_list := [3]
        m_window := 4
        new_window_notified := 1
        delete_window_notified := 0 } ∧
    ((WindowBase.kill_timer 2 3 exampleShownWorld).controllers 2).map (fun c => c.m_timer_list)
      = some [] ∧
    (WindowBase.kill_timer 2 3 exampleShownWorld).runner.m_app.map
      (fun app => app.m_disconnect_timer_queue) = some [3] := by
  have h := (WindowBase.kill_timer_removes_handle 2 3 _ exampleShownWorld rfl).1
    (by decide) (by decide)
  refine ⟨by decide, ?_, ?_⟩
  · rw [h.1]
    decide
  · rw [h.2.2.1]
    decide

/-- C6, as the claim states it, fails: in `exampleShownWorld` the controller at 2 is bound to the
window at 4; `add_timer` returns the new timer 5, and no start request for it is posted (the start
queue stays empty), so the next `on_idle` does not start it. -/
theorem WindowBase.add_timer_bound_posts_no_start :
    (exampleShownWorld.controllers 2).map (fun c => c.m_window) = some 4 ∧
    (WindowBase.add_timer 2 50 7 8 nullptr exampleShownWorld).1 = 5 ∧
    (WindowBase.add_timer 2 50 7 8 nullptr exampleShownWorld).2.runner.m_app.map
      (fun app => app.m_connect_timer_queue) = some [] ∧
    ((WindowBase.add_timer 2 50 7 8 nullptr exampleShownWorld).2.on_idle.timers 5).map
      (fun t => t.m_is_running) = some false := by
  decide

/-- C6, amended. On a live controller, `add_timer` returns a new timer handle, the timer is
stopped and not connected and has the given interval, callback and user data (its target queue is
the given queue or, for a null queue, the user event queue of the controller), and the handle is
appended to the end of the timer list of the controller. No start request is posted, whether the
controller is bound or not: the runner, the timeout registrations and the trace are unchanged. -/
theorem WindowBase.add_timer_appends_stopped_timer (this : Ptr) (c : ControlsWindow) (w : World)
    (in_interval_ms in_timer_event_func in_user_data in_user_event_queue : Ptr)
    (hc : w.controllers this = some c) :
    (WindowBase.add_timer this in_interval_ms in_timer_event_func in_user_data
      in_user_event_queue w).1 = w.heap_top ∧
    (WindowBase.add_timer this in_interval_ms in_timer_event_func in_user_data
      in_user_event_queue w).2.timers w.heap_top
      = some
        { m_interval_ms := in_interval_ms
          m_timer_event_func := in_timer_event_func
          m_user_data := in_user_data
          m_user_event_queue :=
            if in_user_event_queue = nullptr then c.get_user_event_queue else in_user_event_queue
          mTimerConnection := none
          m_is_running := false } ∧
    (∀ p, p ≠ w.heap_top →
      (WindowBase.add_timer this in_interval_ms in_timer_event_func in_user_data
        in_user_event_queue w).2.timers p = w.timers p) ∧
    (WindowBase.add_timer this in_interval_ms in_timer_event_func in_user_data
      in_user_event_queue w).2.controllers this
      = some { c with m_timer_list := c.m_timer_list ++ [w.heap_top] } ∧
    (WindowBase.add_timer this in_interval_ms in_timer_event_func in_user_data
      in_user_event_queue w).2.runner = w.runner ∧
    (WindowBase.add_timer this in_interval_ms in_timer_event_func in_user_data
      in_user_event_queue w).2.timeouts = w.timeouts ∧
    (WindowBase.add_timer this in_interval_ms in_timer_event_func in_user_data
      in_user_event_queue w).2.trace = w.trace := by
  unfold WindowBase.add_timer
  rw [hc]
  refine ⟨rfl, by simp [store, TimerData.new], ?_, by simp [store], rfl, rfl, rfl⟩
  intro p hp
  simp [store, hp]

/-- Witness for the amended C6: a second timer is added to the bound controller of
`exampleShownWorld`. -/
theorem WindowBase.add_timer_appends_stopped_timer_witness :
    (exampleShownWorld.controllers 2).map (fun c => c.m_timer_list) = some [3] ∧
    ((WindowBase.add_timer 2 50 7 8 nullptr exampleShownWorld).2.controllers 2).map
      (fun c => c.m_timer_list) = some [3, 5] ∧
    (WindowBase.add_timer 2 50 7 8 nullptr exampleShownWorld).2.runner
      = exampleShownWorld.runner := by
  have h := WindowBase.add_timer_appends_stopped_timer 2 _ exampleShownWorld 50 7 8 nullptr rfl
  refine ⟨by decide, ?_, h.2.2.2.2.1⟩
  rw [h.2.2.2.1]
  decide

/-! ### show_window and update -/

theorem BackgroundAppRunner.connect_timer_eq (t : Ptr) (w : World) (app : BackgroundApp)
    (happ : w.runner.m_app = some app) :
    BackgroundAppRunner.connect_timer t w = w.set_app (app.post_connect_timer t) := by
  unfold BackgroundAppRunner.connect_timer
  rw [happ]

/-- Posting start requests for a list of timers, one after the other, appends the list to the
start queue. -/
theorem foldl_connect_timer_eq (l : List Ptr) (w : World) (app : BackgroundApp)
    (happ : w.runner.m_app = some app) :
    l.foldl (fun w it => BackgroundAppRunner.connect_timer it w) w
      = w.set_app { app with
          m_connect_timer_queue := app.m_connect_timer_queue ++ l
          idle_connected := app.idle_connected + l.length } := by
  induction l generalizing w app with
  | nil =>
    cases w with
    | mk runner _ _ _ _ _ _ _ _ _ =>
      cases runner
      simp_all [World.set_app]
  | cons t l ih =>
    rw [List.foldl_cons, BackgroundAppRunner.connect_timer_eq t w app happ,
      ih (w.set_app (app.post_connect_timer t)) (app.post_connect_timer t) rfl]
    simp [World.set_app, BackgroundApp.post_connect_timer, List.append_assoc, Nat.add_assoc,
      Nat.add_comm 1]

/-- What `BackgroundAppRunner::create_window` does: the executor is constructed (and held) if it
does not exist yet, the request is appended to the create queues, and the thread exists
afterwards. -/
theorem BackgroundAppRunner.create_window_runner (this : Ptr) (title : Option String)
    (w : World) :
    (BackgroundAppRunner.create_window this title w).runner
      = { m_app := some ((w.runner.m_app.getD BackgroundApp.new).post_create_window this title)
          m_thread := true } := by
  unfold BackgroundAppRunner.create_window
  cases hm : w.runner.m_app <;> cases ht : w.runner.m_thread <;>
    simp [World.set_app, World.call, ht]

/-- C7. For a live unbound controller, `show_window` posts exactly one create request: the
controller and the given title are appended to the two create queues of the executor (which is
constructed first if it does not exist), and nothing else is posted. The caller then waits; when
it runs again, in a state where the executor still exists and the controller owns the timers
`c2.m_timer_list`, it posts exactly one start request for each of these timers, in list order:
they are appended to the start queue, and nothing else changes. -/
theorem WindowBase.show_window_posts_create_then_starts (this : Ptr) (in_title : Option String)
    (during_wait : World → World) (w : World) (c c2 : ControlsWindow) (app2 : BackgroundApp)
    (hc : w.controllers this = some c) (hu : c.m_window = nullptr)
    (hc2 : (during_wait (BackgroundAppRunner.create_window this in_title w)).controllers this
      = some c2)
    (happ2 : (during_wait (BackgroundAppRunner.create_window this in_title w)).runner.m_app
      = some app2) :
    (BackgroundAppRunner.create_window this in_title w).runner.m_app
      = some
        { w.runner.m_app.getD BackgroundApp.new with
          m_create_win_queue :=
            (w.runner.m_app.getD BackgroundApp.new).m_create_win_queue ++ [this]
          m_win_title_queue :=
            (w.runner.m_app.getD BackgroundApp.new).m_win_title_queue ++ [in_title]
          idle_connected := (w.runner.m_app.getD BackgroundApp.new).idle_connected + 1 } ∧
    WindowBase.show_window this in_title during_wait w
      = (during_wait (BackgroundAppRunner.create_window this in_title w)).set_app
          { app2 with
            m_connect_timer_queue := app2.m_connect_timer_queue ++ c2.m_timer_list
            idle_connected := app2.idle_connected + c2.m_timer_list.length } := by
  constructor
  · rw [BackgroundAppRunner.create_window_runner]
    rfl
  · unfold WindowBase.show_window
    rw [hc]
    simp only [ControlsWindow.back_app_get_window, ControlsWindow.get_window_object, hu]
    simp only [ne_eq, not_true_eq_false, if_false]
    unfold WindowBase.start_all_timers
    rw [hc2]
    exact foldl_connect_timer_eq _ _ _ happ2

/-- Witness for C7: the controller of `exampleTimerWorld`, which owns the timer 3, is shown while
the GUI thread runs `on_idle` once. -/
theorem WindowBase.show_window_posts_create_then_starts_witness :
    (BackgroundAppRunner.create_window 2 (some "Main") exampleTimerWorld).runner.m_app.map
      (fun app => (app.m_create_win_queue, app.m_win_title_queue)) = some ([2], [some "Main"]) ∧
    (WindowBase.show_window 2 (some "Main") World.on_idle exampleTimerWorld).runner.m_app.map
      (fun app => app.m_connect_timer_queue) = some [3] := by
  have h := WindowBase.show_window_posts_create_then_starts 2 (some "Main") World.on_idle
    exampleTimerWorld _ _ _ rfl rfl rfl rfl
  refine ⟨?_, ?_⟩
  · rw [h.1]
    decide
  · rw [h.2]
    decide

/-- C8. On a live controller that is already bound (its window object is not null),
`show_window` returns the state unchanged, whatever the title and whatever the other threads would
do during a wait: no create request and no timer start is posted, the caller does not wait, and
the executor and the controller are as before. -/
theorem WindowBase.show_window_bound_noop (this : Ptr) (in_title : Option String)
    (during_wait : World → World) (w : World) (c : ControlsWindow)
    (hc : w.controllers this = some c) (hb : c.m_window ≠ nullptr) :
    WindowBase.show_window this in_title during_wait w = w := by
  unfold WindowBase.show_window
  rw [hc]
  simp only [ControlsWindow.back_app_get_window, ControlsWindow.get_window_object]
  rw [if_pos hb]

/-- Witness for C8: the bound controller of `exampleShownWorld`; the wait would run `on_idle`. -/
theorem WindowBase.show_window_bound_noop_witness :
    (exampleShownWorld.controllers 2).map (fun c => c.m_window) = some 4 ∧
    WindowBase.show_window 2 (some "Again") World.on_idle exampleShownWorld
      = exampleShownWorld :=
  ⟨by decide, WindowBase.show_window_bound_noop 2 (some "Again") World.on_idle exampleShownWorld
    _ rfl (by decide)⟩

/-! ### A window object exists only if the executor exists -/

/-- The invariant: as long as the executor does not exist, no live controller has a window
object. -/
theorem Step.preserves_unbound_without_executor {w w1 : World} (hs : Step w w1)
    (hw : w.runner.m_app = none → ∀ this c, w.controllers this = some c → c.m_window = nullptr) :
    w1.runner.m_app = none → ∀ this c, w1.controllers this = some c → c.m_window = nullptr := by
  cases hs with
  | new_controls_window queue =>
    intro hn this c hc
    simp only [World.new_controls_window, store] at hc
    split at hc
    · cases hc
      rfl
    · exact hw hn this c hc
  | add_timer x interval func data queue =>
    unfold WindowBase.add_timer
    split
    · exact hw
    · rename_i c0 hc0
      intro hn this c hc
      simp only [store] at hc
      split at hc
      · rename_i hx
        cases hc
        exact hw hn x c0 hc0
      · exact hw hn this c hc
  | kill_timer x timer =>
    unfold WindowBase.kill_timer
    split
    · exact hw
    · rename_i c0 hc0
      split
      · exact hw
      · rename_i hne
        simp only [WindowBase.kill_timer_loop_eq timer hne, if_neg hne]
        by_cases hm : timer ∈ c0.m_timer_list
        · simp only [if_pos hm]
          intro hn this c hc
          have hn1 : (BackgroundAppRunner.disconnect_timer timer w).runner.m_app = none := by
            rw [← delete_timer_runner timer]
            exact hn
          have hn0 : w.runner.m_app = none := by
            unfold BackgroundAppRunner.disconnect_timer at hn1
            split at hn1
            · assumption
            · simp [World.set_app] at hn1
          have hc1 : store w.controllers x
              (some { c0 with m_timer_list := c0.m_timer_list.erase timer }) this = some c := by
            rw [← BackgroundAppRunner.disconnect_timer_controllers timer w,
              ← delete_timer_controllers timer]
            exact hc
          simp only [store] at hc1
          split at hc1
          · cases hc1
            exact hw hn0 x c0 hc0
          · exact hw hn0 this c hc1
        · simp only [if_neg hm]
          intro hn this c hc
          have hc1 : store w.controllers x (some { c0 with m_timer_list := c0.m_timer_list })
              this = some c := hc
          simp only [store] at hc1
          split at hc1
          · cases hc1
            exact hw hn x c0 hc0
          · exact hw hn this c hc1
  | show_window_post x title c0 hc0 hu =>
    intro hn
    rw [BackgroundAppRunner.create_window_runner] at hn
    cases hn
  | show_window_resume x =>
    unfold WindowBase.start_all_timers
    split
    · exact hw
    · rename_i c0 hc0
      cases happ : w.runner.m_app with
      | none =>
        have hfold : ∀ l : List Ptr,
            l.foldl (fun w it => BackgroundAppRunner.connect_timer it w) w = w := by
          intro l
          induction l with
          | nil => rfl
          | cons t l ih =>
            rw [List.foldl_cons]
            have : BackgroundAppRunner.connect_timer t w = w := by
              unfold BackgroundAppRunner.connect_timer
              rw [happ]
            rw [this, ih]
        rw [hfold]
        exact hw
      | some app =>
        rw [foldl_connect_timer_eq _ _ _ happ]
        intro hn
        cases hn
  | update x =>
    unfold WindowBase.update
    split
    · exact hw
    · split
      · exact hw
      · unfold BackgroundAppRunner.update_window
        split
        · exact hw
        · intro hn
          cases hn
  | push_update_event x event =>
    unfold WindowBase.push_update_event
    split
    · exact hw
    · rename_i c0 hc0
      intro hn this c hc
      simp only [store] at hc
      split at hc
      · cases hc
        exact hw hn x c0 hc0
      · exact hw hn this c hc
  | process_events queue b =>
    simp only [World.process_events, EventQueue.process_events,
      EventQueue.process_events_loop_eq, foldl_invoke_handler_eq]
    exact hw
  | destroy x =>
    have hk : WindowBase.kill_timer x nullptr w = w ∨
        WindowBase.kill_timer x nullptr w = w.call (Call.invalid_access x) := by
      unfold WindowBase.kill_timer
      split
      · exact Or.inr rfl
      · exact Or.inl (by simp)
    intro hn this c hc
    unfold WindowBase.destroy at hn hc
    have hrun : w.runner.m_app = none := by
      cases happ : w.runner.m_app with
      | none => rfl
      | some app =>
        exfalso
        rcases hk with hk | hk <;>
          simp [hk, BackgroundAppRunner.delete_window, happ, World.set_app, World.call] at hn
    have hctl : (BackgroundAppRunner.delete_window x
        (WindowBase.kill_timer x nullptr w)).controllers = w.controllers := by
      rcases hk with hk | hk <;> rw [hk] <;>
        · unfold BackgroundAppRunner.delete_window
          split <;> rfl
    have hc1 : store w.controllers x none this = some c := by
      rw [← hctl]
      exact hc
    simp only [store] at hc1
    split at hc1
    · cases hc1
    · exact hw hrun this c hc1
  | on_idle =>
    unfold World.on_idle
    split
    · exact hw
    · intro hn
      cases hn
  | on_hide_window window =>
    unfold World.on_hide_window
    split
    · exact hw
    · intro hn
      cases hn
  | fire id timer hmem =>
    have hq : (TimerData.queue_timer_event timer w).2.runner = w.runner ∧
        (TimerData.queue_timer_event timer w).2.controllers = w.controllers := by
      unfold TimerData.queue_timer_event
      split
      · exact ⟨rfl, rfl⟩
      · split <;> exact ⟨rfl, rfl⟩
    simp only [World.fire]
    split
    · rw [hq.1, hq.2]
      exact hw
    · show (TimerData.queue_timer_event timer w).2.runner.m_app = none → ∀ this c,
        (TimerData.queue_timer_event timer w).2.controllers this = some c → _
      rw [hq.1, hq.2]
      exact hw

/-- In every reachable state without an executor, no live controller has a window object. -/
theorem Reachable.unbound_without_executor {w : World} (hr : Reachable w) :
    w.runner.m_app = none → ∀ this c, w.controllers this = some c → c.m_window = nullptr := by
  induction hr with
  | init =>
    intro _ this c hc
    cases hc
  | step w w1 _ hs ih => exact hs.preserves_unbound_without_executor ih

/-- In every reachable state, a live controller with a window object implies that the executor
exists. -/
theorem Reachable.executor_of_bound {w : World} (hr : Reachable w) (this : Ptr)
    (c : ControlsWindow) (hc : w.controllers this = some c) (hb : c.m_window ≠ nullptr) :
    ∃ app, w.runner.m_app = some app := by
  cases happ : w.runner.m_app with
  | none => exact absurd (hr.unbound_without_executor happ this c hc) hb
  | some app => exact ⟨app, rfl⟩

/-- The state `exampleTimerWorld` is reachable. -/
theorem exampleTimerWorld_reachable : Reachable exampleTimerWorld :=
  Reachable.step _ _
    (Reachable.step _ _ Reachable.init (Step.new_controls_window World.init nullptr))
    (Step.add_timer _ 2 100 7 8 nullptr)

/-- The state `exampleShownWorld` is reachable. -/
theorem exampleShownWorld_reachable : Reachable exampleShownWorld :=
  Reachable.step _ _
    (Reachable.step _ _
      (Reachable.step _ _
        (Reachable.step _ _ exampleTimerWorld_reachable
          (Step.show_window_post exampleTimerWorld 2 (some "Main") _ rfl rfl))
        (Step.on_idle _))
      (Step.show_window_resume _ 2))
    (Step.on_idle _)


/-- On a bound controller, with the executor in existence, `update` posts one update request. -/
theorem WindowBase.update_bound_eq (this : Ptr) (w : World) (c : ControlsWindow)
    (app : BackgroundApp) (hc : w.controllers this = some c) (hb : c.m_window ≠ nullptr)
    (happ : w.runner.m_app = some app) :
    WindowBase.update this w = w.set_app (app.post_update_window this) := by
  unfold WindowBase.update
  rw [hc]
  simp only [ControlsWindow.back_app_get_window, ControlsWindow.get_window_object]
  rw [if_neg hb]
  unfold BackgroundAppRunner.update_window
  rw [happ]

/-- C9. On a live controller without a window, `update` changes nothing: no update request is
posted. On a bound controller, with the executor in existence, `update` posts one update request
for the controller: the controller is appended to the update queue, one wake-up is scheduled, and
nothing else changes. In a reachable state the executor exists whenever a controller is bound, so
there `update` on a bound controller always posts the request. -/
theorem WindowBase.update_posts_iff_bound (this : Ptr) (w : World) (c : ControlsWindow)
    (hc : w.controllers this = some c) :
    (c.m_window = nullptr → WindowBase.update this w = w) ∧
    (c.m_window ≠ nullptr → ∀ app, w.runner.m_app = some app →
      WindowBase.update this w
        = w.set_app { app with
            m_update_win_queue := app.m_update_win_queue ++ [this]
            idle_connected := app.idle_connected + 1 }) ∧
    (c.m_window ≠ nullptr → Reachable w →
      ∃ app, w.runner.m_app = some app ∧
        (WindowBase.update this w).runner.m_app
          = some { app with
              m_update_win_queue := app.m_update_win_queue ++ [this]
              idle_connected := app.idle_connected + 1 }) := by
  refine ⟨?_, ?_, ?_⟩
  · intro hn
    unfold WindowBase.update
    rw [hc]
    simp only [ControlsWindow.back_app_get_window, ControlsWindow.get_window_object]
    rw [if_pos hn]
  · intro hb app happ
    exact WindowBase.update_bound_eq this w c app hc hb happ
  · intro hb hr
    obtain ⟨app, happ⟩ := hr.executor_of_bound this c hc hb
    refine ⟨app, happ, ?_⟩
    rw [WindowBase.update_bound_eq this w c app hc hb happ]
    rfl

/-- Witness for C9: the unbound controller of `exampleTimerWorld` and the bound controller of
`exampleShownWorld`, both reachable states. -/
theorem WindowBase.update_posts_iff_bound_witness :
    WindowBase.update 2 exampleTimerWorld = exampleTimerWorld ∧
    (WindowBase.update 2 exampleShownWorld).runner.m_app.map
      (fun app => app.m_update_win_queue) = some [2] ∧
    ∃ app, exampleShownWorld.runner.m_app = some app ∧
      (WindowBase.update 2 exampleShownWorld).runner.m_app
        = some { app with
            m_update_win_queue := app.m_update_win_queue ++ [2]
            idle_connected := app.idle_connected + 1 } := by
  refine ⟨(WindowBase.update_posts_iff_bound 2 exampleTimerWorld _ rfl).1 rfl, ?_,
    (WindowBase.update_posts_iff_bound 2 exampleShownWorld _ rfl).2.2 (by decide)
      exampleShownWorld_reachable⟩
  rw [(WindowBase.update_posts_iff_bound 2 exampleShownWorld _ rfl).2.1 (by decide) _ rfl]
  decide

/-! ### Update requests in a drain tick -/

theorem World.refreshes_call (w : World) (this : Ptr) (c : Call) :
    (w.call c).refreshes this
      = w.refreshes this + if c = Call.back_app_update_window this then 1 else 0 := by
  unfold World.refreshes World.call
  by_cases h : c = Call.back_app_update_window this
  · simp [h]
  · simp [h, List.count_cons, Ne.symm h]

theorem World.refreshes_of_trace {w1 w2 : World} (this : Ptr) (h : w1.trace = w2.trace) :
    w1.refreshes this = w2.refreshes this := by
  unfold World.refreshes
  rw [h]

theorem EventData.handler_calls_count (e : EventData) (timers : Ptr → Option TimerData)
    (this : Ptr) : (e.handler_calls timers).count (Call.back_app_update_window this) = 0 := by
  unfold EventData.handler_calls
  split
  · rfl
  · split
    · simp
    · split <;> simp
  · simp

theorem EventQueue.process_events_refreshes (q : EventQueue) (b : Bool) (w : World) (this : Ptr) :
    (q.process_events b w).2.refreshes this = w.refreshes this := by
  simp only [EventQueue.process_events, EventQueue.process_events_loop_eq,
    foldl_invoke_handler_eq, World.refreshes, List.count_append]
  generalize EventQueue.invoked b q.m_event_data_queue = l
  induction l with
  | nil => simp
  | cons e l ih =>
    simp only [List.flatMap_cons, List.count_append, EventData.handler_calls_count] at ih ⊢
    omega

theorem WindowBase.process_update_events_refreshes (x : Ptr) (b : Bool) (w : World) (this : Ptr) :
    (WindowBase.process_update_events x b w).refreshes this = w.refreshes this := by
  unfold WindowBase.process_update_events
  split
  · simp [World.refreshes_call]
  · rename_i c _
    have h := EventQueue.process_events_refreshes c.m_background_queue b w this
    simp only []
    split
    · exact h
    · exact h

theorem ControlsWindow.update_window_refreshes (x : Ptr) (w : World) (this : Ptr) :
    (ControlsWindow.update_window x w).refreshes this = w.refreshes this := by
  unfold ControlsWindow.update_window WindowData.update_widgets
  split
  · simp [World.refreshes_call]
  · split
    · rfl
    · split
      · simp [World.refreshes_call]
      · exact WindowBase.process_update_events_refreshes _ _ _ _

theorem WindowBase.back_app_update_window_refreshes (x : Ptr) (w : World) (this : Ptr) :
    (WindowBase.back_app_update_window x w).refreshes this
      = w.refreshes this + if x = this then 1 else 0 := by
  unfold WindowBase.back_app_update_window
  rw [ControlsWindow.update_window_refreshes, World.refreshes_call]
  simp

/-- The update loop enters `back_app_update_window` once for every request of a controller that is
in the bound list. -/
theorem BackgroundApp.process_update_windows_loop_refreshes (uq wl : List Ptr) (w : World)
    (this : Ptr) (hw : this ∈ wl) :
    (BackgroundApp.process_update_windows_loop uq wl w).refreshes this
      = w.refreshes this + uq.count this := by
  induction uq generalizing w with
  | nil => rfl
  | cons x uq ih =>
    unfold BackgroundApp.process_update_windows_loop
    by_cases hx : x = this
    · subst hx
      rw [if_pos hw, ih, WindowBase.back_app_update_window_refreshes]
      simp
      omega
    · have hc : (x :: uq).count this = uq.count this := by
        simp [List.count_cons, hx]
      split
      · rw [ih, WindowBase.back_app_update_window_refreshes, hc]
        simp [hx]
      · rw [ih, hc]

theorem WindowBase.back_app_create_window_refreshes (x : Ptr) (t : Option String) (w : World)
    (this : Ptr) :
    (WindowBase.back_app_create_window x t w).2.refreshes this = w.refreshes this := by
  unfold WindowBase.back_app_create_window
  split
  · simp [World.refreshes_call]
  · rfl

/-- The create loop enters no `back_app_update_window` and keeps the bound controllers bound. -/
theorem BackgroundApp.process_create_windows_loop_refreshes (cq : List Ptr)
    (tq : List (Option String)) (wl : List Ptr) (w : World) (this : Ptr) :
    (BackgroundApp.process_create_windows_loop cq tq wl w).2.refreshes this = w.refreshes this ∧
    (this ∈ wl → this ∈ (BackgroundApp.process_create_windows_loop cq tq wl w).1) := by
  induction cq generalizing tq wl w with
  | nil => exact ⟨rfl, id⟩
  | cons x cq ih =>
    unfold BackgroundApp.process_create_windows_loop
    have hfront : (match tq with
        | [] => ((none : Option String), w.call (Call.invalid_access nullptr))
        | title :: _ => (title, w)).2.refreshes this = w.refreshes this := by
      cases tq <;> simp [World.refreshes_call]
    simp only []
    split
    · obtain ⟨h1, h2⟩ := ih tq.tail wl (match tq with
        | [] => ((none : Option String), w.call (Call.invalid_access nullptr))
        | title :: _ => (title, w)).2
      exact ⟨h1.trans hfront, h2⟩
    · refine ⟨?_, fun hm => (ih _ _ _).2 (List.mem_append_left _ hm)⟩
      rw [(ih _ _ _).1]
      simp [World.refreshes_call, WindowBase.back_app_create_window_refreshes, hfront]

theorem TimerData.connect_refreshes (t : Ptr) (w : World) (this : Ptr) :
    (TimerData.connect t w).refreshes this = w.refreshes this := by
  unfold TimerData.connect
  split
  · simp [World.refreshes_call]
  · rfl

theorem TimerData.disconnect_refreshes (t : Ptr) (w : World) (this : Ptr) :
    (TimerData.disconnect t w).refreshes this = w.refreshes this := by
  unfold TimerData.disconnect
  split
  · simp [World.refreshes_call]
  · split <;> rfl

theorem delete_main_window_refreshes (p : Ptr) (w : World) (this : Ptr) :
    (delete_main_window p w).refreshes this = w.refreshes this := by
  unfold delete_main_window
  split
  · rfl
  · split
    · simp [World.refreshes_call]
    · rfl

theorem foldl_refreshes (f : World → Ptr → World) (this : Ptr)
    (hf : ∀ w x, (f w x).refreshes this = w.refreshes this) (l : List Ptr) (w : World) :
    (l.foldl f w).refreshes this = w.refreshes this := by
  induction l generalizing w with
  | nil => rfl
  | cons x l ih => rw [List.foldl_cons, ih, hf]

theorem WindowBase.back_app_delete_window_refreshes (x : Ptr) (w : World) (this : Ptr) :
    (WindowBase.back_app_delete_window x w).refreshes this = w.refreshes this := by
  unfold WindowBase.back_app_delete_window
  split
  · simp [World.refreshes_call]
  · simp only []
    rw [foldl_refreshes (fun w it => w.notify_queue it) this (fun w x => rfl)]
    show (delete_main_window _ _).refreshes this = _
    rw [delete_main_window_refreshes, foldl_refreshes (fun w it => TimerData.disconnect it w) this
      (fun w x => TimerData.disconnect_refreshes x w this)]

theorem BackgroundApp.process_delete_windows_loop_refreshes (dq wl : List Ptr) (w : World)
    (this : Ptr) :
    (BackgroundApp.process_delete_windows_loop dq wl w).2.refreshes this = w.refreshes this := by
  induction dq generalizing wl w with
  | nil => rfl
  | cons x dq ih =>
    unfold BackgroundApp.process_delete_windows_loop
    split
    · simp only []
      rw [ih, WindowBase.back_app_delete_window_refreshes]
      have hg : (w.get_window x).2.refreshes this = w.refreshes this := by
        unfold World.get_window
        split
        · simp [World.refreshes_call]
        · rfl
      simp [World.refreshes_call, hg]
    · exact ih _ _

theorem BackgroundApp.process_connect_timers_loop_refreshes (q : List Ptr) (w : World)
    (this : Ptr) :
    (BackgroundApp.process_connect_timers_loop q w).refreshes this = w.refreshes this := by
  induction q generalizing w with
  | nil => rfl
  | cons x q ih =>
    unfold BackgroundApp.process_connect_timers_loop
    rw [ih, TimerData.connect_refreshes]

theorem BackgroundApp.process_disconnect_timers_loop_refreshes (q : List Ptr) (w : World)
    (this : Ptr) :
    (BackgroundApp.process_disconnect_timers_loop q w).refreshes this = w.refreshes this := by
  induction q generalizing w with
  | nil => rfl
  | cons x q ih =>
    unfold BackgroundApp.process_disconnect_timers_loop
    rw [ih, TimerData.disconnect_refreshes]

/-- One drain tick enters `back_app_update_window` on a bound controller once for every update
request for it in the update queue. -/
theorem BackgroundApp.on_idle_refreshes (app : BackgroundApp) (w : World) (this : Ptr)
    (hw : this ∈ app.m_window_list) :
    (app.on_idle w).2.refreshes this = w.refreshes this + app.m_update_win_queue.count this := by
  have hcreate := BackgroundApp.process_create_windows_loop_refreshes app.m_create_win_queue
    app.m_win_title_queue app.m_window_list w this
  unfold BackgroundApp.on_idle
  simp only []
  have hfinal : ∀ r : BackgroundApp × World,
      (if r.1.m_quit then (r.1, r.2.call Call.quit) else r).2.refreshes this
        = r.2.refreshes this := by
    intro r
    split
    · simp [World.refreshes_call]
    · rfl
  rw [hfinal]
  simp only [BackgroundApp.process_disconnect_timers, BackgroundApp.process_connect_timers,
    BackgroundApp.process_delete_windows, BackgroundApp.process_update_windows,
    BackgroundApp.process_create_windows]
  rw [BackgroundApp.process_disconnect_timers_loop_refreshes,
    BackgroundApp.process_connect_timers_loop_refreshes,
    BackgroundApp.process_delete_windows_loop_refreshes,
    BackgroundApp.process_update_windows_loop_refreshes _ _ _ _ (hcreate.2 hw), hcreate.1]

theorem World.set_app_self (w : World) (app : BackgroundApp) (h : w.runner.m_app = some app) :
    w.set_app app = w := by
  cases w with
  | mk runner _ _ _ _ _ _ _ _ _ =>
    cases runner
    simp_all [World.set_app]

/-- The state after `k` calls of `update` on a bound controller: `k` requests for the controller
are appended to the update queue. -/
theorem WindowBase.update_iterate (this : Ptr) (k : Nat) (w : World) (c : ControlsWindow)
    (app : BackgroundApp) (hc : w.controllers this = some c) (hb : c.m_window ≠ nullptr)
    (happ : w.runner.m_app = some app) :
    (WindowBase.update this)^[k] w
      = w.set_app { app with
          m_update_win_queue := app.m_update_win_queue ++ List.replicate k this
          idle_connected := app.idle_connected + k } := by
  induction k generalizing w app with
  | zero => simpa using (World.set_app_self w app happ).symm
  | succ k ih =>
    rw [Function.iterate_succ_apply, WindowBase.update_bound_eq this w c app hc hb happ]
    rw [ih (w.set_app (app.post_update_window this)) (app.post_update_window this) hc rfl]
    simp [World.set_app, BackgroundApp.post_update_window, List.replicate_succ, Nat.add_assoc,
      Nat.add_comm 1]

/-- One run of `on_idle` on the executor of the runner enters `back_app_update_window` on a bound
controller once for every update request for it in the update queue. -/
theorem World.drain_tick_refreshes (w : World) (app : BackgroundApp) (this : Ptr)
    (happ : w.runner.m_app = some app) (hw : this ∈ app.m_window_list) :
    w.on_idle.refreshes this = w.refreshes this + app.m_update_win_queue.count this := by
  unfold World.on_idle
  rw [happ]
  exact BackgroundApp.on_idle_refreshes app w this hw

/-- C10, as the claim states it, fails: in `exampleShownWorld` the controller at 2 is bound and
nothing is pending; after two calls of `update`, one drain tick enters `back_app_update_window`
on the controller twice, not once. -/
theorem World.two_updates_two_refreshes :
    exampleShownWorld.refreshes 2 = 0 ∧
    (((WindowBase.update 2)^[2] exampleShownWorld).on_idle).refreshes 2 = 2 ∧
    (((WindowBase.update 2)^[2] exampleShownWorld).on_idle).refreshes 2 ≠ 1 := by
  decide

/-- C10, amended. Update requests are not coalesced by the executor: for every `k`, after `k`
calls of `update` on a bound controller (live, with a window object, and in the bound list of the
executor), one drain tick enters `back_app_update_window` on that controller once for every
update request for it in the update queue, that is `k` times plus once for every request that
was pending before; with no request pending before, exactly `k` times. -/
theorem World.on_idle_refreshes_once_per_update (this : Ptr) (k : Nat) (w : World)
    (c : ControlsWindow) (app : BackgroundApp) (hc : w.controllers this = some c)
    (hb : c.m_window ≠ nullptr) (happ : w.runner.m_app = some app)
    (hw : this ∈ app.m_window_list) :
    (((WindowBase.update this)^[k] w).on_idle).refreshes this
      = w.refreshes this + app.m_update_win_queue.count this + k ∧
    (app.m_update_win_queue = [] →
      (((WindowBase.update this)^[k] w).on_idle).refreshes this = w.refreshes this + k) := by
  have h : (((WindowBase.update this)^[k] w).on_idle).refreshes this
      = w.refreshes this + app.m_update_win_queue.count this + k := by
    have h2 := fun X : BackgroundApp => World.drain_tick_refreshes (w.set_app X) X this rfl
    rw [WindowBase.update_iterate this k w c app hc hb happ]
    refine (h2 _ ?_).trans ?_
    · exact hw
    show w.refreshes this + _ = _
    simp [List.count_append, List.count_replicate_self, Nat.add_assoc]
  refine ⟨h, fun he => ?_⟩
  rw [h, he]
  simp

/-- Witness for the amended C10: three calls of `update` on the bound controller of
`exampleShownWorld`. -/
theorem World.on_idle_refreshes_once_per_update_witness :
    (((WindowBase.update 2)^[3] exampleShownWorld).on_idle).refreshes 2 = 3 :=
  (World.on_idle_refreshes_once_per_update 2 3 exampleShownWorld _ _ rfl (by decide) rfl
    (by decide)).1

/-! ### Window titles and the scenario of two windows -/

/-- C11, as the claim states it, fails: in `scenarioOpened` the window of A has the explicit title
"Main", so the window of B, created with an empty title, is the first window that uses the
default title; still its title carries the suffix "_1". -/
theorem WindowBase.first_default_title_has_suffix :
    (scenarioOpened.main_windows 3).map (fun win => win.m_title) = some "Main" ∧
    (scenarioOpened.main_windows 5).map (fun win => win.m_title)
      = some (ControlsWindow.get_default_window_title ++ "_1") ∧
    (scenarioOpened.main_windows 5).map (fun win => win.m_title)
      ≠ some ControlsWindow.get_default_window_title := by
  decide

/-- C11, amended. A null title and an empty title are resolved identically: to the default title
of the controller, without suffix when `window_num` is zero (no window was created before in the
process) and with the suffix `_n` otherwise, `n` being the value of `window_num`; a title that is
not empty is kept. `back_app_create_window` on a live controller gives the new window object the
title resolved with the current `window_num` and increments `window_num`, whatever the title:
`window_num` counts all windows created so far, not those that share the default title. -/
theorem WindowBase.back_app_create_window_title (this : Ptr) (c : ControlsWindow)
    (in_title : Option String) (w : World) (hc : w.controllers this = some c) :
    (∀ n, WindowBase.resolve_title none n = WindowBase.resolve_title (some "") n) ∧
    (∀ n, WindowBase.resolve_title none n
      = if n = 0 then ControlsWindow.get_default_window_title
        else ControlsWindow.get_default_window_title ++ "_" ++ toString n) ∧
    (∀ t n, t ≠ "" → WindowBase.resolve_title (some t) n = t) ∧
    (WindowBase.back_app_create_window this in_title w).2.main_windows
        (WindowBase.back_app_create_window this in_title w).1
      = some { m_title := WindowBase.resolve_title in_title w.window_num, m_controls_data := this } ∧
    (WindowBase.back_app_create_window this in_title w).2.window_num = w.window_num + 1 := by
  refine ⟨fun n => rfl, fun n => rfl, ?_, ?_, ?_⟩
  · intro t n ht
    simp [WindowBase.resolve_title, ht]
  · unfold WindowBase.back_app_create_window
    rw [hc]
    simp [store]
  · unfold WindowBase.back_app_create_window
    rw [hc]

/-- Witness for the amended C11: with `window_num` at 1, as it is in `exampleShownWorld`, a
window created with a null title on the controller at 2 is titled "ControlsWindow_1". -/
theorem WindowBase.back_app_create_window_title_witness :
    exampleShownWorld.window_num = 1 ∧
    (WindowBase.back_app_create_window 2 none exampleShownWorld).2.main_windows 5
      = some { m_title := "ControlsWindow_1", m_controls_data := 2 } :=
  ⟨by decide,
    (WindowBase.back_app_create_window_title 2 _ none exampleShownWorld rfl).2.2.2.1⟩

/-- C12. The scenario, from a fresh process. After window A is opened with the title "Main" and
window B with an empty title while A is open, the window count is 2 and the title of B is the
default title suffixed "_1"; a caller of `wait_window_all_closed` blocks. The close of A is
allowed (`on_delete_event` returns false), and after it the window count is 1 and the condition
`m_window_cond` has not been signalled. After B is closed too, the window count is 0, the
condition has been signalled once, which wakes a blocked caller of `wait_window_all_closed`, and
a new call of it returns at once; `is_window_close_all` is true. -/
theorem World.scenario_two_windows :
    BackgroundAppRunner.get_window_num scenarioOpened = 2 ∧
    (scenarioOpened.main_windows 5).map (fun win => win.m_title)
      = some (ControlsWindow.get_default_window_title ++ "_1") ∧
    BackgroundAppRunner.wait_window_all_closed scenarioOpened = Wait.blocked ∧
    scenarioOpened.runner.m_app.map (fun app => (app.on_delete_event 3 scenarioOpened).1)
      = some false ∧
    BackgroundAppRunner.get_window_num scenarioAClosed = 1 ∧
    scenarioAClosed.runner.m_app.map (fun app => app.window_cond_notified) = some 0 ∧
    BackgroundAppRunner.wait_window_all_closed scenarioAClosed = Wait.blocked ∧
    scenarioAClosed.runner.m_app.map (fun app => (app.on_delete_event 5 scenarioAClosed).1)
      = some false ∧
    BackgroundAppRunner.get_window_num scenarioBClosed = 0 ∧
    scenarioBClosed.runner.m_app.map (fun app => app.window_cond_notified) = some 1 ∧
    BackgroundAppRunner.wait_window_all_closed scenarioBClosed = Wait.returned ∧
    BackgroundAppRunner.is_window_close_all scenarioBClosed = true := by
  decide

/-! ### Starting and stopping timers -/

/-- C17. The code at the failing input: in `exampleShownWorld` the timer at 3 is running with the
timeout registration 0. `connect` on it keeps the running flag but makes a second registration
and lets the connection of the timer refer to the new one only; so does a start request that is
processed for the running timer. A `disconnect` after that cancels the second registration only:
the timer is marked stopped while the first registration is still in the main loop. The other
half of the claim holds: `disconnect` on the stopped timer of `exampleTimerWorld` changes
nothing. -/
theorem TimerData.connect_running_registers_again :
    (exampleShownWorld.timers 3).map (fun t => (t.m_is_running, t.mTimerConnection))
      = some (true, some 0) ∧
    exampleShownWorld.timeouts = [(0, 3)] ∧
    (TimerData.connect 3 exampleShownWorld).timeouts = [(0, 3), (1, 3)] ∧
    ((TimerData.connect 3 exampleShownWorld).timers 3).map
      (fun t => (t.m_is_running, t.mTimerConnection)) = some (true, some 1) ∧
    (WindowBase.start_all_timers 2 exampleShownWorld).on_idle.timeouts = [(0, 3), (1, 3)] ∧
    (TimerData.disconnect 3 (TimerData.connect 3 exampleShownWorld)).timeouts = [(0, 3)] ∧
    ((TimerData.disconnect 3 (TimerData.connect 3 exampleShownWorld)).timers 3).map
      (fun t => t.m_is_running) = some false ∧
    (exampleTimerWorld.timers 3).map (fun t => t.m_is_running) = some false ∧
    TimerData.disconnect 3 exampleTimerWorld = exampleTimerWorld := by
  refine ⟨by decide, by decide, by decide, by decide, by decide, by decide, by decide,
    by decide, rfl⟩

/-! ### Requests to the runner -/

/-- C20. While the executor does not exist, `delete_window`, `update_window`, `connect_timer` and
`disconnect_timer` of the runner leave the whole state unchanged (no executor, no thread, nothing
queued) and `get_window_num` returns 0. Once the executor exists, each of the four calls appends
exactly its argument to the pending list of its kind and schedules one wake-up, and changes
nothing else. -/
theorem BackgroundAppRunner.requests_forwarded_iff_executor (x : Ptr) (w : World) :
    (w.runner.m_app = none →
      BackgroundAppRunner.delete_window x w = w ∧
      BackgroundAppRunner.update_window x w = w ∧
      BackgroundAppRunner.connect_timer x w = w ∧
      BackgroundAppRunner.disconnect_timer x w = w ∧
      BackgroundAppRunner.get_window_num w = 0) ∧
    (∀ app, w.runner.m_app = some app →
      BackgroundAppRunner.delete_window x w
        = w.set_app { app with
            m_delete_win_queue := app.m_delete_win_queue ++ [x]
            idle_connected := app.idle_connected + 1 } ∧
      BackgroundAppRunner.update_window x w
        = w.set_app { app with
            m_update_win_queue := app.m_update_win_queue ++ [x]
            idle_connected := app.idle_connected + 1 } ∧
      BackgroundAppRunner.connect_timer x w
        = w.set_app { app with
            m_connect_timer_queue := app.m_connect_timer_queue ++ [x]
            idle_connected := app.idle_connected + 1 } ∧
      BackgroundAppRunner.disconnect_timer x w
        = w.set_app { app with
            m_disconnect_timer_queue := app.m_disconnect_timer_queue ++ [x]
            idle_connected := app.idle_connected + 1 } ∧
      BackgroundAppRunner.get_window_num w = app.m_window_list.length) := by
  constructor
  · intro h
    simp [BackgroundAppRunner.delete_window, BackgroundAppRunner.update_window,
      BackgroundAppRunner.connect_timer, BackgroundAppRunner.disconnect_timer,
      BackgroundAppRunner.get_window_num, h]
  · intro app h
    simp only [BackgroundAppRunner.delete_window, BackgroundAppRunner.update_window,
      BackgroundAppRunner.connect_timer, BackgroundAppRunner.disconnect_timer,
      BackgroundAppRunner.get_window_num, h]
    exact ⟨rfl, rfl, rfl, rfl, rfl⟩

/-- Witness for C20: the state `exampleTimerWorld`, where no window was ever requested, and the
state `exampleShownWorld`, where the executor exists. -/
theorem BackgroundAppRunner.requests_forwarded_iff_executor_witness :
    exampleTimerWorld.runner = { m_app := none, m_thread := false } ∧
    BackgroundAppRunner.connect_timer 3 exampleTimerWorld = exampleTimerWorld ∧
    BackgroundAppRunner.get_window_num exampleTimerWorld = 0 ∧
    (BackgroundAppRunner.disconnect_timer 3 exampleShownWorld).runner.m_app.map
      (fun app => app.m_disconnect_timer_queue) = some [3] := by
  have h0 := (BackgroundAppRunner.requests_forwarded_iff_executor 3 exampleTimerWorld).1 rfl
  have h1 := (BackgroundAppRunner.requests_forwarded_iff_executor 3 exampleShownWorld).2 _ rfl
  refine ⟨by decide, h0.2.2.1, h0.2.2.2.2, ?_⟩
  rw [h1.2.2.2.1]
  decide

/-! ### The effect of the GUI-thread methods on controllers, timers and window objects -/

theorem World.get_window_live (w : World) (x : Ptr) (c : ControlsWindow)
    (hc : w.controllers x = some c) : w.get_window x = (c.m_window, w) := by
  unfold World.get_window
  rw [hc]
  rfl

theorem TimerData.disconnect_frame (t : Ptr) (w : World) :
    (TimerData.disconnect t w).controllers = w.controllers ∧
    (TimerData.disconnect t w).runner = w.runner ∧
    (TimerData.disconnect t w).main_windows = w.main_windows ∧
    (TimerData.disconnect t w).heap_top = w.heap_top ∧
    (TimerData.disconnect t w).window_num = w.window_num := by
  unfold TimerData.disconnect
  split
  · exact ⟨rfl, rfl, rfl, rfl, rfl⟩
  · split <;> exact ⟨rfl, rfl, rfl, rfl, rfl⟩

theorem TimerData.connect_frame (t : Ptr) (w : World) :
    (TimerData.connect t w).controllers = w.controllers ∧
    (TimerData.connect t w).runner = w.runner ∧
    (TimerData.connect t w).main_windows = w.main_windows ∧
    (TimerData.connect t w).heap_top = w.heap_top ∧
    (TimerData.connect t w).window_num = w.window_num := by
  unfold TimerData.connect
  split <;> exact ⟨rfl, rfl, rfl, rfl, rfl⟩

/-- The timers after `disconnect`: the timer is stopped if it is alive, the others are as
before. -/
theorem TimerData.disconnect_timers (t : Ptr) (w : World) (p : Ptr) :
    (TimerData.disconnect t w).timers p
      = if p = t then (w.timers p).map (fun td => { td with m_is_running := false })
        else w.timers p := by
  unfold TimerData.disconnect
  by_cases hp : p = t
  · subst hp
    rw [if_pos rfl]
    cases ht : w.timers p with
    | none => simp [World.call, ht]
    | some td =>
      simp only [Option.map_some']
      by_cases hr : td.m_is_running = false
      · rw [if_pos hr]
        cases td
        simp_all
      · rw [if_neg hr]
        simp [store]
  · rw [if_neg hp]
    split
    · rfl
    · split
      · rfl
      · simp [store, hp]

/-- The timers after `disconnect` was called on every timer of a list: the live timers of the list
are stopped, the others are as before. -/
theorem foldl_disconnect_timers (l : List Ptr) (w : World) (p : Ptr) :
    (l.foldl (fun w it => TimerData.disconnect it w) w).timers p
      = if p ∈ l then (w.timers p).map (fun td => { td with m_is_running := false })
        else w.timers p := by
  induction l generalizing w with
  | nil => simp
  | cons t l ih =>
    rw [List.foldl_cons, ih, TimerData.disconnect_timers]
    by_cases hp : p = t
    · subst hp
      simp only [if_true, List.mem_cons, true_or]
      split
      · cases w.timers p <;> rfl
      · rfl
    · simp [hp]

theorem foldl_disconnect_frame (l : List Ptr) (w : World) :
    (l.foldl (fun w it => TimerData.disconnect it w) w).controllers = w.controllers ∧
    (l.foldl (fun w it => TimerData.disconnect it w) w).runner = w.runner ∧
    (l.foldl (fun w it => TimerData.disconnect it w) w).main_windows = w.main_windows ∧
    (l.foldl (fun w it => TimerData.disconnect it w) w).heap_top = w.heap_top ∧
    (l.foldl (fun w it => TimerData.disconnect it w) w).window_num = w.window_num := by
  induction l generalizing w with
  | nil => exact ⟨rfl, rfl, rfl, rfl, rfl⟩
  | cons t l ih =>
    rw [List.foldl_cons]
    obtain ⟨h1, h2, h3, h4, h5⟩ := ih (TimerData.disconnect t w)
    obtain ⟨g1, g2, g3, g4, g5⟩ := TimerData.disconnect_frame t w
    exact ⟨h1.trans g1, h2.trans g2, h3.trans g3, h4.trans g4, h5.trans g5⟩

theorem foldl_notify_queue_frame (l : List Ptr) (w : World) :
    (l.foldl (fun w it => w.notify_queue it) w).controllers = w.controllers ∧
    (l.foldl (fun w it => w.notify_queue it) w).runner = w.runner ∧
    (l.foldl (fun w it => w.notify_queue it) w).main_windows = w.main_windows ∧
    (l.foldl (fun w it => w.notify_queue it) w).heap_top = w.heap_top ∧
    (l.foldl (fun w it => w.notify_queue it) w).window_num = w.window_num ∧
    (l.foldl (fun w it => w.notify_queue it) w).timers = w.timers ∧
    (l.foldl (fun w it => w.notify_queue it) w).timeouts = w.timeouts := by
  induction l generalizing w with
  | nil => exact ⟨rfl, rfl, rfl, rfl, rfl, rfl, rfl⟩
  | cons t l ih =>
    rw [List.foldl_cons]
    exact ih (w.notify_queue t)

theorem delete_main_window_frame (p : Ptr) (w : World) :
    (delete_main_window p w).controllers = w.controllers ∧
    (delete_main_window p w).runner = w.runner ∧
    (delete_main_window p w).heap_top = w.heap_top ∧
    (delete_main_window p w).window_num = w.window_num ∧
    (delete_main_window p w).timers = w.timers ∧
    (delete_main_window p w).timeouts = w.timeouts := by
  unfold delete_main_window
  split
  · exact ⟨rfl, rfl, rfl, rfl, rfl, rfl⟩
  · split <;> exact ⟨rfl, rfl, rfl, rfl, rfl, rfl⟩

theorem delete_main_window_main_windows (p : Ptr) (hp : p ≠ nullptr) (w : World) :
    (delete_main_window p w).main_windows p = none ∧
    ∀ q, q ≠ p → (delete_main_window p w).main_windows q = w.main_windows q := by
  unfold delete_main_window
  rw [if_neg hp]
  split
  · rename_i hn
    exact ⟨hn, fun _ _ => rfl⟩
  · exact ⟨by simp [store], fun q hq => by simp [store, hq]⟩

/-- What `back_app_delete_window` does on a live controller: the timers of its list are stopped,
its window object is deleted, its window pointer is null, its destroyed condition is notified
once, and no other controller, the runner and the allocator are touched. -/
theorem WindowBase.back_app_delete_window_live (this : Ptr) (c : ControlsWindow) (w : World)
    (hc : w.controllers this = some c) :
    (WindowBase.back_app_delete_window this w).controllers
      = store w.controllers this
          (some { c with
            m_window := nullptr
            delete_window_notified := c.delete_window_notified + 1 }) ∧
    (WindowBase.back_app_delete_window this w).runner = w.runner ∧
    (WindowBase.back_app_delete_window this w).heap_top = w.heap_top ∧
    (WindowBase.back_app_delete_window this w).window_num = w.window_num ∧
    (∀ p, (WindowBase.back_app_delete_window this w).timers p
      = if p ∈ c.m_timer_list then (w.timers p).map (fun td => { td with m_is_running := false })
        else w.timers p) ∧
    (c.m_window ≠ nullptr →
      (WindowBase.back_app_delete_window this w).main_windows c.m_window = none) ∧
    (∀ q, q ≠ c.m_window →
      (WindowBase.back_app_delete_window this w).main_windows q = w.main_windows q) := by
  unfold WindowBase.back_app_delete_window
  rw [hc]
  simp only []
  obtain ⟨n1, n2, n3, n4, n5, n6, _⟩ := foldl_notify_queue_frame c.m_close_notify_list
    { delete_main_window c.m_window
        (c.m_timer_list.foldl (fun w it => TimerData.disconnect it w) w) with
      controllers := store (delete_main_window c.m_window
        (c.m_timer_list.foldl (fun w it => TimerData.disconnect it w) w)).controllers this
        (some { c with
          m_window := nullptr
          delete_window_notified := c.delete_window_notified + 1 }) }
  obtain ⟨d1, d2, d3, d4, d5, _⟩ := delete_main_window_frame c.m_window
    (c.m_timer_list.foldl (fun w it => TimerData.disconnect it w) w)
  obtain ⟨f1, f2, f3, f4, f5⟩ := foldl_disconnect_frame c.m_timer_list w
  refine ⟨?_, ?_, ?_, ?_, ?_, ?_, ?_⟩
  · rw [n1]
    show store (delete_main_window _ _).controllers this _ = _
    rw [d1, f1]
  · rw [n2]
    exact d2.trans f2
  · rw [n4]
    exact d3.trans f4
  · rw [n5]
    exact d4.trans f5
  · intro p
    rw [n6]
    show (delete_main_window _ _).timers p = _
    rw [d5, foldl_disconnect_timers]
  · intro hb
    rw [n3]
    exact (delete_main_window_main_windows c.m_window hb _).1
  · intro q hq
    rw [n3]
    show (delete_main_window _ _).main_windows q = _
    by_cases h0 : c.m_window = nullptr
    · simp [delete_main_window, h0, f3]
    · rw [(delete_main_window_main_windows c.m_window h0 _).2 q hq, f3]

/-! ### The close hooks -/

/-- The loop of `on_hide_window` over live controllers: the first controller whose window object
is the hidden window gets `back_app_delete_window` and is erased from the list; without such a
controller nothing happens. -/
theorem BackgroundApp.on_hide_window_loop_eq (in_window : Ptr) (l : List Ptr) (w : World)
    (hlive : ∀ x ∈ l, (w.controllers x).isSome) :
    BackgroundApp.on_hide_window_loop in_window l w
      = match l.find? (fun x => decide (w.window_of x = some in_window)) with
        | none => (l, w)
        | some x => (l.erase x, WindowBase.back_app_delete_window x w) := by
  induction l with
  | nil => rfl
  | cons it rest ih =>
    obtain ⟨c, hc⟩ := Option.isSome_iff_exists.1 (hlive it (List.mem_cons_self _ _))
    have hwin : w.window_of it = some c.m_window := by
      simp [World.window_of, hc, ControlsWindow.back_app_get_window,
        ControlsWindow.get_window_object]
    unfold BackgroundApp.on_hide_window_loop
    rw [World.get_window_live w it c hc]
    simp only []
    by_cases h : in_window = c.m_window
    · rw [if_pos h, List.find?_cons_of_pos _ (by simp [hwin, h])]
      simp
    · rw [if_neg h, List.find?_cons_of_neg _ (by simpa [hwin] using Ne.symm h),
        ih (fun x hx => hlive x (List.mem_cons_of_mem _ hx))]
      cases hf : rest.find? (fun x => decide (w.window_of x = some in_window)) with
      | none => rfl
      | some x =>
        have hx := List.find?_some hf
        have hne : it ≠ x := by
          rintro rfl
          simp [hwin] at hx
          exact h hx.symm
        have hne2 : (it == x) = false := by simpa using hne
        simp [List.erase_cons, hne2]

theorem find_owner_eq (l : List Ptr) (f : Ptr → Option Ptr) (this win : Ptr)
    (hmem : this ∈ l) (hwin : f this = some win)
    (huniq : ∀ x ∈ l, f x = some win → x = this) :
    l.find? (fun x => decide (f x = some win)) = some this := by
  induction l with
  | nil => cases hmem
  | cons a l ih =>
    by_cases ha : f a = some win
    · rw [List.find?_cons_of_pos _ (by simpa using ha), huniq a (List.mem_cons_self _ _) ha]
    · rw [List.find?_cons_of_neg _ (by simpa using ha)]
      rcases List.mem_cons.1 hmem with rfl | hm
      · exact absurd hwin ha
      · exact ih hm (fun x hx => huniq x (List.mem_cons_of_mem _ hx))

/-- C13. Let the controllers of the bound list be alive, and let `this` be the controller of the
list that owns the window object `c.m_window`, not null. When the toolkit reports that this
window was hidden, `on_hide_window` deletes the window object, leaves the controller with a null
window pointer and its destroyed condition signalled once, touches no other controller, erases
exactly this controller from the bound list (the others keep their order), and signals the
condition `m_window_cond` exactly when the list is empty afterwards, that is when this was the
last bound window; nothing else of the executor changes. -/
theorem BackgroundApp.on_hide_window_unbinds_owner (app : BackgroundApp) (w : World) (this : Ptr)
    (c : ControlsWindow) (hlive : ∀ x ∈ app.m_window_list, (w.controllers x).isSome)
    (hc : w.controllers this = some c) (hb : c.m_window ≠ nullptr)
    (hmem : this ∈ app.m_window_list)
    (huniq : ∀ x ∈ app.m_window_list, w.window_of x = some c.m_window → x = this) :
    (app.on_hide_window c.m_window w).1
      = { app with
          m_window_list := app.m_window_list.erase this
          window_cond_notified :=
            app.window_cond_notified + if app.m_window_list.erase this = [] then 1 else 0 } ∧
    (∃ a b, app.m_window_list = a ++ this :: b ∧ this ∉ a ∧
      app.m_window_list.erase this = a ++ b) ∧
    (app.on_hide_window c.m_window w).2.controllers this
      = some { c with
          m_window := nullptr
          delete_window_notified := c.delete_window_notified + 1 } ∧
    (∀ x, x ≠ this → (app.on_hide_window c.m_window w).2.controllers x = w.controllers x) ∧
    (app.on_hide_window c.m_window w).2.main_windows c.m_window = none := by
  have hwin : w.window_of this = some c.m_window := by
    simp [World.window_of, hc, ControlsWindow.back_app_get_window,
      ControlsWindow.get_window_object]
  have hloop : BackgroundApp.on_hide_window_loop c.m_window app.m_window_list w
      = (app.m_window_list.erase this, WindowBase.back_app_delete_window this w) := by
    rw [BackgroundApp.on_hide_window_loop_eq _ _ _ hlive,
      find_owner_eq _ _ this c.m_window hmem hwin huniq]
  obtain ⟨h1, _, _, _, _, h6, _⟩ := WindowBase.back_app_delete_window_live this c w hc
  refine ⟨?_, ?_, ?_, ?_, ?_⟩
  · unfold BackgroundApp.on_hide_window
    rw [hloop]
    simp only []
    by_cases he : app.m_window_list.erase this = []
    · simp [he]
    · simp [he]
  · obtain ⟨a, b, hnot, hab, her⟩ := List.exists_erase_eq hmem
    exact ⟨a, b, hab, hnot, her⟩
  · have : (app.on_hide_window c.m_window w).2 = WindowBase.back_app_delete_window this w := by
      unfold BackgroundApp.on_hide_window
      rw [hloop]
      simp only []
      split <;> rfl
    rw [this, h1]
    simp [store]
  · intro x hx
    have : (app.on_hide_window c.m_window w).2 = WindowBase.back_app_delete_window this w := by
      unfold BackgroundApp.on_hide_window
      rw [hloop]
      simp only []
      split <;> rfl
    rw [this, h1]
    simp [store, hx]
  · have : (app.on_hide_window c.m_window w).2 = WindowBase.back_app_delete_window this w := by
      unfold BackgroundApp.on_hide_window
      rw [hloop]
      simp only []
      split <;> rfl
    rw [this]
    exact h6 hb

/-- Witness for C13: in `scenarioOpened` the controllers 2 and 4 are bound; the window of the
controller 2 (at 3) is hidden. -/
theorem BackgroundApp.on_hide_window_unbinds_owner_witness :
    (scenarioOpened.runner.m_app.getD BackgroundApp.new).m_window_list = [2, 4] ∧
    ((scenarioOpened.runner.m_app.getD BackgroundApp.new).on_hide_window 3
      scenarioOpened).1.m_window_list = [4] ∧
    ((scenarioOpened.runner.m_app.getD BackgroundApp.new).on_hide_window 3
      scenarioOpened).1.window_cond_notified = 0 ∧
    (((scenarioOpened.runner.m_app.getD BackgroundApp.new).on_hide_window 3
      scenarioOpened).2.controllers 2).map (fun c => (c.m_window, c.delete_window_notified))
      = some (0, 1) := by
  have h := BackgroundApp.on_hide_window_unbinds_owner
    (scenarioOpened.runner.m_app.getD BackgroundApp.new) scenarioOpened 2 _ (by decide) rfl
    (by decide) (by decide) (by decide)
  refine ⟨by decide, ?_, ?_, ?_⟩
  · exact (congrArg BackgroundApp.m_window_list h.1).trans (by decide)
  · exact (congrArg BackgroundApp.window_cond_notified h.1).trans (by decide)
  · decide

/-- The loop of `on_delete_event` over controllers that are alive and have a live window object:
the answer is the veto decision of the first controller whose window is the reported one, and
false without such a controller; the state is not changed. -/
theorem BackgroundApp.on_delete_event_loop_eq (event_window : Ptr) (l : List Ptr) (w : World)
    (hbound : ∀ x ∈ l, ∃ c, w.controllers x = some c ∧ c.m_window ≠ nullptr ∧
      (w.main_windows c.m_window).isSome) :
    BackgroundApp.on_delete_event_loop event_window l w
      = (match l.find? (fun x => decide (w.window_of x = some event_window)) with
          | none => false
          | some x =>
            match w.controllers x with
            | none => false
            | some c => c.back_app_delete_request, w) := by
  induction l with
  | nil => rfl
  | cons it rest ih =>
    obtain ⟨c, hc, hb, hm⟩ := hbound it (List.mem_cons_self _ _)
    obtain ⟨win, hwin⟩ := Option.isSome_iff_exists.1 hm
    have hwo : w.window_of it = some c.m_window := by
      simp [World.window_of, hc, ControlsWindow.back_app_get_window,
        ControlsWindow.get_window_object]
    have hg : w.gdk_window c.m_window = (c.m_window, w) := by
      unfold World.gdk_window
      rw [if_neg hb, hwin]
    unfold BackgroundApp.on_delete_event_loop
    rw [World.get_window_live w it c hc]
    simp only [hg]
    by_cases h : event_window = c.m_window
    · rw [if_pos ⟨hb, h⟩, List.find?_cons_of_pos _ (by simp [hwo, h]), hc]
      simp only [hc]
    · rw [if_neg (fun hh => h hh.2),
        List.find?_cons_of_neg _ (by simpa [hwo] using Ne.symm h),
        ih (fun x hx => hbound x (List.mem_cons_of_mem _ hx))]

/-- With the implementation of `WindowBase` for the veto hook, the general loop of
`on_delete_event` is the loop of the program. -/
theorem BackgroundApp.on_delete_event_loop_eq_with (event_window : Ptr) (l : List Ptr)
    (w : World) :
    BackgroundApp.on_delete_event_loop event_window l w
      = BackgroundApp.on_delete_event_loop_with WindowBase.back_app_delete_request event_window
          l w := by
  induction l generalizing w with
  | nil => rfl
  | cons it rest ih =>
    unfold BackgroundApp.on_delete_event_loop BackgroundApp.on_delete_event_loop_with
    simp only []
    split
    · unfold WindowBase.back_app_delete_request
      rfl
    · exact ih _

/-- The general loop of `on_delete_event` over controllers that are alive and have a live window
object: the answer is what the veto hook answers on the first controller whose window is the
reported one, and false, with the state unchanged, without such a controller. -/
theorem BackgroundApp.on_delete_event_loop_with_eq
    (delete_request : Ptr → World → Bool × World) (event_window : Ptr) (l : List Ptr)
    (w : World)
    (hbound : ∀ x ∈ l, ∃ c, w.controllers x = some c ∧ c.m_window ≠ nullptr ∧
      (w.main_windows c.m_window).isSome) :
    BackgroundApp.on_delete_event_loop_with delete_request event_window l w
      = match l.find? (fun x => decide (w.window_of x = some event_window)) with
        | none => (false, w)
        | some x => delete_request x w := by
  induction l with
  | nil => rfl
  | cons it rest ih =>
    obtain ⟨c, hc, hb, hm⟩ := hbound it (List.mem_cons_self _ _)
    obtain ⟨win, hwin⟩ := Option.isSome_iff_exists.1 hm
    have hwo : w.window_of it = some c.m_window := by
      simp [World.window_of, hc, ControlsWindow.back_app_get_window,
        ControlsWindow.get_window_object]
    have hg : w.gdk_window c.m_window = (c.m_window, w) := by
      unfold World.gdk_window
      rw [if_neg hb, hwin]
    unfold BackgroundApp.on_delete_event_loop_with
    rw [World.get_window_live w it c hc]
    simp only [hg]
    by_cases h : event_window = c.m_window
    · rw [if_pos ⟨hb, h⟩, List.find?_cons_of_pos _ (by simp [hwo, h])]
    · rw [if_neg (fun hh => h hh.2),
        List.find?_cons_of_neg _ (by simpa [hwo] using Ne.symm h),
        ih (fun x hx => hbound x (List.mem_cons_of_mem _ hx))]

/-- C14. Let every controller of the bound list be alive with a live window object, and let
`delete_request` be any implementation of the virtual veto hook `back_app_delete_request`. For
the controller of the list that owns the reported native window, `on_delete_event` returns what
the hook answers on that controller, and the state the hook leaves; when no controller of the
list owns the reported window it returns false, so the close is allowed, and changes nothing.
The program's `on_delete_event` is this method with the hook of `WindowBase`, which
`ControlsWindow` does not override and which always answers false: there the answer is the
decision of the owner, which is false. -/
theorem BackgroundApp.on_delete_event_asks_owner (app : BackgroundApp) (w : World)
    (delete_request : Ptr → World → Bool × World)
    (hbound : ∀ x ∈ app.m_window_list, ∃ c, w.controllers x = some c ∧ c.m_window ≠ nullptr ∧
      (w.main_windows c.m_window).isSome) :
    (∀ this c, w.controllers this = some c → this ∈ app.m_window_list →
      (∀ x ∈ app.m_window_list, w.window_of x = some c.m_window → x = this) →
      app.on_delete_event_with delete_request c.m_window w = delete_request this w) ∧
    (∀ event_window, (∀ x ∈ app.m_window_list, w.window_of x ≠ some event_window) →
      app.on_delete_event_with delete_request event_window w = (false, w)) ∧
    (∀ event_window (w1 : World), app.on_delete_event event_window w1
      = app.on_delete_event_with WindowBase.back_app_delete_request event_window w1) ∧
    (∀ this c, w.controllers this = some c →
      WindowBase.back_app_delete_request this w = (c.back_app_delete_request, w)) ∧
    (∀ this c, w.controllers this = some c → this ∈ app.m_window_list →
      (∀ x ∈ app.m_window_list, w.window_of x = some c.m_window → x = this) →
      app.on_delete_event c.m_window w = (c.back_app_delete_request, w)) ∧
    (∀ event_window, (∀ x ∈ app.m_window_list, w.window_of x ≠ some event_window) →
      app.on_delete_event event_window w = (false, w)) ∧
    (∀ c : ControlsWindow, c.back_app_delete_request = false) := by
  have hown : ∀ (f : Ptr → World → Bool × World) this c, w.controllers this = some c →
      this ∈ app.m_window_list →
      (∀ x ∈ app.m_window_list, w.window_of x = some c.m_window → x = this) →
      app.on_delete_event_with f c.m_window w = f this w := by
    intro f this c hc hmem huniq
    have hwo : w.window_of this = some c.m_window := by
      simp [World.window_of, hc, ControlsWindow.back_app_get_window,
        ControlsWindow.get_window_object]
    unfold BackgroundApp.on_delete_event_with
    rw [BackgroundApp.on_delete_event_loop_with_eq _ _ _ _ hbound,
      find_owner_eq _ _ this c.m_window hmem hwo huniq]
  have hnone : ∀ (f : Ptr → World → Bool × World) event_window,
      (∀ x ∈ app.m_window_list, w.window_of x ≠ some event_window) →
      app.on_delete_event_with f event_window w = (false, w) := by
    intro f event_window hno
    unfold BackgroundApp.on_delete_event_with
    rw [BackgroundApp.on_delete_event_loop_with_eq _ _ _ _ hbound]
    have : app.m_window_list.find? (fun x => decide (w.window_of x = some event_window))
        = none := by
      rw [List.find?_eq_none]
      intro x hx
      simpa using hno x hx
    rw [this]
  have hprog : ∀ event_window (w1 : World), app.on_delete_event event_window w1
      = app.on_delete_event_with WindowBase.back_app_delete_request event_window w1 := by
    intro event_window w1
    unfold BackgroundApp.on_delete_event BackgroundApp.on_delete_event_with
    exact BackgroundApp.on_delete_event_loop_eq_with _ _ _
  have hwb : ∀ this c, w.controllers this = some c →
      WindowBase.back_app_delete_request this w = (c.back_app_delete_request, w) := by
    intro this c hc
    unfold WindowBase.back_app_delete_request
    rw [hc]
  refine ⟨hown delete_request, hnone delete_request, hprog, hwb, ?_, ?_, fun _ => rfl⟩
  · intro this c hc hmem huniq
    rw [hprog, hown _ this c hc hmem huniq, hwb this c hc]
  · intro event_window hno
    rw [hprog, hnone _ event_window hno]

/-- Witness for C14: in `scenarioOpened`, with a hook by which the controller 4 cancels the
close, the close of the window at 5, which the controller 4 owns, is cancelled, the close of the
window at 3 of the controller 2 is allowed, and so is a close request for the window 9, which no
controller owns; with the hook of the program the close of the window at 5 is allowed. -/
theorem BackgroundApp.on_delete_event_asks_owner_witness :
    ((scenarioOpened.runner.m_app.getD BackgroundApp.new).on_delete_event_with
      veto_by_controller_4 5 scenarioOpened).1 = true ∧
    ((scenarioOpened.runner.m_app.getD BackgroundApp.new).on_delete_event_with
      veto_by_controller_4 3 scenarioOpened).1 = false ∧
    ((scenarioOpened.runner.m_app.getD BackgroundApp.new).on_delete_event_with
      veto_by_controller_4 9 scenarioOpened).1 = false ∧
    ((scenarioOpened.runner.m_app.getD BackgroundApp.new).on_delete_event 5 scenarioOpened).1
      = false := by
  have h := BackgroundApp.on_delete_event_asks_owner
    (scenarioOpened.runner.m_app.getD BackgroundApp.new) scenarioOpened veto_by_controller_4
    (by decide)
  exact ⟨congrArg Prod.fst (h.1 4 _ rfl (by decide) (by decide)),
    congrArg Prod.fst (h.1 2 _ rfl (by decide) (by decide)),
    congrArg Prod.fst (h.2.1 9 (by decide)),
    congrArg Prod.fst (h.2.2.2.2.1 4 _ rfl (by decide) (by decide))⟩

/-! ### The order of a drain tick -/

theorem BackgroundApp.process_create_windows_loop_eq_foldl (cq : List Ptr)
    (tq : List (Option String)) (wl : List Ptr) (w : World) :
    BackgroundApp.process_create_windows_loop cq tq wl w
      = ((cq.foldl BackgroundApp.create_request (tq, wl, w)).2.1,
          (cq.foldl BackgroundApp.create_request (tq, wl, w)).2.2) := by
  induction cq generalizing tq wl w with
  | nil => rfl
  | cons x cq ih =>
    rw [List.foldl_cons]
    unfold BackgroundApp.process_create_windows_loop
    simp only []
    split <;> rename_i h <;> rw [ih] <;> simp only [BackgroundApp.create_request, h] <;> rfl

theorem BackgroundApp.process_update_windows_loop_eq_foldl (uq wl : List Ptr) (w : World) :
    BackgroundApp.process_update_windows_loop uq wl w
      = uq.foldl (BackgroundApp.update_request wl) w := by
  induction uq generalizing w with
  | nil => rfl
  | cons x uq ih =>
    rw [List.foldl_cons]
    unfold BackgroundApp.process_update_windows_loop
    split <;> rename_i h <;> rw [ih] <;> simp only [BackgroundApp.update_request, h] <;> rfl

theorem BackgroundApp.process_delete_windows_loop_eq_foldl (dq wl : List Ptr) (w : World) :
    BackgroundApp.process_delete_windows_loop dq wl w
      = dq.foldl BackgroundApp.delete_request (wl, w) := by
  induction dq generalizing wl w with
  | nil => rfl
  | cons x dq ih =>
    rw [List.foldl_cons]
    unfold BackgroundApp.process_delete_windows_loop
    simp only []
    split <;> rename_i h <;> rw [ih] <;> simp only [BackgroundApp.delete_request, h] <;> rfl

theorem BackgroundApp.process_connect_timers_loop_eq_foldl (q : List Ptr) (w : World) :
    BackgroundApp.process_connect_timers_loop q w
      = q.foldl (fun w timer => TimerData.connect timer w) w := by
  induction q generalizing w with
  | nil => rfl
  | cons x q ih =>
    rw [List.foldl_cons]
    unfold BackgroundApp.process_connect_timers_loop
    rw [ih]

theorem BackgroundApp.process_disconnect_timers_loop_eq_foldl (q : List Ptr) (w : World) :
    BackgroundApp.process_disconnect_timers_loop q w
      = q.foldl (fun w timer => TimerData.disconnect timer w) w := by
  induction q generalizing w with
  | nil => rfl
  | cons x q ih =>
    rw [List.foldl_cons]
    unfold BackgroundApp.process_disconnect_timers_loop
    rw [ih]

theorem World.quits_call (w : World) (c : Call) (hc : c ≠ Call.quit) :
    (w.call c).quits = w.quits := by
  unfold World.quits World.call
  simp [List.count_cons, hc]

theorem EventData.handler_calls_quits (e : EventData) (timers : Ptr → Option TimerData) :
    (e.handler_calls timers).count Call.quit = 0 := by
  unfold EventData.handler_calls
  split
  · rfl
  · split
    · simp
    · split <;> simp
  · simp

theorem EventQueue.process_events_quits (q : EventQueue) (b : Bool) (w : World) :
    (q.process_events b w).2.quits = w.quits := by
  simp only [EventQueue.process_events, EventQueue.process_events_loop_eq,
    foldl_invoke_handler_eq, World.quits, List.count_append]
  generalize EventQueue.invoked b q.m_event_data_queue = l
  induction l with
  | nil => simp
  | cons e l ih =>
    simp only [List.flatMap_cons, List.count_append, EventData.handler_calls_quits] at ih ⊢
    omega

theorem WindowBase.back_app_update_window_quits (x : Ptr) (w : World) :
    (WindowBase.back_app_update_window x w).quits = w.quits := by
  have hp : ∀ (y : Ptr) (b : Bool) (w : World),
      (WindowBase.process_update_events y b w).quits = w.quits := by
    intro y b w
    unfold WindowBase.process_update_events
    split
    · exact World.quits_call _ _ (by simp)
    · rename_i c _
      have h := EventQueue.process_events_quits c.m_background_queue b w
      simp only []
      split
      · exact h
      · exact h
  have hu : ∀ w : World, (ControlsWindow.update_window x w).quits = w.quits := by
    intro w
    unfold ControlsWindow.update_window WindowData.update_widgets
    split
    · exact World.quits_call _ _ (by simp)
    · split
      · rfl
      · split
        · exact World.quits_call _ _ (by simp)
        · exact hp _ _ _
  unfold WindowBase.back_app_update_window
  rw [hu, World.quits_call _ _ (by simp)]

theorem WindowBase.back_app_create_window_quits (x : Ptr) (t : Option String) (w : World) :
    (WindowBase.back_app_create_window x t w).2.quits = w.quits := by
  unfold WindowBase.back_app_create_window
  split
  · exact World.quits_call _ _ (by simp)
  · rfl

theorem TimerData.connect_quits (t : Ptr) (w : World) :
    (TimerData.connect t w).quits = w.quits := by
  unfold TimerData.connect
  split
  · exact World.quits_call _ _ (by simp)
  · rfl

theorem TimerData.disconnect_quits (t : Ptr) (w : World) :
    (TimerData.disconnect t w).quits = w.quits := by
  unfold TimerData.disconnect
  split
  · exact World.quits_call _ _ (by simp)
  · split <;> rfl

theorem foldl_quits (f : World → Ptr → World) (hf : ∀ w x, (f w x).quits = w.quits)
    (l : List Ptr) (w : World) : (l.foldl f w).quits = w.quits := by
  induction l generalizing w with
  | nil => rfl
  | cons x l ih => rw [List.foldl_cons, ih, hf]

theorem WindowBase.back_app_delete_window_quits (x : Ptr) (w : World) :
    (WindowBase.back_app_delete_window x w).quits = w.quits := by
  unfold WindowBase.back_app_delete_window
  split
  · exact World.quits_call _ _ (by simp)
  · simp only []
    rw [foldl_quits (fun w it => w.notify_queue it) (fun w x => rfl)]
    show (delete_main_window _ _).quits = _
    have hd : ∀ (p : Ptr) (w : World), (delete_main_window p w).quits = w.quits := by
      intro p w
      unfold delete_main_window
      split
      · rfl
      · split
        · exact World.quits_call _ _ (by simp)
        · rfl
    rw [hd, foldl_quits (fun w it => TimerData.disconnect it w)
      (fun w x => TimerData.disconnect_quits x w)]

theorem BackgroundApp.create_request_quits (s : List (Option String) × List Ptr × World)
    (x : Ptr) : (BackgroundApp.create_request s x).2.2.quits = s.2.2.quits := by
  have hfront : (match s.1 with
      | [] => ((none : Option String), s.2.2.call (Call.invalid_access nullptr))
      | title :: _ => (title, s.2.2)).2.quits = s.2.2.quits := by
    cases s.1
    · exact World.quits_call _ _ (by simp)
    · rfl
  unfold BackgroundApp.create_request
  simp only []
  split
  · exact hfront
  · rw [World.quits_call _ _ (by simp), World.quits_call _ _ (by simp),
      World.quits_call _ _ (by simp), WindowBase.back_app_create_window_quits, hfront]

theorem BackgroundApp.delete_request_quits (s : List Ptr × World) (x : Ptr) :
    (BackgroundApp.delete_request s x).2.quits = s.2.quits := by
  unfold BackgroundApp.delete_request
  split
  · simp only []
    rw [WindowBase.back_app_delete_window_quits, World.quits_call _ _ (by simp),
      World.quits_call _ _ (by simp)]
    unfold World.get_window
    split
    · exact World.quits_call _ _ (by simp)
    · rfl
  · rfl

theorem BackgroundApp.update_request_quits (wl : List Ptr) (w : World) (x : Ptr) :
    (BackgroundApp.update_request wl w x).quits = w.quits := by
  unfold BackgroundApp.update_request
  split
  · exact WindowBase.back_app_update_window_quits x w
  · rfl

/-- C18. One run of `on_idle` is five left folds, one after the other, each over its pending list
from the front (FIFO): the create requests (`creates`), then the update requests on the state
and the bound list the creates left (`updates`), then the delete requests (`deletes`), then
`connect` for the timer-start requests (`starts`), then `disconnect` for the timer-stop requests
(`stops`). Only after these does it call `quit`, and it does so if and only if the quit flag is
set: the five folds themselves make no `quit` call. All five pending lists are empty afterwards
and the bound list is the one the deletes left. -/
theorem BackgroundApp.on_idle_fixed_order (app : BackgroundApp) (w : World) :
    ∃ (creates : List (Option String) × List Ptr × World) (updates : World)
      (deletes : List Ptr × World) (starts stops : World),
      creates = app.m_create_win_queue.foldl BackgroundApp.create_request
        (app.m_win_title_queue, app.m_window_list, w) ∧
      updates = app.m_update_win_queue.foldl (BackgroundApp.update_request creates.2.1)
        creates.2.2 ∧
      deletes = app.m_delete_win_queue.foldl BackgroundApp.delete_request
        (creates.2.1, updates) ∧
      starts = app.m_connect_timer_queue.foldl (fun w timer => TimerData.connect timer w)
        deletes.2 ∧
      stops = app.m_disconnect_timer_queue.foldl (fun w timer => TimerData.disconnect timer w)
        starts ∧
      (app.on_idle w).2 = (if app.m_quit then stops.call Call.quit else stops) ∧
      stops.quits = w.quits ∧
      (app.on_idle w).1
        = { app with
            m_create_win_queue := []
            m_win_title_queue := app.m_win_title_queue.drop app.m_create_win_queue.length
            m_update_win_queue := []
            m_delete_win_queue := []
            m_connect_timer_queue := []
            m_disconnect_timer_queue := []
            m_window_list := deletes.1 } := by
  refine ⟨_, _, _, _, _, rfl, rfl, rfl, rfl, rfl, ?_, ?_, ?_⟩
  · unfold BackgroundApp.on_idle
    simp only [BackgroundApp.process_disconnect_timers, BackgroundApp.process_connect_timers,
      BackgroundApp.process_delete_windows, BackgroundApp.process_update_windows,
      BackgroundApp.process_create_windows,
      BackgroundApp.process_create_windows_loop_eq_foldl,
      BackgroundApp.process_update_windows_loop_eq_foldl,
      BackgroundApp.process_delete_windows_loop_eq_foldl,
      BackgroundApp.process_connect_timers_loop_eq_foldl,
      BackgroundApp.process_disconnect_timers_loop_eq_foldl]
    split <;> rfl
  · rw [foldl_quits _ (fun w x => TimerData.disconnect_quits x w),
      foldl_quits _ (fun w x => TimerData.connect_quits x w)]
    have hd : ∀ (l : List Ptr) (s : List Ptr × World),
        (l.foldl BackgroundApp.delete_request s).2.quits = s.2.quits := by
      intro l
      induction l with
      | nil => intro s; rfl
      | cons x l ih =>
        intro s
        rw [List.foldl_cons, ih, BackgroundApp.delete_request_quits]
    have hc : ∀ (l : List Ptr) (s : List (Option String) × List Ptr × World),
        (l.foldl BackgroundApp.create_request s).2.2.quits = s.2.2.quits := by
      intro l
      induction l with
      | nil => intro s; rfl
      | cons x l ih =>
        intro s
        rw [List.foldl_cons, ih, BackgroundApp.create_request_quits]
    rw [hd, foldl_quits _ (BackgroundApp.update_request_quits _), hc]
  · unfold BackgroundApp.on_idle
    simp only [BackgroundApp.process_disconnect_timers, BackgroundApp.process_connect_timers,
      BackgroundApp.process_delete_windows, BackgroundApp.process_update_windows,
      BackgroundApp.process_create_windows,
      BackgroundApp.process_create_windows_loop_eq_foldl,
      BackgroundApp.process_update_windows_loop_eq_foldl,
      BackgroundApp.process_delete_windows_loop_eq_foldl]
    split <;> rfl

/-! ### Window creation in a drain tick -/

/-- A controller of the bound list is still in it after the loop of
`process_create_windows`. -/
theorem BackgroundApp.process_create_windows_loop_mem (cq : List Ptr)
    (tq : List (Option String)) (wl : List Ptr) (w : World) (x : Ptr) (hx : x ∈ wl) :
    x ∈ (BackgroundApp.process_create_windows_loop cq tq wl w).1 := by
  induction cq generalizing tq wl w with
  | nil => exact hx
  | cons y cq ih =>
    unfold BackgroundApp.process_create_windows_loop
    simp only []
    split
    · exact ih _ _ _ hx
    · exact ih _ _ _ (List.mem_append_left _ hx)

/-- C19, as the claim states it, fails: with an implementation whose window creation returns
null, a create request for the controller 7, pending in the initial state with no window bound,
is not aborted: the executor goes on to use the null window, three times (`add_window(*win)`,
the connection of the signals, `win->present()`), each a dereference of null. -/
theorem BackgroundApp.failed_creation_is_dereferenced :
    (failing_create_window 7 none World.init).1 = nullptr ∧
    (failing_create_window 7 none World.init).2.trace = [] ∧
    (BackgroundApp.process_create_windows_loop_with failing_create_window [7] [none] []
      World.init).2.trace
      = [Call.invalid_access nullptr, Call.invalid_access nullptr,
          Call.invalid_access nullptr] := by
  decide

/-- C19, amended. The executor has no failure path for window creation: for every implementation
`create` of `back_app_create_window` and every create request of a controller that is not in the
bound list, the executor uses the pointer `create` returns without testing it. If it is null, the
executor dereferences it, three times; no request is skipped. If it is not null, the executor
hands the window to the toolkit (`add_window`, the signal connections, `present`), appends the
controller to the bound list and goes on with the remaining requests. With the window class of
this program creation does not return null: on a live controller `back_app_create_window`
returns the address that `new` returns, so the loop of the program creates the window, binds the
controller, which is in the bound list at the end of the loop, and goes on with the remaining
requests. -/
theorem BackgroundApp.create_request_uses_result_unchecked
    (create : Ptr → Option String → World → Ptr × World) (interface : Ptr) (cq : List Ptr)
    (title : Option String) (tq : List (Option String)) (wl : List Ptr) (w : World)
    (hnot : interface ∉ wl) :
    ((create interface title w).1 = nullptr →
      (BackgroundApp.process_create_windows_loop_with create [interface] [title] wl w).2.trace
        = (create interface title w).2.trace ++
            [Call.invalid_access nullptr, Call.invalid_access nullptr,
              Call.invalid_access nullptr]) ∧
    ((create interface title w).1 ≠ nullptr →
      BackgroundApp.process_create_windows_loop_with create (interface :: cq) (title :: tq) wl w
        = BackgroundApp.process_create_windows_loop_with create cq tq (wl ++ [interface])
            ((((create interface title w).2.call
              (Call.add_window (create interface title w).1)).call
              (Call.connect_signals (create interface title w).1)).call
              (Call.present (create interface title w).1))) ∧
    (∀ c, w.controllers interface = some c → w.heap_top ≠ nullptr →
      (WindowBase.back_app_create_window interface title w).1 = w.heap_top ∧
      (WindowBase.back_app_create_window interface title w).1 ≠ nullptr ∧
      BackgroundApp.process_create_windows_loop (interface :: cq) (title :: tq) wl w
        = BackgroundApp.process_create_windows_loop cq tq (wl ++ [interface])
            ((((WindowBase.back_app_create_window interface title w).2.call
              (Call.add_window w.heap_top)).call
              (Call.connect_signals w.heap_top)).call
              (Call.present w.heap_top)) ∧
      interface ∈ (BackgroundApp.process_create_windows_loop (interface :: cq) (title :: tq)
        wl w).1) := by
  refine ⟨?_, ?_, ?_⟩
  · intro hnull
    rw [BackgroundApp.process_create_windows_loop_with]
    simp only [if_neg hnot, List.tail_cons, hnull, if_true,
      BackgroundApp.process_create_windows_loop_with, World.call, List.append_assoc,
      List.cons_append, List.nil_append]
  · intro hne
    rw [BackgroundApp.process_create_windows_loop_with]
    simp only [if_neg hnot, List.tail_cons, if_neg hne]
  · intro c hc hh
    have h1 : (WindowBase.back_app_create_window interface title w).1 = w.heap_top := by
      unfold WindowBase.back_app_create_window
      rw [hc]
    have h2 : BackgroundApp.process_create_windows_loop (interface :: cq) (title :: tq) wl w
        = BackgroundApp.process_create_windows_loop cq tq (wl ++ [interface])
            ((((WindowBase.back_app_create_window interface title w).2.call
              (Call.add_window w.heap_top)).call
              (Call.connect_signals w.heap_top)).call
              (Call.present w.heap_top)) := by
      rw [BackgroundApp.process_create_windows_loop]
      simp only [if_neg hnot, List.tail_cons, h1]
    refine ⟨h1, by rw [h1]; exact hh, h2, ?_⟩
    rw [h2]
    exact BackgroundApp.process_create_windows_loop_mem _ _ _ _ _ (by simp)

/-- Witness for the amended C19: in `exampleTimerWorld` a create request for the live controller
2, with another request for it behind: the window is created at the address 4 and the controller
is bound, once. -/
theorem BackgroundApp.create_request_uses_result_unchecked_witness :
    (BackgroundApp.process_create_windows_loop [2, 2] [none, none] [] exampleTimerWorld).1
      = [2] ∧
    (WindowBase.back_app_create_window 2 none exampleTimerWorld).1 = 4 ∧
    2 ∈ (BackgroundApp.process_create_windows_loop [2, 2] [none, none] []
      exampleTimerWorld).1 := by
  have h := (BackgroundApp.create_request_uses_result_unchecked
    WindowBase.back_app_create_window 2 [2] none [none] [] exampleTimerWorld (by decide)).2.2
    _ rfl (by decide)
  exact ⟨by decide, h.1, h.2.2.2⟩

/-! ### The invariant of the bound list -/

theorem World.window_of_congr {w w1 : World} (h : w1.controllers = w.controllers) :
    w1.window_of = w.window_of := by
  funext x
  unfold World.window_of
  rw [h]

theorem World.window_of_store {w w1 : World} (x : Ptr) (c1 : ControlsWindow)
    (h : w1.controllers = store w.controllers x (some c1)) :
    w1.window_of = store w.window_of x (some c1.m_window) := by
  funext y
  unfold World.window_of
  rw [h]
  unfold store
  split <;> rfl

theorem World.window_of_store_same {w w1 : World} (x : Ptr) (c c1 : ControlsWindow)
    (hc : w.controllers x = some c) (hw : c1.m_window = c.m_window)
    (h : w1.controllers = store w.controllers x (some c1)) :
    w1.window_of = w.window_of := by
  rw [World.window_of_store x c1 h]
  funext y
  unfold store
  split
  · rename_i hy
    subst hy
    simp [World.window_of, hc, hw, ControlsWindow.back_app_get_window,
      ControlsWindow.get_window_object]
  · rfl

theorem World.bound_iff (w : World) (x : Ptr) :
    w.Bound x ↔ ∃ p, w.window_of x = some p ∧ p ≠ nullptr := by
  unfold World.Bound World.window_of
  constructor
  · rintro ⟨c, hc, hb⟩
    exact ⟨c.m_window, by simp [hc, ControlsWindow.back_app_get_window,
      ControlsWindow.get_window_object], hb⟩
  · rintro ⟨p, hp, hb⟩
    cases hc : w.controllers x with
    | none => simp [hc] at hp
    | some c =>
      refine ⟨c, rfl, ?_⟩
      simp [hc, ControlsWindow.back_app_get_window, ControlsWindow.get_window_object] at hp
      rw [hp]
      exact hb

theorem World.live_iff (w : World) (x : Ptr) :
    (w.controllers x).isSome ↔ (w.window_of x).isSome := by
  unfold World.window_of
  cases w.controllers x <;> simp

theorem WellBound.same {wl cq : List Ptr} {top top1 : Ptr} {f : Ptr → Option Ptr}
    (h : WellBound wl cq top f) (ht : top ≤ top1) (cq1 : List Ptr) (hcq : ∀ x ∈ cq1, x ∈ cq) :
    WellBound wl cq1 top1 f := by
  obtain ⟨h1, h2, h3, h4, h5⟩ := h
  refine ⟨?_, fun x hx => h2 x (Nat.le_trans ht hx), h3, h4, fun x hx => h5 x (hcq x hx)⟩
  intro h0
  apply h1
  have h00 : top1 = 0 := h0
  rw [h00] at ht
  exact Nat.eq_zero_of_le_zero ht

theorem WellBound.lt_top {wl cq : List Ptr} {top : Ptr} {f : Ptr → Option Ptr}
    (h : WellBound wl cq top f) (x : Ptr) (hx : (f x).isSome) : x < top := by
  by_contra hge
  have := h.2.1 x (Nat.le_of_not_lt hge)
  rw [this] at hx
  cases hx

/-- A window is created for a live controller that is not in the bound list. -/
theorem WellBound.create {wl cq : List Ptr} {top : Ptr} {f : Ptr → Option Ptr}
    (h : WellBound wl cq top f) (x : Ptr) (hx : x ∉ wl) (hl : (f x).isSome) :
    WellBound (wl ++ [x]) cq (top + 1) (store f x (some top)) := by
  obtain ⟨h1, h2, h3, h4, h5⟩ := h
  have hlt : x < top := WellBound.lt_top ⟨h1, h2, h3, h4, h5⟩ x hl
  refine ⟨by simp, ?_, ?_, ?_, ?_⟩
  · intro y hy
    have hty : top ≤ y := Nat.le_of_succ_le hy
    have hne : y ≠ x := Nat.ne_of_gt (Nat.lt_of_lt_of_le hlt hty)
    simp only [store, if_neg hne]
    exact h2 y hty
  · exact List.Nodup.append h3 (List.nodup_singleton x) (by simpa using hx)
  · intro y
    by_cases hy : y = x
    · subst hy
      simp [store, h1]
    · simp only [store, if_neg hy, List.mem_append, List.mem_singleton, hy, or_false]
      exact h4 y
  · intro y hy
    by_cases hyx : y = x
    · simp [store, hyx]
    · simp only [store, if_neg hyx]
      exact h5 y hy

/-- The window of a controller of the bound list is deleted. -/
theorem WellBound.delete {wl cq : List Ptr} {top : Ptr} {f : Ptr → Option Ptr}
    (h : WellBound wl cq top f) (x : Ptr) (hx : x ∈ wl) :
    WellBound (wl.erase x) cq top (store f x (some nullptr)) := by
  obtain ⟨h1, h2, h3, h4, h5⟩ := h
  obtain ⟨p, hp, _⟩ := (h4 x).1 hx
  have hlt : x < top := WellBound.lt_top ⟨h1, h2, h3, h4, h5⟩ x (by simp [hp])
  refine ⟨h1, ?_, h3.erase x, ?_, ?_⟩
  · intro y hy
    have hne : y ≠ x := Nat.ne_of_gt (Nat.lt_of_lt_of_le hlt hy)
    simp only [store, if_neg hne]
    exact h2 y hy
  · intro y
    rw [h3.mem_erase_iff]
    by_cases hy : y = x
    · subst hy
      simp [store]
    · simp only [store, if_neg hy, ne_eq, hy, not_false_eq_true, true_and]
      exact h4 y
  · intro y hy
    by_cases hyx : y = x
    · simp [store, hyx]
    · simp only [store, if_neg hyx]
      exact h5 y hy

/-- A controller is constructed at the next free address. -/
theorem WellBound.construct {wl cq : List Ptr} {top : Ptr} {f : Ptr → Option Ptr}
    (h : WellBound wl cq top f) :
    WellBound wl cq (top + 1) (store f top (some nullptr)) := by
  obtain ⟨h1, h2, h3, h4, h5⟩ := h
  refine ⟨by simp, ?_, h3, ?_, ?_⟩
  · intro y hy
    have hne : y ≠ top := Nat.ne_of_gt hy
    simp only [store, if_neg hne]
    exact h2 y (Nat.le_of_succ_le hy)
  · intro y
    by_cases hy : y = top
    · subst hy
      simp only [store, if_true]
      constructor
      · intro hm
        obtain ⟨p, hp, _⟩ := (h4 y).1 hm
        rw [h2 y (Nat.le_refl _)] at hp
        cases hp
      · rintro ⟨p, hp, hne⟩
        cases hp
        exact absurd rfl hne
    · simp only [store, if_neg hy]
      exact h4 y
  · intro y hy
    by_cases hyx : y = top
    · simp [store, hyx]
    · simp only [store, if_neg hyx]
      exact h5 y hy

/-- A create request for a live controller is posted. -/
theorem WellBound.post {wl cq : List Ptr} {top : Ptr} {f : Ptr → Option Ptr}
    (h : WellBound wl cq top f) (x : Ptr) (hl : (f x).isSome) :
    WellBound wl (cq ++ [x]) top f := by
  obtain ⟨h1, h2, h3, h4, h5⟩ := h
  refine ⟨h1, h2, h3, h4, ?_⟩
  intro y hy
  rcases List.mem_append.1 hy with hy | hy
  · exact h5 y hy
  · rw [List.mem_singleton.1 hy]
    exact hl

theorem World.call_view (w : World) (c : Call) :
    (w.call c).window_of = w.window_of ∧ (w.call c).heap_top = w.heap_top :=
  ⟨rfl, rfl⟩

theorem EventQueue.process_events_view (q : EventQueue) (b : Bool) (w : World) :
    (q.process_events b w).2.controllers = w.controllers ∧
    (q.process_events b w).2.heap_top = w.heap_top ∧
    (q.process_events b w).2.runner = w.runner := by
  simp [EventQueue.process_events, EventQueue.process_events_loop_eq,
    foldl_invoke_handler_eq]

theorem WindowBase.process_update_events_view (x : Ptr) (b : Bool) (w : World) :
    (WindowBase.process_update_events x b w).window_of = w.window_of ∧
    (WindowBase.process_update_events x b w).heap_top = w.heap_top := by
  unfold WindowBase.process_update_events
  split
  · exact ⟨rfl, rfl⟩
  · rename_i c hc
    obtain ⟨h1, h2, _⟩ := EventQueue.process_events_view c.m_background_queue b w
    simp only []
    split
    · exact ⟨World.window_of_congr h1, h2⟩
    · rename_i c1 hc1
      refine ⟨?_, h2⟩
      rw [World.window_of_store_same x c1 { c1 with
        m_background_queue := (c.m_background_queue.process_events b w).1 } hc1 rfl rfl]
      exact World.window_of_congr h1

theorem WindowBase.back_app_update_window_view (x : Ptr) (w : World) :
    (WindowBase.back_app_update_window x w).window_of = w.window_of ∧
    (WindowBase.back_app_update_window x w).heap_top = w.heap_top := by
  unfold WindowBase.back_app_update_window ControlsWindow.update_window
    WindowData.update_widgets
  split
  · exact ⟨rfl, rfl⟩
  · split
    · exact ⟨rfl, rfl⟩
    · split
      · exact ⟨rfl, rfl⟩
      · exact WindowBase.process_update_events_view _ _ _

theorem WindowBase.back_app_create_window_view (x : Ptr) (t : Option String) (w : World) :
    (WindowBase.back_app_create_window x t w).2.window_of
      = (if (w.controllers x).isSome then store w.window_of x (some w.heap_top)
          else w.window_of) ∧
    (WindowBase.back_app_create_window x t w).2.heap_top
      = (if (w.controllers x).isSome then w.heap_top + 1 else w.heap_top) := by
  unfold WindowBase.back_app_create_window
  cases hc : w.controllers x with
  | none => exact ⟨rfl, rfl⟩
  | some c =>
    simp only [Option.isSome_some, if_true]
    exact ⟨World.window_of_store x _ rfl, trivial⟩

theorem WindowBase.back_app_delete_window_view (x : Ptr) (w : World) :
    (WindowBase.back_app_delete_window x w).window_of
      = (if (w.controllers x).isSome then store w.window_of x (some nullptr)
          else w.window_of) ∧
    (WindowBase.back_app_delete_window x w).heap_top = w.heap_top := by
  cases hc : w.controllers x with
  | none =>
    unfold WindowBase.back_app_delete_window
    rw [hc]
    exact ⟨rfl, rfl⟩
  | some c =>
    obtain ⟨h1, _, h3, _⟩ := WindowBase.back_app_delete_window_live x c w hc
    simp only [Option.isSome_some, if_true]
    exact ⟨World.window_of_store x _ h1, h3⟩

theorem World.get_window_view (w : World) (x : Ptr) :
    (w.get_window x).2.window_of = w.window_of ∧ (w.get_window x).2.heap_top = w.heap_top := by
  unfold World.get_window
  split <;> exact ⟨rfl, rfl⟩

theorem foldl_connect_view (l : List Ptr) (w : World) :
    (l.foldl (fun w timer => TimerData.connect timer w) w).window_of = w.window_of ∧
    (l.foldl (fun w timer => TimerData.connect timer w) w).heap_top = w.heap_top := by
  induction l generalizing w with
  | nil => exact ⟨rfl, rfl⟩
  | cons t l ih =>
    rw [List.foldl_cons]
    obtain ⟨h1, h2⟩ := ih (TimerData.connect t w)
    obtain ⟨g1, _, _, g4, _⟩ := TimerData.connect_frame t w
    exact ⟨h1.trans (World.window_of_congr g1), h2.trans g4⟩

theorem foldl_disconnect_view (l : List Ptr) (w : World) :
    (l.foldl (fun w timer => TimerData.disconnect timer w) w).window_of = w.window_of ∧
    (l.foldl (fun w timer => TimerData.disconnect timer w) w).heap_top = w.heap_top := by
  obtain ⟨g1, _, _, g4, _⟩ := foldl_disconnect_frame l w
  exact ⟨World.window_of_congr g1, g4⟩

/-- The create requests of a tick keep the invariant of the bound list. -/
theorem BackgroundApp.foldl_create_request_wellbound (cq : List Ptr)
    (s : List (Option String) × List Ptr × World)
    (h : WellBound s.2.1 cq s.2.2.heap_top s.2.2.window_of) :
    WellBound (cq.foldl BackgroundApp.create_request s).2.1 []
      (cq.foldl BackgroundApp.create_request s).2.2.heap_top
      (cq.foldl BackgroundApp.create_request s).2.2.window_of := by
  induction cq generalizing s with
  | nil => exact h
  | cons x cq ih =>
    rw [List.foldl_cons]
    apply ih
    have hfront : (match s.1 with
        | [] => ((none : Option String), s.2.2.call (Call.invalid_access nullptr))
        | title :: _ => (title, s.2.2)).2.window_of = s.2.2.window_of ∧
        (match s.1 with
        | [] => ((none : Option String), s.2.2.call (Call.invalid_access nullptr))
        | title :: _ => (title, s.2.2)).2.heap_top = s.2.2.heap_top ∧
        (match s.1 with
        | [] => ((none : Option String), s.2.2.call (Call.invalid_access nullptr))
        | title :: _ => (title, s.2.2)).2.controllers = s.2.2.controllers := by
      cases s.1 <;> exact ⟨rfl, rfl, rfl⟩
    have hrest : ∀ y ∈ cq, y ∈ x :: cq := fun y hy => List.mem_cons_of_mem _ hy
    unfold BackgroundApp.create_request
    simp only []
    split
    · simp only []
      rw [hfront.1, hfront.2.1]
      exact h.same (Nat.le_refl _) cq hrest
    · rename_i hx
      have hl : (s.2.2.window_of x).isSome := h.2.2.2.2 x (List.mem_cons_self _ _)
      have hlive : (s.2.2.controllers x).isSome := (World.live_iff _ _).2 hl
      obtain ⟨hv, ht⟩ := WindowBase.back_app_create_window_view x
        (match s.1 with
        | [] => ((none : Option String), s.2.2.call (Call.invalid_access nullptr))
        | title :: _ => (title, s.2.2)).1
        (match s.1 with
        | [] => ((none : Option String), s.2.2.call (Call.invalid_access nullptr))
        | title :: _ => (title, s.2.2)).2
      rw [hfront.2.2, if_pos hlive, hfront.1, hfront.2.1] at hv
      rw [hfront.2.2, if_pos hlive, hfront.2.1] at ht
      show WellBound (s.2.1 ++ [x]) cq (WindowBase.back_app_create_window x _ _).2.heap_top
        (WindowBase.back_app_create_window x _ _).2.window_of
      rw [hv, ht]
      exact (h.create x hx hl).same (Nat.le_refl _) cq hrest

/-- The update requests of a tick change neither the window objects of the controllers nor the
next free address. -/
theorem BackgroundApp.foldl_update_request_view (uq wl : List Ptr) (w : World) :
    (uq.foldl (BackgroundApp.update_request wl) w).window_of = w.window_of ∧
    (uq.foldl (BackgroundApp.update_request wl) w).heap_top = w.heap_top := by
  induction uq generalizing w with
  | nil => exact ⟨rfl, rfl⟩
  | cons x uq ih =>
    rw [List.foldl_cons]
    obtain ⟨h1, h2⟩ := ih (BackgroundApp.update_request wl w x)
    have hx : (BackgroundApp.update_request wl w x).window_of = w.window_of ∧
        (BackgroundApp.update_request wl w x).heap_top = w.heap_top := by
      unfold BackgroundApp.update_request
      split
      · exact WindowBase.back_app_update_window_view x w
      · exact ⟨rfl, rfl⟩
    exact ⟨h1.trans hx.1, h2.trans hx.2⟩

/-- The delete requests of a tick keep the invariant of the bound list. -/
theorem BackgroundApp.foldl_delete_request_wellbound (dq cq : List Ptr) (s : List Ptr × World)
    (h : WellBound s.1 cq s.2.heap_top s.2.window_of) :
    WellBound (dq.foldl BackgroundApp.delete_request s).1 cq
      (dq.foldl BackgroundApp.delete_request s).2.heap_top
      (dq.foldl BackgroundApp.delete_request s).2.window_of := by
  induction dq generalizing s with
  | nil => exact h
  | cons x dq ih =>
    rw [List.foldl_cons]
    apply ih
    unfold BackgroundApp.delete_request
    split
    · rename_i hx
      obtain ⟨p, hp, _⟩ := (h.2.2.2.1 x).1 hx
      have hlive : (s.2.controllers x).isSome := (World.live_iff _ _).2 (by simp [hp])
      obtain ⟨hv, ht⟩ := WindowBase.back_app_delete_window_view x
        (((s.2.get_window x).2.call (Call.close (s.2.get_window x).1)).call
          (Call.remove_window (s.2.get_window x).1))
      have hctl : (((s.2.get_window x).2.call (Call.close (s.2.get_window x).1)).call
          (Call.remove_window (s.2.get_window x).1)).controllers = s.2.controllers := by
        unfold World.get_window
        split <;> rfl
      have hwo := World.window_of_congr hctl
      have htop : (((s.2.get_window x).2.call (Call.close (s.2.get_window x).1)).call
          (Call.remove_window (s.2.get_window x).1)).heap_top = s.2.heap_top :=
        (World.get_window_view s.2 x).2
      rw [hctl, if_pos hlive, hwo] at hv
      rw [htop] at ht
      simp only []
      rw [hv, ht]
      exact h.delete x hx
    · exact h

theorem SameView.keeps_invariant {w w1 : World} (hv : SameView w w1) (h : w.BoundListInvariant) :
    w1.BoundListInvariant := by
  obtain ⟨h1, h2, h3, h4⟩ := hv
  unfold World.BoundListInvariant
  rw [h1, h3, h4]
  exact h.same h2 _ (fun _ hx => hx)

theorem SameView.refl (w : World) : SameView w w :=
  ⟨rfl, Nat.le_refl _, rfl, rfl⟩

theorem SameView.call (w : World) (c : Call) : SameView w (w.call c) :=
  ⟨rfl, Nat.le_refl _, rfl, rfl⟩

theorem SameView.andThen {w w1 w2 : World} (h1 : SameView w w1) (h2 : SameView w1 w2) :
    SameView w w2 :=
  ⟨h2.1.trans h1.1, Nat.le_trans h1.2.1 h2.2.1, h2.2.2.1.trans h1.2.2.1,
    h2.2.2.2.trans h1.2.2.2⟩

theorem sameView_delete_window (x : Ptr) (w : World) :
    SameView w (BackgroundAppRunner.delete_window x w) := by
  unfold BackgroundAppRunner.delete_window
  cases h : w.runner.m_app with
  | none => exact SameView.refl w
  | some app =>
    refine ⟨rfl, Nat.le_refl _, ?_, ?_⟩ <;>
      simp [World.window_list, World.create_queue, World.set_app, h,
        BackgroundApp.post_delete_window]

theorem sameView_update_window (x : Ptr) (w : World) :
    SameView w (BackgroundAppRunner.update_window x w) := by
  unfold BackgroundAppRunner.update_window
  cases h : w.runner.m_app with
  | none => exact SameView.refl w
  | some app =>
    refine ⟨rfl, Nat.le_refl _, ?_, ?_⟩ <;>
      simp [World.window_list, World.create_queue, World.set_app, h,
        BackgroundApp.post_update_window]

theorem sameView_connect_timer (x : Ptr) (w : World) :
    SameView w (BackgroundAppRunner.connect_timer x w) := by
  unfold BackgroundAppRunner.connect_timer
  cases h : w.runner.m_app with
  | none => exact SameView.refl w
  | some app =>
    refine ⟨rfl, Nat.le_refl _, ?_, ?_⟩ <;>
      simp [World.window_list, World.create_queue, World.set_app, h,
        BackgroundApp.post_connect_timer]

theorem sameView_disconnect_timer (x : Ptr) (w : World) :
    SameView w (BackgroundAppRunner.disconnect_timer x w) := by
  unfold BackgroundAppRunner.disconnect_timer
  cases h : w.runner.m_app with
  | none => exact SameView.refl w
  | some app =>
    refine ⟨rfl, Nat.le_refl _, ?_, ?_⟩ <;>
      simp [World.window_list, World.create_queue, World.set_app, h,
        BackgroundApp.post_disconnect_timer]

theorem sameView_delete_timer (p : Ptr) (w : World) : SameView w (delete_timer p w) := by
  unfold delete_timer
  split
  · exact SameView.refl w
  · split
    · exact SameView.call w _
    · exact ⟨rfl, Nat.le_refl _, rfl, rfl⟩

/-- A change of a live controller that keeps its window pointer, with nothing else changed but
the fields listed, is a step with the same view. -/
theorem sameView_of_controller {w w1 : World} (x : Ptr) (c c1 : ControlsWindow)
    (hc : w.controllers x = some c) (hw : c1.m_window = c.m_window)
    (h : w1.controllers = store w.controllers x (some c1)) (ht : w.heap_top ≤ w1.heap_top)
    (hr : w1.runner = w.runner) : SameView w w1 :=
  ⟨World.window_of_store_same x c c1 hc hw h, ht, by simp [World.window_list, hr],
    by simp [World.create_queue, hr]⟩

theorem sameView_add_timer (this interval func data queue : Ptr) (w : World) :
    SameView w (WindowBase.add_timer this interval func data queue w).2 := by
  unfold WindowBase.add_timer
  split
  · exact SameView.call w _
  · rename_i c hc
    exact sameView_of_controller this c { c with m_timer_list := c.m_timer_list ++ [w.heap_top] }
      hc rfl rfl (Nat.le_succ _) rfl

theorem sameView_kill_timer (this timer : Ptr) (w : World) :
    SameView w (WindowBase.kill_timer this timer w) := by
  unfold WindowBase.kill_timer
  split
  · exact SameView.call w _
  · rename_i c hc
    split
    · exact SameView.refl w
    · rename_i hne
      simp only [WindowBase.kill_timer_loop_eq timer hne, if_neg hne]
      by_cases hm : timer ∈ c.m_timer_list
      · simp only [if_pos hm]
        have h1 : SameView w (delete_timer timer (BackgroundAppRunner.disconnect_timer timer w)) :=
          (sameView_disconnect_timer timer w).andThen (sameView_delete_timer timer _)
        refine h1.andThen ?_
        have hc1 : (delete_timer timer (BackgroundAppRunner.disconnect_timer timer w)).controllers
            this = some c := by
          rw [delete_timer_controllers, BackgroundAppRunner.disconnect_timer_controllers]
          exact hc
        exact sameView_of_controller this c
          { c with m_timer_list := c.m_timer_list.erase timer } hc1 rfl rfl (Nat.le_refl _) rfl
      · simp only [if_neg hm]
        exact sameView_of_controller this c { c with m_timer_list := c.m_timer_list } hc rfl rfl
          (Nat.le_refl _) rfl

theorem sameView_start_all_timers (this : Ptr) (w : World) :
    SameView w (WindowBase.start_all_timers this w) := by
  unfold WindowBase.start_all_timers
  split
  · exact SameView.call w _
  · rename_i c hc
    clear hc
    generalize c.m_timer_list = l
    induction l generalizing w with
    | nil => exact SameView.refl w
    | cons t l ih =>
      rw [List.foldl_cons]
      exact (sameView_connect_timer t w).andThen (ih _)

theorem sameView_update (this : Ptr) (w : World) : SameView w (WindowBase.update this w) := by
  unfold WindowBase.update
  split
  · exact SameView.call w _
  · split
    · exact SameView.refl w
    · exact sameView_update_window this w

theorem sameView_push_update_event (this : Ptr) (event : EventData) (w : World) :
    SameView w (WindowBase.push_update_event this event w) := by
  unfold WindowBase.push_update_event
  split
  · exact SameView.call w _
  · rename_i c hc
    exact sameView_of_controller this c
      { c with m_background_queue := c.m_background_queue.push event } hc rfl rfl
      (Nat.le_refl _) rfl

theorem sameView_process_events (queue : Ptr) (b : Bool) (w : World) :
    SameView w (w.process_events queue b) := by
  obtain ⟨h1, h2, h3⟩ := EventQueue.process_events_view (w.queues queue) b w
  unfold World.process_events
  refine ⟨World.window_of_congr h1, Nat.le_of_eq h2.symm, ?_, ?_⟩
  · show ((w.queues queue).process_events b w).2.window_list = _
    simp [World.window_list, h3]
  · show ((w.queues queue).process_events b w).2.create_queue = _
    simp [World.create_queue, h3]

theorem sameView_fire (id : Nat) (timer : Ptr) (w : World) : SameView w (w.fire id timer) := by
  have hq : SameView w (TimerData.queue_timer_event timer w).2 := by
    unfold TimerData.queue_timer_event
    split
    · exact SameView.call w _
    · split
      · exact SameView.refl w
      · exact ⟨rfl, Nat.le_succ _, rfl, rfl⟩
  simp only [World.fire]
  split
  · exact hq
  · exact hq.andThen ⟨rfl, Nat.le_refl _, rfl, rfl⟩

/-- The bound list, the pending create requests, the window objects and the next free address
after one run of `on_idle`: they are as the delete requests leave them, after the create and the
update requests. -/
theorem BackgroundApp.on_idle_view (app : BackgroundApp) (w : World) :
    (app.on_idle w).1.m_window_list
      = (app.m_delete_win_queue.foldl BackgroundApp.delete_request
          ((app.m_create_win_queue.foldl BackgroundApp.create_request
              (app.m_win_title_queue, app.m_window_list, w)).2.1,
            app.m_update_win_queue.foldl
              (BackgroundApp.update_request
                (app.m_create_win_queue.foldl BackgroundApp.create_request
                  (app.m_win_title_queue, app.m_window_list, w)).2.1)
              (app.m_create_win_queue.foldl BackgroundApp.create_request
                (app.m_win_title_queue, app.m_window_list, w)).2.2)).1 ∧
    (app.on_idle w).1.m_create_win_queue = [] ∧
    (app.on_idle w).2.window_of
      = (app.m_delete_win_queue.foldl BackgroundApp.delete_request
          ((app.m_create_win_queue.foldl BackgroundApp.create_request
              (app.m_win_title_queue, app.m_window_list, w)).2.1,
            app.m_update_win_queue.foldl
              (BackgroundApp.update_request
                (app.m_create_win_queue.foldl BackgroundApp.create_request
                  (app.m_win_title_queue, app.m_window_list, w)).2.1)
              (app.m_create_win_queue.foldl BackgroundApp.create_request
                (app.m_win_title_queue, app.m_window_list, w)).2.2)).2.window_of ∧
    (app.on_idle w).2.heap_top
      = (app.m_delete_win_queue.foldl BackgroundApp.delete_request
          ((app.m_create_win_queue.foldl BackgroundApp.create_request
              (app.m_win_title_queue, app.m_window_list, w)).2.1,
            app.m_update_win_queue.foldl
              (BackgroundApp.update_request
                (app.m_create_win_queue.foldl BackgroundApp.create_request
                  (app.m_win_title_queue, app.m_window_list, w)).2.1)
              (app.m_create_win_queue.foldl BackgroundApp.create_request
                (app.m_win_title_queue, app.m_window_list, w)).2.2)).2.heap_top := by
  unfold BackgroundApp.on_idle
  simp only [BackgroundApp.process_disconnect_timers, BackgroundApp.process_connect_timers,
    BackgroundApp.process_delete_windows, BackgroundApp.process_update_windows,
    BackgroundApp.process_create_windows,
    BackgroundApp.process_create_windows_loop_eq_foldl,
    BackgroundApp.process_update_windows_loop_eq_foldl,
    BackgroundApp.process_delete_windows_loop_eq_foldl,
    BackgroundApp.process_connect_timers_loop_eq_foldl,
    BackgroundApp.process_disconnect_timers_loop_eq_foldl]
  split
  · refine ⟨rfl, rfl, ?_, ?_⟩
    · show (World.call _ _).window_of = _
      rw [(World.call_view _ _).1, (foldl_disconnect_view _ _).1, (foldl_connect_view _ _).1]
    · show (World.call _ _).heap_top = _
      rw [(World.call_view _ _).2, (foldl_disconnect_view _ _).2, (foldl_connect_view _ _).2]
  · refine ⟨rfl, rfl, ?_, ?_⟩
    · simp only []
      rw [(foldl_disconnect_view _ _).1, (foldl_connect_view _ _).1]
    · simp only []
      rw [(foldl_disconnect_view _ _).2, (foldl_connect_view _ _).2]

theorem World.window_list_of_app (w : World) (app : BackgroundApp)
    (h : w.runner.m_app = some app) : w.window_list = app.m_window_list := by
  simp [World.window_list, h]

theorem World.create_queue_of_app (w : World) (app : BackgroundApp)
    (h : w.runner.m_app = some app) : w.create_queue = app.m_create_win_queue := by
  simp [World.create_queue, h]

/-- One run of `on_idle` keeps the invariant of the bound list. -/
theorem World.on_idle_invariant (w : World) (h : w.BoundListInvariant) :
    w.on_idle.BoundListInvariant := by
  unfold World.on_idle
  cases happ : w.runner.m_app with
  | none => exact h
  | some app =>
    unfold World.BoundListInvariant at h ⊢
    rw [World.window_list_of_app w app happ, World.create_queue_of_app w app happ] at h
    obtain ⟨v1, v2, v3, v4⟩ := BackgroundApp.on_idle_view app w
    simp only []
    rw [World.window_list_of_app _ (app.on_idle w).1 rfl,
      World.create_queue_of_app _ (app.on_idle w).1 rfl, v1, v2]
    show WellBound _ [] (app.on_idle w).2.heap_top (app.on_idle w).2.window_of
    rw [v3, v4]
    apply BackgroundApp.foldl_delete_request_wellbound
    simp only []
    rw [(BackgroundApp.foldl_update_request_view _ _ _).1,
      (BackgroundApp.foldl_update_request_view _ _ _).2]
    exact BackgroundApp.foldl_create_request_wellbound _ _ h

/-- The hide signal of a window keeps the invariant of the bound list. -/
theorem World.on_hide_window_invariant (window : Ptr) (w : World) (h : w.BoundListInvariant) :
    (w.on_hide_window window).BoundListInvariant := by
  unfold World.on_hide_window
  cases happ : w.runner.m_app with
  | none => exact h
  | some app =>
    unfold World.BoundListInvariant at h ⊢
    rw [World.window_list_of_app w app happ, World.create_queue_of_app w app happ] at h
    have hlive : ∀ x ∈ app.m_window_list, (w.controllers x).isSome := by
      intro x hx
      obtain ⟨p, hp, _⟩ := (h.2.2.2.1 x).1 hx
      exact (World.live_iff w x).2 (by simp [hp])
    have hloop := BackgroundApp.on_hide_window_loop_eq window app.m_window_list w hlive
    have hview : (app.on_hide_window window w).1.m_window_list
          = (BackgroundApp.on_hide_window_loop window app.m_window_list w).1 ∧
        (app.on_hide_window window w).1.m_create_win_queue = app.m_create_win_queue ∧
        (app.on_hide_window window w).2
          = (BackgroundApp.on_hide_window_loop window app.m_window_list w).2 := by
      unfold BackgroundApp.on_hide_window
      simp only []
      split <;> exact ⟨rfl, rfl, rfl⟩
    simp only []
    rw [World.window_list_of_app _ (app.on_hide_window window w).1 rfl,
      World.create_queue_of_app _ (app.on_hide_window window w).1 rfl, hview.1, hview.2.1]
    show WellBound _ _ (app.on_hide_window window w).2.heap_top
      (app.on_hide_window window w).2.window_of
    rw [hview.2.2, hloop]
    cases hf : app.m_window_list.find? (fun x => decide (w.window_of x = some window)) with
    | none => exact h
    | some x =>
      have hx : x ∈ app.m_window_list := List.mem_of_find?_eq_some hf
      obtain ⟨hv, ht⟩ := WindowBase.back_app_delete_window_view x w
      rw [if_pos (hlive x hx)] at hv
      simp only []
      rw [hv, ht]
      exact h.delete x hx

/-- The construction of a controller keeps the invariant of the bound list. -/
theorem World.new_controls_window_invariant (queue : Ptr) (w : World)
    (h : w.BoundListInvariant) : (World.new_controls_window queue w).2.BoundListInvariant := by
  unfold World.BoundListInvariant at h ⊢
  have hv : (World.new_controls_window queue w).2.window_of
      = store w.window_of w.heap_top (some nullptr) :=
    World.window_of_store w.heap_top (ControlsWindow.new queue) rfl
  rw [hv]
  exact h.construct

/-- The posting of a create request for a live controller keeps the invariant of the bound
list. -/
theorem BackgroundAppRunner.create_window_invariant (this : Ptr) (title : Option String)
    (w : World) (hl : (w.controllers this).isSome) (h : w.BoundListInvariant) :
    (BackgroundAppRunner.create_window this title w).BoundListInvariant := by
  have hr := BackgroundAppRunner.create_window_runner this title w
  have hwl : (BackgroundAppRunner.create_window this title w).window_list = w.window_list := by
    simp [World.window_list, hr, BackgroundApp.post_create_window]
  have hcq : (BackgroundAppRunner.create_window this title w).create_queue
      = w.create_queue ++ [this] := by
    simp [World.create_queue, hr, BackgroundApp.post_create_window]
  have hrest : (BackgroundAppRunner.create_window this title w).window_of = w.window_of ∧
      (BackgroundAppRunner.create_window this title w).heap_top = w.heap_top := by
    unfold BackgroundAppRunner.create_window
    cases hm : w.runner.m_app <;> cases ht : w.runner.m_thread <;>
      simp [World.set_app, World.call, ht] <;> rfl
  unfold World.BoundListInvariant at h ⊢
  rw [hwl, hcq, hrest.1, hrest.2]
  exact h.post this ((World.live_iff w this).1 hl)

/-- Every step of the program other than the destruction of a controller keeps the invariant of
the bound list. -/
theorem Step.preserves_invariant_unless_destroy {w w1 : World} (hs : Step w w1)
    (hd : ∀ this, w1 ≠ WindowBase.destroy this w) (h : w.BoundListInvariant) :
    w1.BoundListInvariant := by
  cases hs with
  | new_controls_window queue => exact World.new_controls_window_invariant queue w h
  | add_timer this interval func data queue =>
    exact (sameView_add_timer this interval func data queue w).keeps_invariant h
  | kill_timer this timer => exact (sameView_kill_timer this timer w).keeps_invariant h
  | show_window_post this title c hc hw =>
    exact BackgroundAppRunner.create_window_invariant this title w (by rw [hc]; rfl) h
  | show_window_resume this => exact (sameView_start_all_timers this w).keeps_invariant h
  | update this => exact (sameView_update this w).keeps_invariant h
  | push_update_event this event => exact (sameView_push_update_event this event w).keeps_invariant h
  | process_events queue b => exact (sameView_process_events queue b w).keeps_invariant h
  | destroy this => exact absurd rfl (hd this)
  | on_idle => exact World.on_idle_invariant w h
  | on_hide_window window => exact World.on_hide_window_invariant window w h
  | fire id timer _ => exact (sameView_fire id timer w).keeps_invariant h

theorem World.init_invariant : World.init.BoundListInvariant := by
  refine ⟨by decide, fun _ _ => rfl, List.nodup_nil, ?_, ?_⟩
  · intro x
    constructor
    · intro hx
      cases hx
    · rintro ⟨p, hp, _⟩
      cases hp
  · intro x hx
    cases hx

theorem BackgroundAppRunner.get_window_num_eq (w : World) :
    BackgroundAppRunner.get_window_num w = w.window_list.length := by
  unfold BackgroundAppRunner.get_window_num World.window_list
  cases w.runner.m_app <;> rfl

/-! ### A closed window stays closed until the next show_window -/

/-- After `back_app_delete_window` the window object of every controller is as before or null. -/
theorem WindowBase.back_app_delete_window_same_or_null (x : Ptr) (w : World) (y : Ptr) :
    (WindowBase.back_app_delete_window x w).window_of y = w.window_of y ∨
    (WindowBase.back_app_delete_window x w).window_of y = some nullptr := by
  rw [(WindowBase.back_app_delete_window_view x w).1]
  split
  · unfold store
    split
    · exact Or.inr rfl
    · exact Or.inl rfl
  · exact Or.inl rfl

theorem BackgroundApp.delete_request_same_or_null (s : List Ptr × World) (x y : Ptr) :
    (BackgroundApp.delete_request s x).2.window_of y = s.2.window_of y ∨
    (BackgroundApp.delete_request s x).2.window_of y = some nullptr := by
  unfold BackgroundApp.delete_request
  split
  · have hctl : (((s.2.get_window x).2.call (Call.close (s.2.get_window x).1)).call
        (Call.remove_window (s.2.get_window x).1)).window_of = s.2.window_of :=
      (World.get_window_view s.2 x).1
    simp only []
    rw [← hctl]
    exact WindowBase.back_app_delete_window_same_or_null x _ y
  · exact Or.inl rfl

theorem BackgroundApp.foldl_delete_request_same_or_null (dq : List Ptr) (s : List Ptr × World)
    (y : Ptr) :
    (dq.foldl BackgroundApp.delete_request s).2.window_of y = s.2.window_of y ∨
    (dq.foldl BackgroundApp.delete_request s).2.window_of y = some nullptr := by
  induction dq generalizing s with
  | nil => exact Or.inl rfl
  | cons x dq ih =>
    rw [List.foldl_cons]
    rcases ih (BackgroundApp.delete_request s x) with h | h
    · rcases BackgroundApp.delete_request_same_or_null s x y with g | g
      · exact Or.inl (h.trans g)
      · exact Or.inr (h.trans g)
    · exact Or.inr h

theorem BackgroundApp.on_hide_window_loop_same_or_null (window : Ptr) (l : List Ptr) (w : World)
    (y : Ptr) :
    (BackgroundApp.on_hide_window_loop window l w).2.window_of y = w.window_of y ∨
    (BackgroundApp.on_hide_window_loop window l w).2.window_of y = some nullptr := by
  induction l generalizing w with
  | nil => exact Or.inl rfl
  | cons it rest ih =>
    unfold BackgroundApp.on_hide_window_loop
    have hg := (World.get_window_view w it).1
    simp only []
    split
    · rw [← hg]
      exact WindowBase.back_app_delete_window_same_or_null it _ y
    · simp only []
      rw [← hg]
      exact ih _

/-- The create requests of a tick leave the window object of a controller alone for which no
create request is pending. -/
theorem BackgroundApp.foldl_create_request_other (cq : List Ptr)
    (s : List (Option String) × List Ptr × World) (y : Ptr) (hy : y ∉ cq) :
    (cq.foldl BackgroundApp.create_request s).2.2.window_of y = s.2.2.window_of y := by
  induction cq generalizing s with
  | nil => rfl
  | cons x cq ih =>
    rw [List.foldl_cons, ih _ (fun h => hy (List.mem_cons_of_mem _ h))]
    have hne : y ≠ x := fun h => hy (h ▸ List.mem_cons_self _ _)
    have hfront : (match s.1 with
        | [] => ((none : Option String), s.2.2.call (Call.invalid_access nullptr))
        | title :: _ => (title, s.2.2)).2.window_of = s.2.2.window_of := by
      cases s.1 <;> rfl
    unfold BackgroundApp.create_request
    simp only []
    split
    · simp only []
      rw [hfront]
    · show (WindowBase.back_app_create_window x _ _).2.window_of y = _
      rw [(WindowBase.back_app_create_window_view x _ _).1]
      split
      · simp only [store, if_neg hne]
        rw [hfront]
      · rw [hfront]

/-- One run of `on_idle` leaves a controller closed that is closed and has no pending create
request, and leaves no create request pending. -/
theorem World.on_idle_closed (w : World) (this : Ptr) (hw : w.window_of this = some nullptr)
    (hq : this ∉ w.create_queue) :
    w.on_idle.window_of this = some nullptr ∧ this ∉ w.on_idle.create_queue := by
  unfold World.on_idle
  cases happ : w.runner.m_app with
  | none => exact ⟨hw, hq⟩
  | some app =>
    rw [World.create_queue_of_app w app happ] at hq
    obtain ⟨_, v2, v3, _⟩ := BackgroundApp.on_idle_view app w
    simp only []
    rw [World.create_queue_of_app _ (app.on_idle w).1 rfl, v2]
    refine ⟨?_, by simp⟩
    show (app.on_idle w).2.window_of this = _
    rw [v3]
    have hu := (BackgroundApp.foldl_update_request_view app.m_update_win_queue
      (app.m_create_win_queue.foldl BackgroundApp.create_request
        (app.m_win_title_queue, app.m_window_list, w)).2.1
      (app.m_create_win_queue.foldl BackgroundApp.create_request
        (app.m_win_title_queue, app.m_window_list, w)).2.2).1
    have hcr := BackgroundApp.foldl_create_request_other app.m_create_win_queue
      (app.m_win_title_queue, app.m_window_list, w) this hq
    rcases BackgroundApp.foldl_delete_request_same_or_null app.m_delete_win_queue
      ((app.m_create_win_queue.foldl BackgroundApp.create_request
          (app.m_win_title_queue, app.m_window_list, w)).2.1,
        app.m_update_win_queue.foldl
          (BackgroundApp.update_request
            (app.m_create_win_queue.foldl BackgroundApp.create_request
              (app.m_win_title_queue, app.m_window_list, w)).2.1)
          (app.m_create_win_queue.foldl BackgroundApp.create_request
            (app.m_win_title_queue, app.m_window_list, w)).2.2) this with h | h
    · rw [h]
      simp only []
      rw [hu, hcr]
      exact hw
    · exact h

/-- The window object of every controller after a hide signal: as before, or null; the pending
create requests are as before. -/
theorem World.on_hide_window_same_or_null (window : Ptr) (w : World) (y : Ptr) :
    ((w.on_hide_window window).window_of y = w.window_of y ∨
      (w.on_hide_window window).window_of y = some nullptr) ∧
    (w.on_hide_window window).create_queue = w.create_queue := by
  unfold World.on_hide_window
  cases happ : w.runner.m_app with
  | none => exact ⟨Or.inl rfl, rfl⟩
  | some app =>
    have hview : (app.on_hide_window window w).1.m_create_win_queue = app.m_create_win_queue ∧
        (app.on_hide_window window w).2
          = (BackgroundApp.on_hide_window_loop window app.m_window_list w).2 := by
      unfold BackgroundApp.on_hide_window
      simp only []
      split <;> exact ⟨rfl, rfl⟩
    simp only []
    rw [World.create_queue_of_app _ (app.on_hide_window window w).1 rfl,
      World.create_queue_of_app w app happ, hview.1]
    refine ⟨?_, rfl⟩
    show (app.on_hide_window window w).2.window_of y = _ ∨
      (app.on_hide_window window w).2.window_of y = _
    rw [hview.2]
    exact BackgroundApp.on_hide_window_loop_same_or_null window _ w y

theorem WindowBase.destroy_view (x : Ptr) (w : World) :
    (WindowBase.destroy x w).controllers = store w.controllers x none ∧
    (WindowBase.destroy x w).create_queue = w.create_queue := by
  have hk : SameView w (WindowBase.kill_timer x nullptr w) ∧
      (WindowBase.kill_timer x nullptr w).controllers = w.controllers := by
    unfold WindowBase.kill_timer
    split
    · exact ⟨SameView.call w _, rfl⟩
    · rw [if_pos rfl]
      exact ⟨SameView.refl w, rfl⟩
  have hd := sameView_delete_window x (WindowBase.kill_timer x nullptr w)
  have hdc : (BackgroundAppRunner.delete_window x (WindowBase.kill_timer x nullptr w)).controllers
      = (WindowBase.kill_timer x nullptr w).controllers := by
    unfold BackgroundAppRunner.delete_window
    split <;> rfl
  unfold WindowBase.destroy
  refine ⟨?_, ?_⟩
  · show store (BackgroundAppRunner.delete_window x _).controllers x none = _
    rw [hdc, hk.2]
  · exact hd.2.2.2.trans hk.1.2.2.2

theorem BackgroundAppRunner.create_window_view (this : Ptr) (title : Option String) (w : World) :
    (BackgroundAppRunner.create_window this title w).window_of = w.window_of ∧
    (BackgroundAppRunner.create_window this title w).controllers = w.controllers ∧
    (BackgroundAppRunner.create_window this title w).create_queue = w.create_queue ++ [this] := by
  have hr := BackgroundAppRunner.create_window_runner this title w
  have hcq : (BackgroundAppRunner.create_window this title w).create_queue
      = w.create_queue ++ [this] := by
    simp [World.create_queue, hr, BackgroundApp.post_create_window]
  have hrest : (BackgroundAppRunner.create_window this title w).controllers = w.controllers := by
    unfold BackgroundAppRunner.create_window
    cases hm : w.runner.m_app <;> cases ht : w.runner.m_thread <;>
      simp [World.set_app, World.call, ht]
  exact ⟨World.window_of_congr hrest, hrest, hcq⟩

theorem World.closed_iff (w : World) (this : Ptr) :
    (∃ c, w.controllers this = some c ∧ c.is_window_closed = true)
      ↔ w.window_of this = some nullptr := by
  unfold World.window_of
  cases hc : w.controllers this with
  | none => simp
  | some c =>
    simp [ControlsWindow.is_window_closed, ControlsWindow.back_app_is_window_deleted,
      ControlsWindow.is_window_object_null, ControlsWindow.back_app_get_window,
      ControlsWindow.get_window_object]

theorem World.on_idle_create_queue (w : World) : w.on_idle.create_queue = [] := by
  unfold World.on_idle
  cases happ : w.runner.m_app with
  | none => simp [World.create_queue, happ, BackgroundApp.new]
  | some app =>
    simp only []
    rw [World.create_queue_of_app _ (app.on_idle w).1 rfl]
    exact (BackgroundApp.on_idle_view app w).2.1

/-- A controller that is closed and has no pending create request stays so in every step of the
program, unless the step is a `show_window` of this controller, which posts a create request for
it, or destroys the controller. -/
theorem Step.closed_until_show {w w1 : World} (hs : Step w w1) (this : Ptr)
    (hw : w.window_of this = some nullptr) (hq : this ∉ w.create_queue) :
    (w1.window_of this = some nullptr ∧ this ∉ w1.create_queue) ∨
    (∃ title, w1 = BackgroundAppRunner.create_window this title w) ∨
    w1.controllers this = none := by
  have hsame : ∀ w2, SameView w w2 →
      (w2.window_of this = some nullptr ∧ this ∉ w2.create_queue) := by
    intro w2 sv
    rw [sv.1, sv.2.2.2]
    exact ⟨hw, hq⟩
  cases hs with
  | new_controls_window queue =>
    refine Or.inl ⟨?_, hq⟩
    rw [World.window_of_store w.heap_top (ControlsWindow.new queue) rfl]
    unfold store
    split
    · rfl
    · exact hw
  | add_timer x interval func data queue =>
    exact Or.inl (hsame _ (sameView_add_timer x interval func data queue w))
  | kill_timer x timer => exact Or.inl (hsame _ (sameView_kill_timer x timer w))
  | show_window_post x title c hc hu =>
    by_cases hx : x = this
    · subst hx
      exact Or.inr (Or.inl ⟨title, rfl⟩)
    · obtain ⟨h1, _, h3⟩ := BackgroundAppRunner.create_window_view x title w
      refine Or.inl ⟨by rw [h1]; exact hw, ?_⟩
      rw [h3]
      simp [hq, Ne.symm hx]
  | show_window_resume x => exact Or.inl (hsame _ (sameView_start_all_timers x w))
  | update x => exact Or.inl (hsame _ (sameView_update x w))
  | push_update_event x event => exact Or.inl (hsame _ (sameView_push_update_event x event w))
  | process_events queue b => exact Or.inl (hsame _ (sameView_process_events queue b w))
  | destroy x =>
    obtain ⟨h1, h2⟩ := WindowBase.destroy_view x w
    by_cases hx : this = x
    · subst hx
      refine Or.inr (Or.inr ?_)
      rw [h1]
      simp [store]
    · refine Or.inl ⟨?_, by rw [h2]; exact hq⟩
      unfold World.window_of at hw ⊢
      rw [h1]
      simp only [store, if_neg hx]
      exact hw
  | on_idle => exact Or.inl (World.on_idle_closed w this hw hq)
  | on_hide_window window =>
    obtain ⟨h1, h2⟩ := World.on_hide_window_same_or_null window w this
    refine Or.inl ⟨?_, by rw [h2]; exact hq⟩
    rcases h1 with h | h
    · rw [h]
      exact hw
    · exact h
  | fire id timer _ => exact Or.inl (hsame _ (sameView_fire id timer w))

/-- Every step of the program keeps the property that a bound controller has no pending create
request. -/
theorem Step.preserves_bound_not_pending {w w1 : World} (hs : Step w w1)
    (h : ∀ x, w.Bound x → x ∉ w.create_queue) : ∀ x, w1.Bound x → x ∉ w1.create_queue := by
  have hsame : ∀ w2, SameView w w2 → ∀ x, w2.Bound x → x ∉ w2.create_queue := by
    intro w2 sv x hx
    rw [World.bound_iff, sv.1, ← World.bound_iff] at hx
    rw [sv.2.2.2]
    exact h x hx
  cases hs with
  | new_controls_window queue =>
    intro x hx
    show x ∉ w.create_queue
    apply h
    rw [World.bound_iff] at hx ⊢
    rw [World.window_of_store w.heap_top (ControlsWindow.new queue) rfl] at hx
    unfold store at hx
    split at hx
    · obtain ⟨p, hp, hne⟩ := hx
      cases hp
      exact absurd rfl hne
    · exact hx
  | add_timer x interval func data queue =>
    exact hsame _ (sameView_add_timer x interval func data queue w)
  | kill_timer x timer => exact hsame _ (sameView_kill_timer x timer w)
  | show_window_post y title c hc hu =>
    obtain ⟨h1, _, h3⟩ := BackgroundAppRunner.create_window_view y title w
    intro x hx
    rw [World.bound_iff, h1, ← World.bound_iff] at hx
    rw [h3]
    intro hm
    rcases List.mem_append.1 hm with hm | hm
    · exact h x hx hm
    · rw [List.mem_singleton.1 hm] at hx
      obtain ⟨c1, hc1, hb1⟩ := hx
      rw [hc] at hc1
      cases hc1
      exact hb1 hu
  | show_window_resume x => exact hsame _ (sameView_start_all_timers x w)
  | update x => exact hsame _ (sameView_update x w)
  | push_update_event x event => exact hsame _ (sameView_push_update_event x event w)
  | process_events queue b => exact hsame _ (sameView_process_events queue b w)
  | destroy y =>
    obtain ⟨h1, h2⟩ := WindowBase.destroy_view y w
    intro x hx
    rw [h2]
    apply h
    obtain ⟨c1, hc1, hb1⟩ := hx
    rw [h1] at hc1
    unfold store at hc1
    split at hc1
    · cases hc1
    · exact ⟨c1, hc1, hb1⟩
  | on_idle =>
    intro x _
    rw [World.on_idle_create_queue]
    simp
  | on_hide_window window =>
    intro x hx
    obtain ⟨h1, h2⟩ := World.on_hide_window_same_or_null window w x
    rw [h2]
    apply h
    rw [World.bound_iff] at hx ⊢
    obtain ⟨p, hp, hne⟩ := hx
    rcases h1 with g | g
    · exact ⟨p, g ▸ hp, hne⟩
    · rw [g] at hp
      cases hp
      exact absurd rfl hne
  | fire id timer _ => exact hsame _ (sameView_fire id timer w)

/-- In every reachable state a bound controller has no pending create request. -/
theorem Reachable.bound_not_pending {w : World} (hr : Reachable w) :
    ∀ x, w.Bound x → x ∉ w.create_queue := by
  induction hr with
  | init =>
    intro x hx
    obtain ⟨c, hc, _⟩ := hx
    cases hc
  | step w w1 _ hs ih => exact hs.preserves_bound_not_pending ih

/-- On a live controller `back_app_delete_window` stops the timers of the controller: every
live timer of its timer list is as before but with `m_is_running` false; and the controller is
left with a null window object, so `is_window_closed` answers true. The hide signal of the window
of a bound controller runs it, and so would a delete request processed for a live controller of
the bound list. In a reachable state a bound controller has no pending create request, the hide
hook keeps the pending create requests and `on_idle` leaves none; and a controller that is
closed and has no pending create request stays so in every step of the program, unless the step
is a `show_window` on it (which posts a create request for it) or destroys it. -/
theorem WindowBase.back_app_delete_window_closes (this : Ptr) (c : ControlsWindow) (w : World)
    (hc : w.controllers this = some c) :
    (∀ t ∈ c.m_timer_list, ∀ td, w.timers t = some td →
      (WindowBase.back_app_delete_window this w).timers t
        = some { td with m_is_running := false }) ∧
    (∃ c1, (WindowBase.back_app_delete_window this w).controllers this = some c1 ∧
      c1.m_window = nullptr ∧ c1.is_window_closed = true) ∧
    (∀ dq wl, this ∈ wl →
      BackgroundApp.process_delete_windows_loop (this :: dq) wl w
        = BackgroundApp.process_delete_windows_loop dq (wl.erase this)
            (WindowBase.back_app_delete_window this
              ((w.call (Call.close c.m_window)).call (Call.remove_window c.m_window)))) ∧
    (∀ rest, BackgroundApp.on_hide_window_loop c.m_window (this :: rest) w
      = (rest, WindowBase.back_app_delete_window this w)) ∧
    (Reachable w → c.m_window ≠ nullptr → this ∉ w.create_queue) ∧
    (∀ window, (w.on_hide_window window).create_queue = w.create_queue) ∧
    w.on_idle.create_queue = [] ∧
    (∀ w0 w1, Step w0 w1 →
      (∃ c0, w0.controllers this = some c0 ∧ c0.is_window_closed = true) →
      this ∉ w0.create_queue →
      ((∃ c1, w1.controllers this = some c1 ∧ c1.is_window_closed = true) ∧
        this ∉ w1.create_queue) ∨
      (∃ title, w1 = BackgroundAppRunner.create_window this title w0) ∨
      w1.controllers this = none) := by
  obtain ⟨h1, _, _, _, h5, _, _⟩ := WindowBase.back_app_delete_window_live this c w hc
  refine ⟨?_, ?_, ?_, ?_, ?_, ?_, World.on_idle_create_queue w, ?_⟩
  · intro t ht td htd
    rw [h5 t, if_pos ht, htd]
    rfl
  · refine ⟨{ c with m_window := nullptr,
                     delete_window_notified := c.delete_window_notified + 1 }, ?_, rfl, rfl⟩
    rw [h1]
    simp [store]
  · intro dq wl hm
    rw [BackgroundApp.process_delete_windows_loop]
    simp only [if_pos hm, World.get_window_live w this c hc]
  · intro rest
    rw [BackgroundApp.on_hide_window_loop]
    simp only [World.get_window_live w this c hc, if_true]
  · intro hr hb
    exact hr.bound_not_pending this ⟨c, hc, hb⟩
  · intro window
    exact (World.on_hide_window_same_or_null window w this).2
  · intro w0 w1 hs hcl hq
    rw [World.closed_iff] at hcl
    rcases hs.closed_until_show this hcl hq with h | h | h
    · exact Or.inl ⟨(World.closed_iff w1 this).2 h.1, h.2⟩
    · exact Or.inr (Or.inl h)
    · exact Or.inr (Or.inr h)

/-- An instance: the window of the controller 2 of `exampleShownWorld`, whose timer 3 is running,
is deleted while the controller is alive. -/
theorem WindowBase.back_app_delete_window_closes_witness :
    (exampleShownWorld.timers 3).map (fun t => t.m_is_running) = some true ∧
    ((WindowBase.back_app_delete_window 2 exampleShownWorld).timers 3).map
      (fun t => t.m_is_running) = some false ∧
    (WindowBase.back_app_delete_window 2 exampleShownWorld).timeouts = [] ∧
    ∃ c1, (WindowBase.back_app_delete_window 2 exampleShownWorld).controllers 2 = some c1 ∧
      c1.m_window = nullptr ∧ c1.is_window_closed = true := by
  have h := WindowBase.back_app_delete_window_closes 2 _ exampleShownWorld rfl
  exact ⟨by decide, by decide, by decide, h.2.1⟩

/-! ### Widgets -/

/-- C28. For the entry, the switch and the combo box, `get_value` with a null `io` returns false
and has nothing to store into; with `in_compare` true and a variable that already holds the
current value of the widget it returns false and leaves the variable unchanged; in every other
case it stores the current value into the variable and returns true. So after any `get_value`
with a variable, a `get_value` with `in_compare` true on the same variable, the widget not
having changed, returns false and leaves the variable as it is. -/
theorem EntryData.get_value_reports_change (entry : EntryData) (switch : SwitchData)
    (combo : ComboBoxData) (in_compare : Bool) :
    (entry.get_value none in_compare = (false, none) ∧
      (∀ text, in_compare = true → text = entry.m_text →
        entry.get_value (some text) in_compare = (false, some text)) ∧
      (∀ text, ¬ (in_compare = true ∧ text = entry.m_text) →
        entry.get_value (some text) in_compare = (true, some entry.m_text)) ∧
      (∀ text, entry.get_value (entry.get_value (some text) in_compare).2 true
        = (false, (entry.get_value (some text) in_compare).2))) ∧
    (switch.get_value none in_compare = (false, none) ∧
      (∀ value, in_compare = true → value = switch.m_value →
        switch.get_value (some value) in_compare = (false, some value)) ∧
      (∀ value, ¬ (in_compare = true ∧ value = switch.m_value) →
        switch.get_value (some value) in_compare = (true, some switch.m_value)) ∧
      (∀ value, switch.get_value (switch.get_value (some value) in_compare).2 true
        = (false, (switch.get_value (some value) in_compare).2))) ∧
    (combo.get_value none in_compare = (false, none) ∧
      (∀ value, in_compare = true → value = combo.m_value →
        combo.get_value (some value) in_compare = (false, some value)) ∧
      (∀ value, ¬ (in_compare = true ∧ value = combo.m_value) →
        combo.get_value (some value) in_compare = (true, some combo.m_value)) ∧
      (∀ value, combo.get_value (combo.get_value (some value) in_compare).2 true
        = (false, (combo.get_value (some value) in_compare).2))) := by
  refine ⟨⟨rfl, ?_, ?_, ?_⟩, ⟨rfl, ?_, ?_, ?_⟩, ⟨rfl, ?_, ?_, ?_⟩⟩
  · intro text hc ht
    simp [EntryData.get_value, hc, ht]
  · intro text h
    simp only [EntryData.get_value, if_neg h]
  · intro text
    by_cases h : in_compare = true ∧ text = entry.m_text
    · simp [EntryData.get_value, h.1, h.2]
    · simp [EntryData.get_value, if_neg h]
  · intro value hc ht
    simp [SwitchData.get_value, hc, ht]
  · intro value h
    simp only [SwitchData.get_value, if_neg h]
  · intro value
    by_cases h : in_compare = true ∧ value = switch.m_value
    · simp [SwitchData.get_value, h.1, h.2]
    · simp [SwitchData.get_value, if_neg h]
  · intro value hc ht
    simp [ComboBoxData.get_value, hc, ht]
  · intro value h
    simp only [ComboBoxData.get_value, if_neg h]
  · intro value
    by_cases h : in_compare = true ∧ value = combo.m_value
    · simp [ComboBoxData.get_value, h.1, h.2]
    · simp [ComboBoxData.get_value, if_neg h]

/-- C29. The code at the failing input: on the spin button `exampleSpinButton`, which does not
exist yet and whose initial value is 5 and initial wrap setting false, `set_wrap(true)` queues
nothing, but it leaves the initial wrap setting false and overwrites the initial value with 1;
the spin button that `create` then makes does not wrap and shows 1, and the variable of the
caller is set to 1. The sibling `set_numeric(true)` records its setting and keeps the initial
value. Before `create` the method `set_wrap` never changes the initial wrap setting. -/
theorem SpinButtonData.set_wrap_overwrites_initial_value :
    exampleSpinButton.m_spin = none ∧
    exampleSpinButton.m_initial.m_value = 5 ∧
    exampleSpinButton.m_initial.m_wrap = false ∧
    (exampleSpinButton.set_wrap true true).2 = { pushed := none, invoked := false } ∧
    (exampleSpinButton.set_wrap true true).1.m_initial.m_wrap = false ∧
    (exampleSpinButton.set_wrap true true).1.m_initial.m_value = 1 ∧
    (exampleSpinButton.set_wrap true true).1.create.m_spin.map (fun s => (s.wrap, s.value))
      = some (false, 1) ∧
    (exampleSpinButton.set_wrap true true).1.create.m_user_variable = some 1 ∧
    (exampleSpinButton.set_numeric true true).1.m_initial.m_numeric = true ∧
    (exampleSpinButton.set_numeric true true).1.m_initial.m_value = 5 ∧
    (∀ (spin : SpinButtonData) (in_wrap in_invoke_update : Bool), spin.m_spin = none →
      (spin.set_wrap in_wrap in_invoke_update).1
        = { spin with m_initial := { spin.m_initial with m_value := Double.ofBool in_wrap } }) := by
  refine ⟨rfl, rfl, rfl, rfl, rfl, rfl, rfl, rfl, rfl, rfl, ?_⟩
  intro spin in_wrap in_invoke_update h
  simp [SpinButtonData.set_wrap, h]

/-- C30. The code at the failing inputs. In `exampleEntryDone`, an entry with a done callback
and no changed callback, the signal `editing_done` queues a done event with the text "abc";
`process_done` on it sets the text variable of the caller but does not call the done callback.
In `exampleEntryChanged`, an entry with a changed callback and no done callback, the signal
queues the event as well, and `process_done` calls through the null done callback. In general
`process_done` calls `m_done_func` if and only if `m_changed_func` is not null, while
`process_changed` calls `m_changed_func` if and only if `m_changed_func` is not null. -/
theorem EntryData.process_done_tests_changed_func :
    exampleEntryDone.m_done_func = 7 ∧ exampleEntryDone.m_changed_func = nullptr ∧
    exampleEntryDone.queue_done.2.1
      = some { m_text := "abc", m_handler := WidgetHandler.process_done } ∧
    (EntryData.process_done { m_text := "abc", m_handler := WidgetHandler.process_done }
      exampleEntryDone.queue_done.1).1.m_user_text = some "abc" ∧
    (EntryData.process_done { m_text := "abc", m_handler := WidgetHandler.process_done }
      exampleEntryDone.queue_done.1).2 = [] ∧
    exampleEntryChanged.m_done_func = nullptr ∧ exampleEntryChanged.m_changed_func = 6 ∧
    exampleEntryChanged.queue_done.2.1
      = some { m_text := "abc", m_handler := WidgetHandler.process_done } ∧
    (EntryData.process_done { m_text := "abc", m_handler := WidgetHandler.process_done }
      exampleEntryChanged.queue_done.1).2 = [EntryCall.null_function_call 9 "abc"] ∧
    (∀ (event : EntryEvent) (entry : EntryData),
      (EntryData.process_done event entry).2
        = if entry.m_changed_func ≠ nullptr then
            [EntryCall.of entry.m_done_func entry.m_user_data event.m_text]
          else []) ∧
    (∀ (event : EntryEvent) (entry : EntryData),
      (EntryData.process_changed event entry).2
        = if entry.m_changed_func ≠ nullptr then
            [EntryCall.user_func entry.m_changed_func entry.m_user_data event.m_text]
          else []) := by
  refine ⟨rfl, rfl, by decide, by decide, by decide, rfl, rfl, by decide, by decide, ?_, ?_⟩
  · intro event entry
    unfold EntryData.process_done
    by_cases hu : entry.m_user_text ≠ none <;> by_cases hc : entry.m_changed_func ≠ nullptr <;>
      simp [hu, hc]
  · intro event entry
    unfold EntryData.process_changed
    by_cases hu : entry.m_user_text ≠ none <;> by_cases hc : entry.m_changed_func ≠ nullptr <;>
      simp [hu, hc, EntryCall.of]

/-! ### A drain tick in closed form -/

/-- One run of `on_idle` in closed form: the pending lists are emptied, the bound list and the
state are those of `BackgroundApp.drain`, and `quit` is called if the quit flag is set. -/
theorem BackgroundApp.on_idle_eq (app : BackgroundApp) (w : World) :
    app.on_idle w
      = ({ app with
            m_create_win_queue := []
            m_win_title_queue := app.m_win_title_queue.drop app.m_create_win_queue.length
            m_update_win_queue := []
            m_delete_win_queue := []
            m_connect_timer_queue := []
            m_disconnect_timer_queue := []
            m_window_list := (app.drain w).1 },
          if app.m_quit then (app.drain w).2.call Call.quit else (app.drain w).2) := by
  unfold BackgroundApp.on_idle BackgroundApp.drain
  simp only [BackgroundApp.process_disconnect_timers, BackgroundApp.process_connect_timers,
    BackgroundApp.process_delete_windows, BackgroundApp.process_update_windows,
    BackgroundApp.process_create_windows,
    BackgroundApp.process_create_windows_loop_eq_foldl,
    BackgroundApp.process_update_windows_loop_eq_foldl,
    BackgroundApp.process_delete_windows_loop_eq_foldl,
    BackgroundApp.process_connect_timers_loop_eq_foldl,
    BackgroundApp.process_disconnect_timers_loop_eq_foldl]
  split <;> rfl

/-- Create requests for controllers of the bound list are dropped, each with its title. -/
theorem BackgroundApp.foldl_create_request_skip (cq : List Ptr) (tq : List (Option String))
    (wl : List Ptr) (w : World) (hc : ∀ x ∈ cq, x ∈ wl) (hlen : cq.length ≤ tq.length) :
    cq.foldl BackgroundApp.create_request (tq, wl, w) = (tq.drop cq.length, wl, w) := by
  induction cq generalizing tq with
  | nil => rfl
  | cons x cq ih =>
    cases tq with
    | nil => simp at hlen
    | cons t tq =>
      rw [List.foldl_cons]
      have hx : x ∈ wl := hc x (List.mem_cons_self _ _)
      have h1 : BackgroundApp.create_request (t :: tq, wl, w) x = (tq, wl, w) := by
        simp [BackgroundApp.create_request, hx]
      rw [h1, ih tq (fun y hy => hc y (List.mem_cons_of_mem _ hy))
        (Nat.le_of_succ_le_succ hlen)]
      rfl

/-- Update requests for controllers that are not in the bound list are dropped. -/
theorem BackgroundApp.foldl_update_request_skip (uq wl : List Ptr) (w : World)
    (hu : ∀ x ∈ uq, x ∉ wl) : uq.foldl (BackgroundApp.update_request wl) w = w := by
  induction uq with
  | nil => rfl
  | cons x uq ih =>
    rw [List.foldl_cons]
    have h1 : BackgroundApp.update_request wl w x = w := by
      simp [BackgroundApp.update_request, hu x (List.mem_cons_self _ _)]
    rw [h1, ih (fun y hy => hu y (List.mem_cons_of_mem _ hy))]

/-- Delete requests for controllers that are not in the bound list are dropped. -/
theorem BackgroundApp.foldl_delete_request_skip (dq wl : List Ptr) (w : World)
    (hd : ∀ x ∈ dq, x ∉ wl) : dq.foldl BackgroundApp.delete_request (wl, w) = (wl, w) := by
  induction dq with
  | nil => rfl
  | cons x dq ih =>
    rw [List.foldl_cons]
    have h1 : BackgroundApp.delete_request (wl, w) x = (wl, w) := by
      simp [BackgroundApp.delete_request, hd x (List.mem_cons_self _ _)]
    rw [h1, ih (fun y hy => hd y (List.mem_cons_of_mem _ hy))]

/-- C25. In the loops of a drain tick a create request for a controller that is in the bound
list, and an update or a delete request for a controller that is not, is taken off its pending
list (the create request with its title) and nothing else happens: the loop goes on with the same
bound list and the same state. So a tick whose create requests are all for controllers of the
bound list, whose update and delete requests are all for controllers outside it, and which has
no timer request and no quit flag, empties the pending lists and changes nothing else: no call
is made, and the bound list, the controllers and the rest of the state are as before. -/
theorem BackgroundApp.on_idle_skips_by_bound_state (app : BackgroundApp) (w : World) :
    (∀ interface cq title tq wl, interface ∈ wl →
      BackgroundApp.process_create_windows_loop (interface :: cq) (title :: tq) wl w
        = BackgroundApp.process_create_windows_loop cq tq wl w) ∧
    (∀ interface uq wl, interface ∉ wl →
      BackgroundApp.process_update_windows_loop (interface :: uq) wl w
        = BackgroundApp.process_update_windows_loop uq wl w) ∧
    (∀ interface dq wl, interface ∉ wl →
      BackgroundApp.process_delete_windows_loop (interface :: dq) wl w
        = BackgroundApp.process_delete_windows_loop dq wl w) ∧
    ((∀ x ∈ app.m_create_win_queue, x ∈ app.m_window_list) →
      app.m_create_win_queue.length ≤ app.m_win_title_queue.length →
      (∀ x ∈ app.m_update_win_queue, x ∉ app.m_window_list) →
      (∀ x ∈ app.m_delete_win_queue, x ∉ app.m_window_list) →
      app.m_connect_timer_queue = [] → app.m_disconnect_timer_queue = [] →
      app.m_quit = false →
      app.on_idle w
        = ({ app with
              m_create_win_queue := []
              m_win_title_queue := app.m_win_title_queue.drop app.m_create_win_queue.length
              m_update_win_queue := []
              m_delete_win_queue := [] }, w)) := by
  refine ⟨?_, ?_, ?_, ?_⟩
  · intro interface cq title tq wl h
    rw [BackgroundApp.process_create_windows_loop]
    simp only [if_pos h, List.tail_cons]
  · intro interface uq wl h
    rw [BackgroundApp.process_update_windows_loop]
    simp only [if_neg h]
  · intro interface dq wl h
    rw [BackgroundApp.process_delete_windows_loop]
    simp only [if_neg h]
  · intro hc hlen hu hd hs hp hq
    have hdr : app.drain w = (app.m_window_list, w) := by
      unfold BackgroundApp.drain
      simp only [BackgroundApp.foldl_create_request_skip _ _ _ _ hc hlen,
        BackgroundApp.foldl_update_request_skip _ _ _ hu,
        BackgroundApp.foldl_delete_request_skip _ _ _ hd, hs, hp, List.foldl_nil]
    rw [BackgroundApp.on_idle_eq, hdr, hq]
    simp only [Bool.false_eq_true, if_false]
    cases app
    simp_all

/-- Witness for C25: the tick in `exampleSkippedRequests` makes no call, keeps the bound list and
the controller, and empties the three pending lists. -/
theorem BackgroundApp.on_idle_skips_by_bound_state_witness :
    exampleSkippedRequests.window_list = [2] ∧
    (exampleSkippedRequests.runner.m_app.map
      (fun app => (app.m_create_win_queue, app.m_update_win_queue, app.m_delete_win_queue)))
      = some ([2], [9], [9]) ∧
    exampleSkippedRequests.on_idle.trace = exampleSkippedRequests.trace ∧
    exampleSkippedRequests.on_idle.controllers = exampleSkippedRequests.controllers ∧
    exampleSkippedRequests.on_idle.window_list = [2] ∧
    (exampleSkippedRequests.on_idle.runner.m_app.map
      (fun app => (app.m_create_win_queue, app.m_update_win_queue, app.m_delete_win_queue)))
      = some ([], [], []) := by
  have h := (BackgroundApp.on_idle_skips_by_bound_state
    (exampleSkippedRequests.runner.m_app.getD BackgroundApp.new) exampleSkippedRequests).2.2.2
    (by decide) (by decide) (by decide) (by decide) (by decide) (by decide) (by decide)
  have h1 : exampleSkippedRequests.on_idle
      = (((exampleSkippedRequests.runner.m_app.getD BackgroundApp.new).on_idle
          exampleSkippedRequests).2.set_app
          ((exampleSkippedRequests.runner.m_app.getD BackgroundApp.new).on_idle
            exampleSkippedRequests).1) := rfl
  rw [h1, h]
  exact ⟨by decide, by decide, rfl, rfl, by decide, by decide⟩

/-! ### A second drain tick -/

/-- With all pending lists empty and the quit flag unset, `on_idle` changes nothing. -/
theorem BackgroundApp.on_idle_of_empty (app : BackgroundApp) (w : World)
    (h1 : app.m_create_win_queue = []) (h2 : app.m_update_win_queue = [])
    (h3 : app.m_delete_win_queue = []) (h4 : app.m_connect_timer_queue = [])
    (h5 : app.m_disconnect_timer_queue = []) (hq : app.m_quit = false) :
    app.on_idle w = (app, w) := by
  have hdr : app.drain w = (app.m_window_list, w) := by
    unfold BackgroundApp.drain
    simp only [h1, h2, h3, h4, h5, List.foldl_nil]
  rw [BackgroundApp.on_idle_eq, hdr, hq]
  simp only [Bool.false_eq_true, if_false]
  cases app
  simp_all

/-- C26. A drain tick leaves the five pending lists empty. So with the quit flag unset a second
tick right after it, with nothing posted in between, makes no call and changes nothing: it
returns the executor and the state the first tick left, and `on_idle` after `on_idle` is
`on_idle`, on the executor and on the whole state. -/
theorem BackgroundApp.on_idle_twice (app : BackgroundApp) (w : World)
    (hq : app.m_quit = false) :
    (app.on_idle w).1.m_create_win_queue = [] ∧
    (app.on_idle w).1.m_update_win_queue = [] ∧
    (app.on_idle w).1.m_delete_win_queue = [] ∧
    (app.on_idle w).1.m_connect_timer_queue = [] ∧
    (app.on_idle w).1.m_disconnect_timer_queue = [] ∧
    (app.on_idle w).1.on_idle (app.on_idle w).2 = app.on_idle w ∧
    (w.runner.m_app = some app → w.on_idle.on_idle = w.on_idle) := by
  have h := BackgroundApp.on_idle_eq app w
  have e1 : (app.on_idle w).1.m_create_win_queue = [] := by rw [h]
  have e2 : (app.on_idle w).1.m_update_win_queue = [] := by rw [h]
  have e3 : (app.on_idle w).1.m_delete_win_queue = [] := by rw [h]
  have e4 : (app.on_idle w).1.m_connect_timer_queue = [] := by rw [h]
  have e5 : (app.on_idle w).1.m_disconnect_timer_queue = [] := by rw [h]
  have e6 : (app.on_idle w).1.m_quit = false := by rw [h]; exact hq
  refine ⟨e1, e2, e3, e4, e5, BackgroundApp.on_idle_of_empty _ _ e1 e2 e3 e4 e5 e6, ?_⟩
  intro happ
  have hw : w.on_idle = (app.on_idle w).2.set_app (app.on_idle w).1 := by
    unfold World.on_idle
    rw [happ]
  have hr : ((app.on_idle w).2.set_app (app.on_idle w).1).runner.m_app
      = some (app.on_idle w).1 := rfl
  rw [hw]
  conv_lhs => unfold World.on_idle
  rw [hr]
  simp only [BackgroundApp.on_idle_of_empty _ _ e1 e2 e3 e4 e5 e6]
  rfl

/-- Witness for C26: in `exampleTwoUpdates` two update requests are pending; the first tick
refreshes the window twice, a second tick changes nothing. -/
theorem BackgroundApp.on_idle_twice_witness :
    exampleTwoUpdates.refreshes 2 = 0 ∧
    exampleTwoUpdates.on_idle.refreshes 2 = 2 ∧
    exampleTwoUpdates.on_idle.on_idle = exampleTwoUpdates.on_idle :=
  ⟨by decide, by decide,
    (BackgroundApp.on_idle_twice (exampleTwoUpdates.runner.m_app.getD BackgroundApp.new)
      exampleTwoUpdates (by decide)).2.2.2.2.2.2 rfl⟩

/-! ### A start and a stop request for one timer in the same tick -/

theorem WindowBase.back_app_update_window_timers (x : Ptr) (w : World) :
    (WindowBase.back_app_update_window x w).timers = w.timers ∧
    (WindowBase.back_app_update_window x w).timeouts = w.timeouts := by
  have hp : ∀ (y : Ptr) (b : Bool) (w : World),
      (WindowBase.process_update_events y b w).timers = w.timers ∧
      (WindowBase.process_update_events y b w).timeouts = w.timeouts := by
    intro y b w
    unfold WindowBase.process_update_events
    split
    · exact ⟨rfl, rfl⟩
    · rename_i c _
      have h : (c.m_background_queue.process_events b w).2.timers = w.timers ∧
          (c.m_background_queue.process_events b w).2.timeouts = w.timeouts := by
        simp [EventQueue.process_events, EventQueue.process_events_loop_eq,
          foldl_invoke_handler_eq]
      simp only []
      split
      · exact h
      · exact h
  unfold WindowBase.back_app_update_window ControlsWindow.update_window
    WindowData.update_widgets
  split
  · exact ⟨rfl, rfl⟩
  · split
    · exact ⟨rfl, rfl⟩
    · split
      · exact ⟨rfl, rfl⟩
      · exact hp _ _ _

theorem WindowBase.back_app_create_window_timers (x : Ptr) (t : Option String) (w : World) :
    (WindowBase.back_app_create_window x t w).2.timers = w.timers ∧
    (WindowBase.back_app_create_window x t w).2.timeouts = w.timeouts := by
  unfold WindowBase.back_app_create_window
  split <;> exact ⟨rfl, rfl⟩

/-- A timer that is alive before `back_app_delete_window` is alive after it. -/
theorem WindowBase.back_app_delete_window_keeps_timer (x : Ptr) (w : World) (t : Ptr)
    (h : (w.timers t).isSome) : ((WindowBase.back_app_delete_window x w).timers t).isSome := by
  cases hc : w.controllers x with
  | none =>
    unfold WindowBase.back_app_delete_window
    rw [hc]
    exact h
  | some c =>
    obtain ⟨_, _, _, _, h5, _⟩ := WindowBase.back_app_delete_window_live x c w hc
    rw [h5 t]
    split
    · cases ht : w.timers t with
      | none => rw [ht] at h; exact absurd h (by simp)
      | some td => rfl
    · exact h

/-- A timer that is alive before the window requests of a tick are processed is alive after
them. -/
theorem BackgroundApp.window_requests_keep_timer (app : BackgroundApp) (w : World) (t : Ptr)
    (h : (w.timers t).isSome) :
    (((app.m_delete_win_queue.foldl BackgroundApp.delete_request
      ((app.m_create_win_queue.foldl BackgroundApp.create_request
          (app.m_win_title_queue, app.m_window_list, w)).2.1,
        app.m_update_win_queue.foldl
          (BackgroundApp.update_request
            (app.m_create_win_queue.foldl BackgroundApp.create_request
              (app.m_win_title_queue, app.m_window_list, w)).2.1)
          (app.m_create_win_queue.foldl BackgroundApp.create_request
            (app.m_win_title_queue, app.m_window_list, w)).2.2)).2).timers t).isSome := by
  have hc : ∀ (l : List Ptr) (s : List (Option String) × List Ptr × World),
      (s.2.2.timers t).isSome →
      ((l.foldl BackgroundApp.create_request s).2.2.timers t).isSome := by
    intro l
    induction l with
    | nil => intro s hs; exact hs
    | cons x l ih =>
      intro s hs
      rw [List.foldl_cons]
      apply ih
      unfold BackgroundApp.create_request
      simp only []
      split
      · split <;> exact hs
      · show ((WindowBase.back_app_create_window x _ _).2.timers t).isSome
        rw [(WindowBase.back_app_create_window_timers x _ _).1]
        split <;> exact hs
  have hu : ∀ (wl l : List Ptr) (w : World), (w.timers t).isSome →
      ((l.foldl (BackgroundApp.update_request wl) w).timers t).isSome := by
    intro wl l
    induction l with
    | nil => intro w hw; exact hw
    | cons x l ih =>
      intro w hw
      rw [List.foldl_cons]
      apply ih
      unfold BackgroundApp.update_request
      split
      · rw [(WindowBase.back_app_update_window_timers x w).1]
        exact hw
      · exact hw
  have hd : ∀ (l : List Ptr) (s : List Ptr × World), (s.2.timers t).isSome →
      ((l.foldl BackgroundApp.delete_request s).2.timers t).isSome := by
    intro l
    induction l with
    | nil => intro s hs; exact hs
    | cons x l ih =>
      intro s hs
      rw [List.foldl_cons]
      apply ih
      unfold BackgroundApp.delete_request
      split
      · apply WindowBase.back_app_delete_window_keeps_timer
        cases hg : s.2.controllers x <;> simp only [World.get_window, hg] <;> exact hs
      · exact hs
  exact hd _ _ (hu _ _ _ (hc _ _ h))

/-- After `connect` on a live timer the timer is running; `connect` on any timer keeps a live
timer alive and a running timer running. -/
theorem TimerData.connect_running (t x : Ptr) (w : World) :
    ((w.timers t).isSome → ((TimerData.connect x w).timers t).isSome) ∧
    ((w.timers t).isSome → x = t →
      ∃ td, (TimerData.connect x w).timers t = some td ∧ td.m_is_running = true) ∧
    ((∃ td, w.timers t = some td ∧ td.m_is_running = true) →
      ∃ td, (TimerData.connect x w).timers t = some td ∧ td.m_is_running = true) := by
  unfold TimerData.connect
  cases hx : w.timers x with
  | none =>
    refine ⟨fun h => h, ?_, fun h => h⟩
    intro h hxt
    rw [hxt] at hx
    rw [hx] at h
    exact absurd h (by simp)
  | some tx =>
    refine ⟨?_, ?_, ?_⟩
    · intro h
      by_cases hxt : t = x
      · simp [store, hxt]
      · simp only [store, if_neg hxt]
        exact h
    · intro _ hxt
      refine ⟨{ tx with mTimerConnection := some w.next_connection, m_is_running := true },
        ?_, rfl⟩
      simp [store, hxt]
    · rintro ⟨td, htd, hr⟩
      by_cases hxt : t = x
      · refine ⟨{ tx with mTimerConnection := some w.next_connection, m_is_running := true },
          ?_, rfl⟩
        simp [store, hxt]
      · exact ⟨td, by simp only [store, if_neg hxt]; exact htd, hr⟩

/-- After the start requests of a tick a live timer that is among them is running. -/
theorem foldl_connect_running (l : List Ptr) (w : World) (t : Ptr) (h : (w.timers t).isSome)
    (ht : t ∈ l) :
    ∃ td, (l.foldl (fun w timer => TimerData.connect timer w) w).timers t = some td ∧
      td.m_is_running = true := by
  have hk : ∀ (l : List Ptr) (w : World),
      (∃ td, w.timers t = some td ∧ td.m_is_running = true) →
      ∃ td, (l.foldl (fun w timer => TimerData.connect timer w) w).timers t = some td ∧
        td.m_is_running = true := by
    intro l
    induction l with
    | nil => intro w hw; exact hw
    | cons x l ih =>
      intro w hw
      rw [List.foldl_cons]
      exact ih _ ((TimerData.connect_running t x w).2.2 hw)
  induction l generalizing w with
  | nil => simp at ht
  | cons x l ih =>
    rw [List.foldl_cons]
    by_cases hx : x = t
    · exact hk l _ ((TimerData.connect_running t x w).2.1 h hx)
    · have hm : t ∈ l := by
        rcases List.mem_cons.1 ht with h1 | h1
        · exact absurd h1.symm hx
        · exact h1
      exact ih _ ((TimerData.connect_running t x w).1 h) hm

/-- The registration of a stopped timer stays cancelled: if the connection of the timer `t`,
when it is not running, refers to no registration of the main loop, that is still so after
`disconnect` on any timer. -/
theorem TimerData.disconnect_registration (t x : Ptr) (w : World)
    (h : ∀ td, w.timers t = some td → td.m_is_running = false →
      ∀ id, td.mTimerConnection = some id → ∀ p, (id, p) ∉ w.timeouts) :
    ∀ td, (TimerData.disconnect x w).timers t = some td → td.m_is_running = false →
      ∀ id, td.mTimerConnection = some id → ∀ p, (id, p) ∉ (TimerData.disconnect x w).timeouts := by
  unfold TimerData.disconnect
  cases hx : w.timers x with
  | none => exact h
  | some tx =>
    simp only []
    split
    · exact h
    · rename_i hrun
      intro td htd hr id hid p
      by_cases hxt : t = x
      · simp only [store, if_pos hxt, Option.some.injEq] at htd
        subst htd
        simp only [] at hid
        rw [hid]
        simp [disconnect_connection]
      · simp only [store, if_neg hxt] at htd
        have h0 := h td htd hr id hid p
        cases hcx : tx.mTimerConnection with
        | none => simpa [disconnect_connection] using h0
        | some i =>
          simp only [disconnect_connection]
          intro hm
          exact h0 (List.mem_of_mem_filter hm)

theorem foldl_disconnect_registration (l : List Ptr) (t : Ptr) (w : World)
    (h : ∀ td, w.timers t = some td → td.m_is_running = false →
      ∀ id, td.mTimerConnection = some id → ∀ p, (id, p) ∉ w.timeouts) :
    ∀ td, (l.foldl (fun w timer => TimerData.disconnect timer w) w).timers t = some td →
      td.m_is_running = false → ∀ id, td.mTimerConnection = some id →
      ∀ p, (id, p) ∉ (l.foldl (fun w timer => TimerData.disconnect timer w) w).timeouts := by
  induction l generalizing w with
  | nil => exact h
  | cons x l ih =>
    rw [List.foldl_cons]
    exact ih _ (TimerData.disconnect_registration t x w h)

/-- If a start request and a stop request for the same live timer were both pending when a drain
tick runs, then after the tick the timer would be alive and not running, and the registration
its connection refers to would not be in the main loop any more: the start list is processed as
a whole before the stop list. -/
theorem BackgroundApp.on_idle_start_and_stop (app : BackgroundApp) (w : World) (t : Ptr)
    (hlive : (w.timers t).isSome) (hstart : t ∈ app.m_connect_timer_queue)
    (hstop : t ∈ app.m_disconnect_timer_queue) :
    ∃ td, (app.on_idle w).2.timers t = some td ∧ td.m_is_running = false ∧
      ∀ id, td.mTimerConnection = some id → ∀ p, (id, p) ∉ (app.on_idle w).2.timeouts := by
  have hq : ∀ w1 : World, ((if app.m_quit then w1.call Call.quit else w1).timers = w1.timers) ∧
      ((if app.m_quit then w1.call Call.quit else w1).timeouts = w1.timeouts) := by
    intro w1
    split <;> exact ⟨rfl, rfl⟩
  rw [BackgroundApp.on_idle_eq]
  simp only [(hq _).1, (hq _).2]
  unfold BackgroundApp.drain
  simp only []
  obtain ⟨td, htd, hrun⟩ := foldl_connect_running app.m_connect_timer_queue _ t
    (BackgroundApp.window_requests_keep_timer app w t hlive) hstart
  have hreg := foldl_disconnect_registration app.m_disconnect_timer_queue t _
    (fun td1 h1 hr1 => by
      rw [htd] at h1
      cases h1
      rw [hrun] at hr1
      exact absurd hr1 (by simp))
  have hstopd := foldl_disconnect_timers app.m_disconnect_timer_queue
    (app.m_connect_timer_queue.foldl (fun w timer => TimerData.connect timer w)
      (app.m_delete_win_queue.foldl BackgroundApp.delete_request
      ((app.m_create_win_queue.foldl BackgroundApp.create_request
          (app.m_win_title_queue, app.m_window_list, w)).2.1,
        app.m_update_win_queue.foldl
          (BackgroundApp.update_request
            (app.m_create_win_queue.foldl BackgroundApp.create_request
              (app.m_win_title_queue, app.m_window_list, w)).2.1)
          (app.m_create_win_queue.foldl BackgroundApp.create_request
            (app.m_win_title_queue, app.m_window_list, w)).2.2)).2) t
  rw [if_pos hstop, htd] at hstopd
  exact ⟨_, hstopd, rfl, hreg _ hstopd rfl⟩

/-! ### Timers and the deletion of windows and timers -/

/-- The state `exampleClosedBeforeStart` is reachable. -/
theorem exampleClosedBeforeStart_reachable : Reachable exampleClosedBeforeStart :=
  Reachable.step _ _
    (Reachable.step _ _
      (Reachable.step _ _
        (Reachable.step _ _ exampleTimerWorld_reachable
          (Step.show_window_post exampleTimerWorld 2 (some "Main") _ rfl rfl))
        (Step.on_idle _))
      (Step.show_window_resume _ 2))
    (Step.on_hide_window _ 4)

/-- The state `exampleKilledTimer` is reachable. -/
theorem exampleKilledTimer_reachable : Reachable exampleKilledTimer :=
  Reachable.step _ _ exampleShownWorld_reachable (Step.kill_timer _ 2 3)

/-- The state `exampleKilledBeforeStart` is reachable. -/
theorem exampleKilledBeforeStart_reachable : Reachable exampleKilledBeforeStart :=
  Reachable.step _ _
    (Reachable.step _ _
      (Reachable.step _ _
        (Reachable.step _ _ exampleTimerWorld_reachable
          (Step.show_window_post exampleTimerWorld 2 (some "Main") _ rfl rfl))
        (Step.on_idle _))
      (Step.show_window_resume _ 2))
    (Step.kill_timer _ 2 3)

/-- C22. The code at the failing input: `exampleClosedBeforeStart` is reachable; in it the window
of the controller 2 has been deleted by the hide hook (the controller has no window object and
the bound list is empty), its timer 3 is stopped and the start request that `show_window` posted
for it is pending. The next drain tick processes the start request: at the end of the tick the
controller is still unbound and its timer is running, with a registration in the main loop. The
registration then fires, and the user callback of the timer runs when the worker processes its
event queue. -/
theorem World.timer_started_after_window_deleted :
    Reachable exampleClosedBeforeStart ∧
    (exampleClosedBeforeStart.controllers 2).map (fun c => (c.m_window, c.m_timer_list))
      = some (nullptr, [3]) ∧
    exampleClosedBeforeStart.window_list = [] ∧
    (exampleClosedBeforeStart.timers 3).map (fun t => t.m_is_running) = some false ∧
    exampleClosedBeforeStart.runner.m_app.map (fun app => app.m_connect_timer_queue)
      = some [3] ∧
    (exampleClosedBeforeStart.on_idle.controllers 2).map (fun c => (c.m_window, c.m_timer_list))
      = some (nullptr, [3]) ∧
    exampleClosedBeforeStart.on_idle.window_list = [] ∧
    (exampleClosedBeforeStart.on_idle.timers 3).map (fun t => t.m_is_running) = some true ∧
    exampleClosedBeforeStart.on_idle.timeouts = [(0, 3)] ∧
    ((exampleClosedBeforeStart.on_idle.fire 0 3).process_events
        WindowBase.get_user_global_queue false).trace
      = exampleClosedBeforeStart.on_idle.trace ++ [Call.timer_event_func 7 8] := by
  refine ⟨exampleClosedBeforeStart_reachable, by decide, by decide, by decide, by decide,
    by decide, by decide, by decide, by decide, by decide⟩

/-- C23. The code at the failing input: `exampleKilledTimer` is reachable; in it the stop list
of the executor holds the timer 3, which `kill_timer` has freed already, and the registration of
the timer is still in the main loop. The next drain tick runs `disconnect` on the freed timer
and leaves the registration in place; the registration then calls into the freed timer. In
`exampleKilledBeforeStart`, reachable as well, the start list holds the freed timer too, and the
next tick runs `connect` and `disconnect` on it. -/
theorem WindowBase.kill_timer_frees_pending_handle :
    Reachable exampleKilledTimer ∧
    exampleKilledTimer.runner.m_app.map (fun app => app.m_disconnect_timer_queue) = some [3] ∧
    exampleKilledTimer.timers 3 = none ∧
    exampleKilledTimer.timeouts = [(0, 3)] ∧
    exampleKilledTimer.on_idle.trace = exampleKilledTimer.trace ++ [Call.invalid_access 3] ∧
    exampleKilledTimer.on_idle.timeouts = [(0, 3)] ∧
    (exampleKilledTimer.on_idle.fire 0 3).trace
      = exampleKilledTimer.on_idle.trace ++ [Call.invalid_access 3] ∧
    Reachable exampleKilledBeforeStart ∧
    exampleKilledBeforeStart.runner.m_app.map
      (fun app => (app.m_connect_timer_queue, app.m_disconnect_timer_queue))
      = some ([3], [3]) ∧
    exampleKilledBeforeStart.timers 3 = none ∧
    exampleKilledBeforeStart.on_idle.trace
      = exampleKilledBeforeStart.trace ++ [Call.invalid_access 3, Call.invalid_access 3] := by
  refine ⟨exampleKilledTimer_reachable, by decide, by decide, by decide, by decide, by decide,
    by decide, exampleKilledBeforeStart_reachable, by decide, by decide, by decide⟩

/-! ### The create queues and the condition of the bound list, step by step -/

theorem SameCreateQueues.of_runner {w w1 : World} (h : w1.runner = w.runner) :
    SameCreateQueues w w1 := by
  simp [SameCreateQueues, World.create_queue, World.title_queue, World.window_cond_notified, h]

theorem SameCreateQueues.followedBy {w w1 w2 : World} (h1 : SameCreateQueues w w1)
    (h2 : SameCreateQueues w1 w2) : SameCreateQueues w w2 :=
  ⟨h2.1.trans h1.1, h2.2.1.trans h1.2.1, h2.2.2.trans h1.2.2⟩

theorem sameCreateQueues_delete_window (x : Ptr) (w : World) :
    SameCreateQueues w (BackgroundAppRunner.delete_window x w) := by
  unfold BackgroundAppRunner.delete_window
  cases h : w.runner.m_app with
  | none => exact SameCreateQueues.of_runner rfl
  | some app =>
    simp [SameCreateQueues, World.create_queue, World.title_queue, World.window_cond_notified,
      World.set_app, h, BackgroundApp.post_delete_window]

theorem sameCreateQueues_update_window (x : Ptr) (w : World) :
    SameCreateQueues w (BackgroundAppRunner.update_window x w) := by
  unfold BackgroundAppRunner.update_window
  cases h : w.runner.m_app with
  | none => exact SameCreateQueues.of_runner rfl
  | some app =>
    simp [SameCreateQueues, World.create_queue, World.title_queue, World.window_cond_notified,
      World.set_app, h, BackgroundApp.post_update_window]

theorem sameCreateQueues_connect_timer (x : Ptr) (w : World) :
    SameCreateQueues w (BackgroundAppRunner.connect_timer x w) := by
  unfold BackgroundAppRunner.connect_timer
  cases h : w.runner.m_app with
  | none => exact SameCreateQueues.of_runner rfl
  | some app =>
    simp [SameCreateQueues, World.create_queue, World.title_queue, World.window_cond_notified,
      World.set_app, h, BackgroundApp.post_connect_timer]

theorem sameCreateQueues_disconnect_timer (x : Ptr) (w : World) :
    SameCreateQueues w (BackgroundAppRunner.disconnect_timer x w) := by
  unfold BackgroundAppRunner.disconnect_timer
  cases h : w.runner.m_app with
  | none => exact SameCreateQueues.of_runner rfl
  | some app =>
    simp [SameCreateQueues, World.create_queue, World.title_queue, World.window_cond_notified,
      World.set_app, h, BackgroundApp.post_disconnect_timer]

theorem sameCreateQueues_add_timer (this interval func data queue : Ptr) (w : World) :
    SameCreateQueues w (WindowBase.add_timer this interval func data queue w).2 := by
  unfold WindowBase.add_timer
  split <;> exact SameCreateQueues.of_runner rfl

theorem sameCreateQueues_kill_timer (this timer : Ptr) (w : World) :
    SameCreateQueues w (WindowBase.kill_timer this timer w) := by
  unfold WindowBase.kill_timer
  split
  · exact SameCreateQueues.of_runner rfl
  · rename_i c hc
    split
    · exact SameCreateQueues.of_runner rfl
    · rename_i hne
      simp only [WindowBase.kill_timer_loop_eq timer hne, if_neg hne]
      by_cases hm : timer ∈ c.m_timer_list
      · simp only [if_pos hm]
        exact ((sameCreateQueues_disconnect_timer timer w).followedBy
          (SameCreateQueues.of_runner (delete_timer_runner timer _))).followedBy
          (SameCreateQueues.of_runner rfl)
      · simp only [if_neg hm]
        exact SameCreateQueues.of_runner rfl

theorem sameCreateQueues_start_all_timers (this : Ptr) (w : World) :
    SameCreateQueues w (WindowBase.start_all_timers this w) := by
  unfold WindowBase.start_all_timers
  split
  · exact SameCreateQueues.of_runner rfl
  · rename_i c hc
    clear hc
    generalize c.m_timer_list = l
    induction l generalizing w with
    | nil => exact SameCreateQueues.of_runner rfl
    | cons t l ih =>
      rw [List.foldl_cons]
      exact (sameCreateQueues_connect_timer t w).followedBy (ih _)

theorem sameCreateQueues_update (this : Ptr) (w : World) :
    SameCreateQueues w (WindowBase.update this w) := by
  unfold WindowBase.update
  split
  · exact SameCreateQueues.of_runner rfl
  · split
    · exact SameCreateQueues.of_runner rfl
    · exact sameCreateQueues_update_window this w

theorem sameCreateQueues_push_update_event (this : Ptr) (event : EventData) (w : World) :
    SameCreateQueues w (WindowBase.push_update_event this event w) := by
  unfold WindowBase.push_update_event
  split <;> exact SameCreateQueues.of_runner rfl

theorem sameCreateQueues_process_events (queue : Ptr) (b : Bool) (w : World) :
    SameCreateQueues w (w.process_events queue b) := by
  obtain ⟨_, _, h3⟩ := EventQueue.process_events_view (w.queues queue) b w
  unfold World.process_events
  exact SameCreateQueues.of_runner h3

theorem sameCreateQueues_fire (id : Nat) (timer : Ptr) (w : World) :
    SameCreateQueues w (w.fire id timer) := by
  have hq : (TimerData.queue_timer_event timer w).2.runner = w.runner := by
    unfold TimerData.queue_timer_event
    split
    · rfl
    · split <;> rfl
  simp only [World.fire]
  split
  · exact SameCreateQueues.of_runner hq
  · exact SameCreateQueues.of_runner hq

theorem sameCreateQueues_destroy (this : Ptr) (w : World) :
    SameCreateQueues w (WindowBase.destroy this w) := by
  unfold WindowBase.destroy
  exact ((sameCreateQueues_kill_timer this nullptr w).followedBy
    (sameCreateQueues_delete_window this _)).followedBy (SameCreateQueues.of_runner rfl)

/-- The create queues and the condition of the bound list after `create_window` of the runner:
the request is appended to both queues, and no `notify_all` call is made. -/
theorem BackgroundAppRunner.create_window_queues (this : Ptr) (title : Option String)
    (w : World) :
    (BackgroundAppRunner.create_window this title w).create_queue = w.create_queue ++ [this] ∧
    (BackgroundAppRunner.create_window this title w).title_queue = w.title_queue ++ [title] ∧
    (BackgroundAppRunner.create_window this title w).window_cond_notified
      = w.window_cond_notified := by
  have hr := BackgroundAppRunner.create_window_runner this title w
  simp [World.create_queue, World.title_queue, World.window_cond_notified, hr,
    BackgroundApp.post_create_window]

/-- The create queues and the condition of the bound list after one run of `on_idle`: the create
queue is empty, the titles of the processed requests are gone, and no `notify_all` call is
made. -/
theorem World.on_idle_queues (w : World) :
    w.on_idle.create_queue = [] ∧
    w.on_idle.title_queue = w.title_queue.drop w.create_queue.length ∧
    w.on_idle.window_cond_notified = w.window_cond_notified := by
  unfold World.on_idle
  cases happ : w.runner.m_app with
  | none => simp [World.create_queue, World.title_queue, happ, BackgroundApp.new]
  | some app =>
    simp only []
    simp [World.create_queue, World.title_queue, World.window_cond_notified, World.set_app,
      happ, BackgroundApp.on_idle_eq]

/-- The create queues after the hide hook are as before; the hook makes one `notify_all` call on
the condition of the bound list if the bound list is empty after it, and none otherwise. -/
theorem World.on_hide_window_queues (window : Ptr) (w : World) :
    (w.on_hide_window window).create_queue = w.create_queue ∧
    (w.on_hide_window window).title_queue = w.title_queue ∧
    (w.on_hide_window window).window_cond_notified
      = w.window_cond_notified +
          if w.runner.m_app.isSome ∧ (w.on_hide_window window).window_list = [] then 1 else 0 := by
  unfold World.on_hide_window
  cases happ : w.runner.m_app with
  | none => simp [World.create_queue, World.title_queue, World.window_cond_notified, happ]
  | some app =>
    simp only []
    unfold BackgroundApp.on_hide_window
    simp only []
    split
    · rename_i he
      simp only [List.isEmpty_iff] at he
      simp [World.create_queue, World.title_queue, World.window_cond_notified, World.set_app,
        World.window_list, happ, he]
    · rename_i he
      simp only [List.isEmpty_iff] at he
      simp [World.create_queue, World.title_queue, World.window_cond_notified, World.set_app,
        World.window_list, happ, he]

/-- Every step of the program keeps the two create queues of the executor at the same length. -/
theorem Step.preserves_paired {w w1 : World} (hs : Step w w1)
    (h : w.create_queue.length = w.title_queue.length) :
    w1.create_queue.length = w1.title_queue.length := by
  have hsame : ∀ {w1 : World}, SameCreateQueues w w1 →
      w1.create_queue.length = w1.title_queue.length := by
    intro w1 hq
    rw [hq.1, hq.2.1]
    exact h
  cases hs with
  | new_controls_window queue => exact hsame (SameCreateQueues.of_runner rfl)
  | add_timer this interval func data queue => exact hsame (sameCreateQueues_add_timer _ _ _ _ _ w)
  | kill_timer this timer => exact hsame (sameCreateQueues_kill_timer _ _ w)
  | show_window_post this title c hc hw =>
    obtain ⟨h1, h2, _⟩ := BackgroundAppRunner.create_window_queues this title w
    rw [h1, h2, List.length_append, List.length_append, h]
    rfl
  | show_window_resume this => exact hsame (sameCreateQueues_start_all_timers _ w)
  | update this => exact hsame (sameCreateQueues_update _ w)
  | push_update_event this event => exact hsame (sameCreateQueues_push_update_event _ _ w)
  | process_events queue b => exact hsame (sameCreateQueues_process_events _ _ w)
  | destroy this => exact hsame (sameCreateQueues_destroy _ w)
  | on_idle =>
    obtain ⟨h1, h2, _⟩ := World.on_idle_queues w
    rw [h1, h2, List.length_drop, h]
    simp
  | on_hide_window window =>
    obtain ⟨h1, h2, _⟩ := World.on_hide_window_queues window w
    rw [h1, h2]
    exact h
  | fire id timer hm => exact hsame (sameCreateQueues_fire _ _ w)

/-- In every reachable state the two create queues of the executor have the same length. -/
theorem Reachable.create_queues_paired {w : World} (hr : Reachable w) :
    w.create_queue.length = w.title_queue.length := by
  induction hr with
  | init => rfl
  | step w w1 _ hs ih => exact hs.preserves_paired ih

/-- A call of `create_window` of the runner when the executor and its thread exist: the request
is posted, and nothing is constructed. -/
theorem BackgroundAppRunner.create_window_of_executor (x : Ptr) (title : Option String)
    (w : World) (app : BackgroundApp)
    (h : w.runner = { m_app := some app, m_thread := true }) :
    BackgroundAppRunner.create_window x title w = w.set_app (app.post_create_window x title) := by
  unfold BackgroundAppRunner.create_window
  simp [h, World.set_app]

/-- A sequence of calls of `create_window` of the runner when the executor and its thread exist:
the requests are appended to the two create queues in call order, one wake-up is scheduled for
each, and nothing is constructed. -/
theorem BackgroundAppRunner.create_windows_of_executor (requests : List (Ptr × Option String))
    (w : World) (app : BackgroundApp)
    (h : w.runner = { m_app := some app, m_thread := true }) :
    BackgroundAppRunner.create_windows requests w
      = w.set_app { app with
          m_create_win_queue := app.m_create_win_queue ++ requests.map Prod.fst
          m_win_title_queue := app.m_win_title_queue ++ requests.map Prod.snd
          idle_connected := app.idle_connected + requests.length } := by
  induction requests generalizing w app with
  | nil =>
    cases w
    simp_all [BackgroundAppRunner.create_windows, World.set_app]
  | cons r rest ih =>
    unfold BackgroundAppRunner.create_windows at ih ⊢
    rw [List.foldl_cons, BackgroundAppRunner.create_window_of_executor r.1 r.2 w app h,
      ih _ (app.post_create_window r.1 r.2) (by simp [World.set_app, h])]
    simp [World.set_app, BackgroundApp.post_create_window, List.append_assoc, Nat.add_assoc,
      Nat.add_comm 1]

/-- The calls a call of `create_window` of the runner makes: `hold` on the executor it
constructs, if there was none, and the construction of the thread, if there was none. -/
theorem BackgroundAppRunner.create_window_trace (x : Ptr) (title : Option String) (w : World) :
    (BackgroundAppRunner.create_window x title w).trace
      = w.trace ++ (if w.runner.m_app.isNone then [Call.hold] else [])
          ++ (if w.runner.m_thread = false then [Call.start_thread] else []) := by
  unfold BackgroundAppRunner.create_window
  cases hm : w.runner.m_app <;> cases ht : w.runner.m_thread <;>
    simp [World.set_app, World.call, ht]

/-- C21. Let the runner be as constructed: no executor and no thread. After a sequence of one or
more calls of `create_window` the executor and the thread exist, each constructed once, by the
first call: the calls made are one `hold`, on the new executor, and one construction of a thread.
The create queue holds the controllers of the requests and the title queue their titles, both in
call order, and one wake-up was scheduled for each call; nothing else has changed. The two
queues have the same length and, paired up, are the requests. In any state a call constructs an
executor only if there is none and a thread only if there is none; a call made when both exist
posts its request and does nothing else. In every reachable state of the program the two queues
have the same length. -/
theorem BackgroundAppRunner.create_windows_constructs_once (r : Ptr × Option String)
    (rest : List (Ptr × Option String)) (w : World) (hnew : w.runner = BackgroundAppRunner.new) :
    BackgroundAppRunner.create_windows (r :: rest) w
      = { w with
          runner :=
            { m_app := some { BackgroundApp.new with
                m_create_win_queue := (r :: rest).map Prod.fst
                m_win_title_queue := (r :: rest).map Prod.snd
                idle_connected := (r :: rest).length }
              m_thread := true }
          trace := w.trace ++ [Call.hold, Call.start_thread] } ∧
    BackgroundAppRunner.create_window r.1 r.2 w
      = { w with
          runner :=
            { m_app := some (BackgroundApp.new.post_create_window r.1 r.2), m_thread := true }
          trace := w.trace ++ [Call.hold, Call.start_thread] } ∧
    (BackgroundAppRunner.create_windows (r :: rest) w).trace.count Call.start_thread
      = w.trace.count Call.start_thread + 1 ∧
    (BackgroundAppRunner.create_windows (r :: rest) w).trace.count Call.hold
      = w.trace.count Call.hold + 1 ∧
    (BackgroundAppRunner.create_windows (r :: rest) w).create_queue.length
      = (BackgroundAppRunner.create_windows (r :: rest) w).title_queue.length ∧
    (BackgroundAppRunner.create_windows (r :: rest) w).create_queue.zip
        (BackgroundAppRunner.create_windows (r :: rest) w).title_queue = r :: rest ∧
    (∀ (w1 : World) (x : Ptr) (title : Option String),
      (BackgroundAppRunner.create_window x title w1).trace
        = w1.trace ++ (if w1.runner.m_app.isNone then [Call.hold] else [])
            ++ (if w1.runner.m_thread = false then [Call.start_thread] else [])) ∧
    (∀ (w1 : World) (app : BackgroundApp) (x : Ptr) (title : Option String),
      w1.runner = { m_app := some app, m_thread := true } →
      BackgroundAppRunner.create_window x title w1
        = w1.set_app { app with
            m_create_win_queue := app.m_create_win_queue ++ [x]
            m_win_title_queue := app.m_win_title_queue ++ [title]
            idle_connected := app.idle_connected + 1 }) ∧
    (∀ w1 : World, Reachable w1 → w1.create_queue.length = w1.title_queue.length) := by
  have hfirst : BackgroundAppRunner.create_window r.1 r.2 w
      = { w with
          runner :=
            { m_app := some (BackgroundApp.new.post_create_window r.1 r.2), m_thread := true }
          trace := w.trace ++ [Call.hold, Call.start_thread] } := by
    unfold BackgroundAppRunner.create_window
    simp [hnew, BackgroundAppRunner.new, World.set_app, World.call]
  have hall : BackgroundAppRunner.create_windows (r :: rest) w
      = { w with
          runner :=
            { m_app := some { BackgroundApp.new with
                m_create_win_queue := (r :: rest).map Prod.fst
                m_win_title_queue := (r :: rest).map Prod.snd
                idle_connected := (r :: rest).length }
              m_thread := true }
          trace := w.trace ++ [Call.hold, Call.start_thread] } := by
    have h2 := BackgroundAppRunner.create_windows_of_executor rest
      (BackgroundAppRunner.create_window r.1 r.2 w) (BackgroundApp.new.post_create_window r.1 r.2)
      (by rw [hfirst])
    have h3 : BackgroundAppRunner.create_windows (r :: rest) w
        = BackgroundAppRunner.create_windows rest (BackgroundAppRunner.create_window r.1 r.2 w) :=
      rfl
    rw [h3, h2, hfirst]
    simp [World.set_app, BackgroundApp.post_create_window, BackgroundApp.new, Nat.add_comm]
  refine ⟨hall, hfirst, ?_, ?_, ?_, ?_,
    fun w1 x title => BackgroundAppRunner.create_window_trace x title w1,
    ?_, fun w1 h => h.create_queues_paired⟩
  · rw [hall]
    simp [List.count_append]
  · rw [hall]
    simp [List.count_append]
  · rw [hall]
    simp [World.create_queue, World.title_queue]
  · rw [hall]
    simp [World.create_queue, World.title_queue]
    exact (List.zip_of_prod rfl rfl).symm
  · intro w1 app x title h
    exact BackgroundAppRunner.create_window_of_executor x title w1 app h

/-- Witness for C21: from the initial state, three calls of `create_window`, for the controller
5 with the title "a", for the controller 6 without a title and for the controller 5 again with
the title "b". -/
theorem BackgroundAppRunner.create_windows_constructs_once_witness :
    (BackgroundAppRunner.create_windows [(5, some "a"), (6, none), (5, some "b")]
      World.init).trace = [Call.hold, Call.start_thread] ∧
    (BackgroundAppRunner.create_windows [(5, some "a"), (6, none), (5, some "b")]
      World.init).runner.m_thread = true ∧
    (BackgroundAppRunner.create_windows [(5, some "a"), (6, none), (5, some "b")]
      World.init).create_queue = [5, 6, 5] ∧
    (BackgroundAppRunner.create_windows [(5, some "a"), (6, none), (5, some "b")]
      World.init).title_queue = [some "a", none, some "b"] := by
  have h := (BackgroundAppRunner.create_windows_constructs_once (5, some "a")
    [(6, none), (5, some "b")] World.init rfl).1
  rw [h]
  exact ⟨rfl, rfl, rfl, rfl⟩

/-! ### Waiting until all windows are closed -/

/-- The only step of the program that makes a `notify_all` call on `m_window_cond` is the hide
hook of a window, when it leaves the bound list empty; it makes one call. -/
theorem Step.window_cond_notified_by_hide {w w1 : World} (hs : Step w w1)
    (hn : w1.window_cond_notified ≠ w.window_cond_notified) :
    (∃ window, w1 = w.on_hide_window window) ∧ w1.window_list = [] ∧
      w1.window_cond_notified = w.window_cond_notified + 1 := by
  have hsame : ∀ {w2 : World}, SameCreateQueues w w2 →
      w2.window_cond_notified = w.window_cond_notified := fun hq => hq.2.2
  cases hs with
  | new_controls_window queue => exact absurd (hsame (SameCreateQueues.of_runner rfl)) hn
  | add_timer this interval func data queue =>
    exact absurd (hsame (sameCreateQueues_add_timer _ _ _ _ _ w)) hn
  | kill_timer this timer => exact absurd (hsame (sameCreateQueues_kill_timer _ _ w)) hn
  | show_window_post this title c hc hw =>
    exact absurd (BackgroundAppRunner.create_window_queues this title w).2.2 hn
  | show_window_resume this => exact absurd (hsame (sameCreateQueues_start_all_timers _ w)) hn
  | update this => exact absurd (hsame (sameCreateQueues_update _ w)) hn
  | push_update_event this event =>
    exact absurd (hsame (sameCreateQueues_push_update_event _ _ w)) hn
  | process_events queue b => exact absurd (hsame (sameCreateQueues_process_events _ _ w)) hn
  | destroy this => exact absurd (hsame (sameCreateQueues_destroy _ w)) hn
  | on_idle => exact absurd (World.on_idle_queues w).2.2 hn
  | on_hide_window window =>
    have h3 := (World.on_hide_window_queues window w).2.2
    by_cases hc : w.runner.m_app.isSome ∧ (w.on_hide_window window).window_list = []
    · rw [if_pos hc] at h3
      exact ⟨⟨window, rfl⟩, hc.2, h3⟩
    · rw [if_neg hc] at h3
      exact absurd h3 hn
  | fire id timer hm => exact absurd (hsame (sameCreateQueues_fire _ _ w)) hn

/-- The hide hook for the window of the only bound controller empties the bound list. -/
theorem World.on_hide_window_last (w : World) (this : Ptr) (c : ControlsWindow)
    (hl : w.window_list = [this]) (hc : w.controllers this = some c) :
    w.runner.m_app.isSome ∧ (w.on_hide_window c.m_window).window_list = [] := by
  cases happ : w.runner.m_app with
  | none => simp [World.window_list, happ, BackgroundApp.new] at hl
  | some app =>
    refine ⟨rfl, ?_⟩
    have hl1 : app.m_window_list = [this] := by
      rw [← World.window_list_of_app w app happ]
      exact hl
    have hloop : BackgroundApp.on_hide_window_loop c.m_window [this] w
        = ([], WindowBase.back_app_delete_window this w) := by
      rw [BackgroundApp.on_hide_window_loop]
      simp only [World.get_window_live w this c hc, if_true]
    unfold World.on_hide_window
    rw [happ]
    simp only []
    unfold BackgroundApp.on_hide_window
    rw [hl1, hloop]
    simp [World.window_list, World.set_app]

/-- C24. `wait_window_all_closed` of the runner returns at once when the window count is zero,
which includes the case that no executor was ever created, and otherwise blocks the caller on
the condition `m_window_cond`. The only step of the program that signals this condition is the
hide hook of a window, when it leaves the bound list empty, and the hide hook for the window of
the only bound controller does signal it; after it a new call returns at once. -/
theorem BackgroundAppRunner.wait_window_all_closed_blocks (w : World) :
    (BackgroundAppRunner.get_window_num w = 0 →
      BackgroundAppRunner.wait_window_all_closed w = Wait.returned) ∧
    (w.runner.m_app = none → BackgroundAppRunner.get_window_num w = 0) ∧
    (BackgroundAppRunner.get_window_num w ≠ 0 →
      BackgroundAppRunner.wait_window_all_closed w = Wait.blocked) ∧
    (∀ w1, Step w w1 → w1.window_cond_notified ≠ w.window_cond_notified →
      (∃ window, w1 = w.on_hide_window window) ∧ w1.window_list = [] ∧
        w1.window_cond_notified = w.window_cond_notified + 1) ∧
    (∀ this c, w.window_list = [this] → w.controllers this = some c →
      (w.on_hide_window c.m_window).window_list = [] ∧
      (w.on_hide_window c.m_window).window_cond_notified = w.window_cond_notified + 1 ∧
      BackgroundAppRunner.wait_window_all_closed (w.on_hide_window c.m_window)
        = Wait.returned) := by
  have hnum : ∀ w : World, BackgroundAppRunner.get_window_num w = w.window_list.length := by
    intro w
    unfold BackgroundAppRunner.get_window_num World.window_list
    cases w.runner.m_app <;> rfl
  have hwait : ∀ w : World, BackgroundAppRunner.wait_window_all_closed w
      = if BackgroundAppRunner.get_window_num w = 0 then Wait.returned else Wait.blocked := by
    intro w
    unfold BackgroundAppRunner.wait_window_all_closed BackgroundAppRunner.get_window_num
      BackgroundApp.wait_window_all_closed
    cases w.runner.m_app <;> rfl
  refine ⟨?_, ?_, ?_, fun w1 hs hn => hs.window_cond_notified_by_hide hn, ?_⟩
  · intro h
    rw [hwait, if_pos h]
  · intro h
    unfold BackgroundAppRunner.get_window_num
    rw [h]
  · intro h
    rw [hwait, if_neg h]
  · intro this c hl hc
    have hlast := World.on_hide_window_last w this c hl hc
    have h3 := (World.on_hide_window_queues c.m_window w).2.2
    rw [if_pos hlast] at h3
    refine ⟨hlast.2, h3, ?_⟩
    rw [hwait, hnum, hlast.2]
    rfl

/-- Witness for C24: in `scenarioAClosed` the controller 4 is the only one bound, a caller of
`wait_window_all_closed` blocks, and the hide hook of the window of the controller, at 5, signals
the condition; in the initial state, without an executor, the call returns at once. -/
theorem BackgroundAppRunner.wait_window_all_closed_blocks_witness :
    BackgroundAppRunner.wait_window_all_closed World.init = Wait.returned ∧
    BackgroundAppRunner.wait_window_all_closed scenarioAClosed = Wait.blocked ∧
    (scenarioAClosed.on_hide_window 5).window_cond_notified
      = scenarioAClosed.window_cond_notified + 1 ∧
    BackgroundAppRunner.wait_window_all_closed (scenarioAClosed.on_hide_window 5)
      = Wait.returned := by
  have h0 := (BackgroundAppRunner.wait_window_all_closed_blocks World.init).1 (by decide)
  have h1 := (BackgroundAppRunner.wait_window_all_closed_blocks scenarioAClosed).2.2.1
    (by decide)
  have h2 := (BackgroundAppRunner.wait_window_all_closed_blocks scenarioAClosed).2.2.2.2 4 _
    (by decide) rfl
  exact ⟨h0, h1, h2.2.1, h2.2.2⟩

/-! ### The destruction of a bound controller -/

/-- The invariant of the bound list holds in `exampleShownWorld`, which is reached without the
destruction of a controller. -/
theorem exampleShownWorld_invariant : exampleShownWorld.BoundListInvariant :=
  World.on_idle_invariant _
    ((sameView_start_all_timers 2 _).keeps_invariant
      (World.on_idle_invariant _
        (BackgroundAppRunner.create_window_invariant 2 (some "Main") exampleTimerWorld rfl
          ((sameView_add_timer 2 100 7 8 nullptr _).keeps_invariant
            (World.new_controls_window_invariant nullptr World.init World.init_invariant)))))

/-- The state `exampleDestroyedShown` is reachable. -/
theorem exampleDestroyedShown_reachable : Reachable exampleDestroyedShown :=
  Reachable.step _ _ exampleShownWorld_reachable (Step.destroy _ 2)

/-- C15. The code at the failing input: `exampleDestroyedShown` is reachable, by the destruction
of the bound controller 2, which posts the only kind of delete request the program has. In it
the controller is destroyed, no controller has a window object, and yet the bound list of the
executor still holds the controller and `get_window_num` is 1. The next drain tick, which
processes the delete request, uses the destroyed controller twice (`back_app_get_window`,
`back_app_delete_window`). Every step of the program other than the destruction of a controller
keeps the invariant of the bound list: no duplicates, and a controller is in the list if and only
if its window object is not null. -/
theorem WindowBase.destroy_leaves_controller_bound :
    Reachable exampleDestroyedShown ∧
    exampleDestroyedShown.controllers 2 = none ∧
    (∀ x, ¬ exampleDestroyedShown.Bound x) ∧
    exampleDestroyedShown.window_list = [2] ∧
    BackgroundAppRunner.get_window_num exampleDestroyedShown = 1 ∧
    exampleDestroyedShown.runner.m_app.map (fun app => app.m_delete_win_queue) = some [2] ∧
    exampleDestroyedShown.on_idle.trace.count (Call.invalid_access 2) = 2 ∧
    exampleDestroyedShown.on_idle.window_list = [] ∧
    (∀ w w1 : World, Step w w1 → (∀ this, w1 ≠ WindowBase.destroy this w) →
      w.BoundListInvariant → w1.BoundListInvariant) := by
  refine ⟨exampleDestroyedShown_reachable, by decide, ?_, by decide, by decide, by decide,
    by decide, by decide, fun w w1 hs hd h => hs.preserves_invariant_unless_destroy hd h⟩
  intro x hx
  obtain ⟨c, hc, hb⟩ := hx
  have hcs : exampleDestroyedShown.controllers = store exampleShownWorld.controllers 2 none :=
    (WindowBase.destroy_view 2 exampleShownWorld).1
  rw [hcs] at hc
  by_cases h2 : x = 2
  · simp [store, h2] at hc
  · simp only [store, if_neg h2] at hc
    obtain ⟨_, _, _, h4, _⟩ := exampleShownWorld_invariant
    have hm : x ∈ exampleShownWorld.window_list :=
      (h4 x).2 ⟨c.m_window, by
        simp [World.window_of, hc, ControlsWindow.back_app_get_window,
          ControlsWindow.get_window_object], hb⟩
    have hl : exampleShownWorld.window_list = [2] := by decide
    rw [hl] at hm
    exact h2 (List.mem_singleton.1 hm)

/-- C16. The code at the failing input: `exampleDestroyedShown` is reachable, by the destruction
of the bound controller 2, whose timer 3 is running; the destructor has stopped and freed no
timer and has posted the delete request, the only kind of delete request the program has. The
drain tick that processes the request unbinds the controller, but it runs `back_app_get_window`
and `back_app_delete_window` on the destroyed controller: after the tick the timer 3 is still
running, its registration is still in the main loop, and the window object at 4 has not been
deleted. The registration then fires, and the user callback of the timer runs when the worker
processes its event queue. -/
theorem WindowBase.delete_request_on_destroyed_controller :
    Reachable exampleDestroyedShown ∧
    (exampleShownWorld.controllers 2).map (fun c => (c.m_window, c.m_timer_list))
      = some (4, [3]) ∧
    exampleDestroyedShown.controllers 2 = none ∧
    exampleDestroyedShown.runner.m_app.map (fun app => (app.m_delete_win_queue, app.m_window_list))
      = some ([2], [2]) ∧
    (exampleDestroyedShown.timers 3).map (fun t => t.m_is_running) = some true ∧
    exampleDestroyedShown.on_idle.window_list = [] ∧
    exampleDestroyedShown.on_idle.trace.count (Call.invalid_access 2) = 2 ∧
    (exampleDestroyedShown.on_idle.timers 3).map (fun t => t.m_is_running) = some true ∧
    exampleDestroyedShown.on_idle.timeouts = [(0, 3)] ∧
    (exampleDestroyedShown.on_idle.main_windows 4).isSome = true ∧
    ((exampleDestroyedShown.on_idle.fire 0 3).process_events
        WindowBase.get_user_global_queue false).trace
      = exampleDestroyedShown.on_idle.trace ++ [Call.timer_event_func 7 8] := by
  refine ⟨exampleDestroyedShown_reachable, by decide, by decide, by decide, by decide,
    by decide, by decide, by decide, by decide, by decide, by decide⟩

end shl.gtk.base
